import Mathlib

/-!
# Process identity changes: `priv.c` and `priv2`

A shallow embedding of `src/c/priv/priv.c` (Tsafrir/Wagner, modified by Dittmer) and of
`src/c/priv2/priv2.c`, `priv2_graph.c` and `priv2_setuid.c`, as compiled by default on Linux:
`__linux__` is defined, and `LIVING_ON_THE_EDGE`, `SET_UIDS_ONLY`, `__FreeBSD__`, `_AIX`,
`__sun` and `__APPLE__` are not, so `DO_SYS`/`DO_CHK` call `abort()` and
`set_uids`/`set_gids` are `setresuid`/`setresgid`. The AIX functions `aix_set_uids` and
`aix_set_gids`, the Solaris functions `solaris_set_uids` and `solaris_set_gids`, and the check
`GeneralSanityVisitor::visitEdge` and the uid tests of `Priv2SanityVisitor::visitVertex` of
`src/src/GraphVerificationImpl.h` are embedded separately.

* `uid_t` and `gid_t` are 32-bit unsigned: values are `Nat`, `(uid_t)-1` is `4294967295`,
  and the places where wrap-around or the conversion to `int` matter reduce modulo `2^32`
  explicitly.
* `int`/`long` sizes and return codes are `Int`.
* The operating system and the C library are not part of the program; they are a parameter
  (`OS σ`, `OS2 σ`, `AIX σ`, `Solaris σ`) giving every system call as a function on an
  abstract kernel state `σ`. The generated tables of `priv2` are a parameter too (`Tables`).
* A `World` is the kernel state together with `errno` and the log of the mutating system
  calls issued so far. A C function is a `Proc`: a function from the world to an `Outcome`,
  which is a normal return, a call of `abort()`, or a run without a defined result (a read
  outside an array, and for `priv2` also a read of an array entry that was never written or a
  recursion without end).
-/

namespace Priv

/-! ## Constants and data structures (`priv.h`) -/

/-- The value `(uid_t)-1`, equally `(gid_t)-1`: the "no change" argument of the set*id calls. -/
def NEG1 : Nat := 4294967295

/-- The errno value EPERM. -/
def EPERM : Int := 1

/-- The errno value EINVAL. -/
def EINVAL : Int := 22

/-- Supplementary groups: `list` is the array `list` points to, `size` the field `size`. -/
structure sups_t where
  list : List Nat
  size : Int
deriving DecidableEq, Repr

/-- The target credentials of a user. -/
structure ucred_t where
  uid : Nat
  gid : Nat
  sups : sups_t
deriving DecidableEq, Repr

/-- Real, effective and saved user ids. -/
structure uids_t where
  r : Nat
  e : Nat
  s : Nat
deriving DecidableEq, Repr

/-- Real, effective and saved group ids. -/
structure gids_t where
  r : Nat
  e : Nat
  s : Nat
deriving DecidableEq, Repr

/-- Process credentials. -/
structure pcred_t where
  uids : uids_t
  gids : gids_t
  sups : sups_t
deriving DecidableEq, Repr

/-! ## The operating system as a parameter -/

/-- The Solaris structure `prcred_t` of `/proc/self/cred`: the fields `pr_euid`, `pr_ruid`,
`pr_suid`, `pr_egid`, `pr_rgid`, `pr_sgid` and `pr_ngroups`; the array `pr_groups` is left out,
the only value `priv.c` gives `pr_ngroups` being 0. -/
structure prcred_t where
  pr_euid : Nat
  pr_ruid : Nat
  pr_suid : Nat
  pr_egid : Nat
  pr_rgid : Nat
  pr_sgid : Nat
  pr_ngroups : Int
deriving DecidableEq, Repr

/-- The flags `ID_EFFECTIVE`, `ID_REAL` and `ID_SAVED` of the AIX calls `setuidx`, `setgidx`,
`getuidx` and `getgidx`; flags joined by `|` are a list. -/
inductive id_flag where
  | ID_EFFECTIVE
  | ID_REAL
  | ID_SAVED
deriving DecidableEq, Repr

/-- A mutating system call, as recorded in the log. -/
inductive Call where
  | setgroups (size : Int) (list : List Nat)
  | setresgid (r e s : Nat)
  | setresuid (r e s : Nat)
  | seteuid (u : Nat)
  | setegid (g : Nat)
  | setuid (u : Nat)
  | setreuid (r e : Nat)
  | setgid (g : Nat)
  | setregid (r e : Nat)
  | setuidx (which : List id_flag) (u : Nat)
  | setgidx (which : List id_flag) (g : Nat)
  | open_ctl
  | writev_ctl (fd : Int) (cmd : Nat) (prc : prcred_t)
deriving DecidableEq, Repr

/-- What a mutating system call gives back: its return value, the value it stores in `errno`
when it returns `-1`, and the kernel state after it. -/
structure SysRet (σ : Type) where
  rc : Int
  err : Int
  os : σ

/-- The system calls and library functions `priv.c` uses, over a kernel state `σ`.
`getgroups` gives the return value of `getgroups(0, NULL)` and the entries the kernel writes
into a buffer of that many entries; `proc_status` is `none` when `/proc/self/status` cannot be
opened and otherwise the fourth number of the first line matching `Uid: %u %u %u %u` and of
the first line matching `Gid: %u %u %u %u`, when there is one; `qsort` sorts an array with
the given comparison function. -/
structure OS (σ : Type) where
  sysconf_NGROUPS_MAX : σ → Int
  getuid : σ → Nat
  geteuid : σ → Nat
  getgid : σ → Nat
  getegid : σ → Nat
  getresuid : σ → Int × uids_t
  getresgid : σ → Int × gids_t
  getgroups : σ → Int × List Nat
  proc_status : σ → Option (Option Nat × Option Nat)
  qsort : (Nat → Nat → Int) → List Nat → List Nat
  setgroups : Int → List Nat → σ → SysRet σ
  setresuid : Nat → Nat → Nat → σ → SysRet σ
  setresgid : Nat → Nat → Nat → σ → SysRet σ
  seteuid : Nat → σ → SysRet σ
  setegid : Nat → σ → SysRet σ

/-- The state a C function runs in: the kernel state, `errno`, and the mutating system calls
issued so far, oldest first. -/
structure World (σ : Type) where
  os : σ
  errno : Int
  log : List Call
deriving DecidableEq

/-- How a C function ends. -/
inductive Outcome (σ : Type) (α : Type) where
  | ret (a : α) (w : World σ)
  | abort (w : World σ)
  | undef (w : World σ)
deriving DecidableEq

/-- The world in which a function ended. -/
def Outcome.world {σ α : Type} : Outcome σ α → World σ
  | .ret _ w => w
  | .abort w => w
  | .undef w => w

/-- A C function with result type `α`. -/
def Proc (σ : Type) (α : Type) : Type := World σ → Outcome σ α

/-- Sequencing of C statements. -/
def Proc.bind {σ α β : Type} (m : Proc σ α) (f : α → Proc σ β) : Proc σ β := fun w =>
  match m w with
  | .ret a w1 => f a w1
  | .abort w1 => .abort w1
  | .undef w1 => .undef w1

instance {σ : Type} : Monad (Proc σ) where
  pure a := fun w => .ret a w
  bind := Proc.bind

/-- The call `abort()`. -/
def abort {σ α : Type} : Proc σ α := fun w => .abort w

/-- A read outside an array. -/
def undef {σ α : Type} : Proc σ α := fun w => .undef w

/-- The macro `DO_SYS(call)`: `if( (call) == -1 ) abort()`. -/
def DO_SYS {σ : Type} (call : Proc σ Int) : Proc σ Unit := do
  let rc ← call
  if rc = -1 then abort else pure ()

/-- The macro `DO_CHK(expr)`: `if( ! (expr) ) abort()`. -/
def DO_CHK {σ : Type} (expr : Proc σ Bool) : Proc σ Unit := do
  let b ← expr
  if !b then abort else pure ()

/-- A read of kernel state that cannot fail. -/
def rd {σ α : Type} (f : σ → α) : Proc σ α := fun w => .ret (f w.os) w

/-- A mutating system call: it is logged, the kernel state changes, and `errno` is set when
the call returns `-1`. -/
def sys {σ : Type} (c : Call) (f : σ → SysRet σ) : Proc σ Int := fun w =>
  let r := f w.os
  .ret r.rc ⟨r.os, if r.rc = -1 then r.err else w.errno, w.log ++ [c]⟩

/-- The array read `arr[i]`, `none` outside the array. -/
def idx (arr : List Nat) (i : Int) : Option Nat :=
  if i < 0 then none else arr[i.toNat]?

/-! ## `ucred_is_sane` -/

/-- The loop `for(i=1; i<n; i++) if( arr[i-1] >= arr[i] ) return false;` of `ucred_is_sane`,
started at `i` with `fuel` iterations allowed: `some false` when the loop returns false,
`some true` when it runs to its end, `none` on a read outside `arr` (or without fuel). -/
def ucred_is_sane_loop (arr : List Nat) (n : Int) : Nat → Int → Option Bool
  | 0, _ => none
  | fuel + 1, i =>
    if i < n then
      match idx arr (i - 1), idx arr i with
      | some a, some b => if a ≥ b then some false else ucred_is_sane_loop arr n fuel (i + 1)
      | _, _ => none
    else some true

/-- The function `ucred_is_sane` given the value `nm` of `sysconf(_SC_NGROUPS_MAX)` and the
current `errno`: the result and `errno` afterwards; `none` on a read outside the array. -/
def ucred_is_sane_pure (nm : Int) (uc : ucred_t) (errno : Int) : Option (Bool × Int) :=
  let n := uc.sups.size
  let arr := uc.sups.list
  match ucred_is_sane_loop arr n (n.toNat + 1) 1 with
  | none => none
  | some false => some (false, errno)
  | some true =>
    let rtn := decide (nm ≥ 0) && decide (nm ≥ n) && decide (n ≥ 0) &&
      decide (uc.uid ≠ NEG1) && decide (uc.gid ≠ NEG1)
    if !rtn then some (rtn, EINVAL) else some (rtn, errno)

/-- The function `ucred_is_sane`. -/
def ucred_is_sane {σ : Type} (K : OS σ) (uc : ucred_t) : Proc σ Bool := fun w =>
  match ucred_is_sane_pure (K.sysconf_NGROUPS_MAX w.os) uc w.errno with
  | none => .undef w
  | some (b, e) => .ret b ⟨w.os, e, w.log⟩

/-! ## Comparing supplementary group lists -/

/-- The loop of `eql_sups`,
`for(i=0, j=0; i < n; i++, j++) if( cur[j] != tgt[i] ) { if( cur[j] == egid ) i--; else return false; }`,
started at `i`, `j` with `fuel` iterations allowed: `some none` when the loop returns false,
`some (some (i, j))` with the final `i` and `j` when it runs to its end, `none` on a read
outside an array (or without fuel). -/
def eql_sups_loop (cur tgt : List Nat) (n : Int) (egid : Nat) :
    Nat → Int → Int → Option (Option (Int × Int))
  | 0, _, _ => none
  | fuel + 1, i, j =>
    if i < n then
      match idx cur j, idx tgt i with
      | some c, some t =>
        if c ≠ t then
          if c = egid then eql_sups_loop cur tgt n egid fuel ((i - 1) + 1) (j + 1)
          else some none
        else eql_sups_loop cur tgt n egid fuel (i + 1) (j + 1)
      | _, _ => none
    else some (some (i, j))

/-- The statements of `eql_sups` after its loop,
`return j == cursups->size || (j+1 == cursups->size && cursups->list[j] == egid);`,
and before them the `return false` taken inside the loop; `none` on a read outside an array. -/
def eql_sups_end (cursups : sups_t) (egid : Nat) : Option (Option (Int × Int)) → Option Bool
  | none => none
  | some none => some false
  | some (some (_, j)) =>
    if j = cursups.size then some true
    else if j + 1 = cursups.size then
      match idx cursups.list j with
      | some c => some (decide (c = egid))
      | none => none
    else some false

/-- The function `eql_sups`, given the value `egid` of `getegid()`; `none` on a read outside
an array. -/
def eql_sups_pure (egid : Nat) (cursups targetsups : sups_t) : Option Bool :=
  let n := targetsups.size
  let diff := cursups.size - targetsups.size
  if diff > 1 ∨ diff < 0 then some false
  else
    eql_sups_end cursups egid
      (eql_sups_loop cursups.list targetsups.list n egid (cursups.list.length + 1) 0 0)

/-- The function `eql_sups`. -/
def eql_sups {σ : Type} (K : OS σ) (cursups targetsups : sups_t) : Proc σ Bool := fun w =>
  match eql_sups_pure (K.getegid w.os) cursups targetsups with
  | none => .undef w
  | some b => .ret b w

/-! ## Reading the credentials of the process -/

/-- The comparison function `cmp_gid` for `qsort`: the difference of two `gid_t`, reduced
modulo `2^32`, converted to `int`. -/
def cmp_gid (x y : Nat) : Int :=
  let d := (x % 4294967296 + 4294967296 - y % 4294967296) % 4294967296
  if d < 2147483648 then (d : Int) else (d : Int) - 4294967296

/-- The loop of `get_sups`,
`for(i=0, j=0; i < size; i++) if( i==0 || arr[i] > arr[i-1] ) s->list[j++] = arr[i];`,
started at `i` with `out` the entries written so far and `fuel` iterations allowed; `none`
on a read outside `arr` (or without fuel). -/
def get_sups_loop (arr : List Nat) (size : Int) : Nat → Int → List Nat → Option (List Nat)
  | 0, _, _ => none
  | fuel + 1, i, out =>
    if i < size then
      if i = 0 then
        match idx arr i with
        | some a => get_sups_loop arr size fuel (i + 1) (out ++ [a])
        | none => none
      else
        match idx arr i, idx arr (i - 1) with
        | some a, some b =>
          if a > b then get_sups_loop arr size fuel (i + 1) (out ++ [a])
          else get_sups_loop arr size fuel (i + 1) out
        | _, _ => none
    else some out

/-- The function `get_sups`: its return value and the list it stores in `*s`. -/
def get_sups {σ : Type} (K : OS σ) : Proc σ (Int × sups_t) := do
  let size ← rd (fun os => (K.getgroups os).1)
  DO_CHK (pure (decide (size ≥ 0)))
  if size > 0 then do
    DO_CHK (pure (decide (size ≥ 0)))
    DO_SYS (rd (fun os => (K.getgroups os).1))
    let arr ← rd (fun os => (K.getgroups os).2)
    match get_sups_loop (K.qsort cmp_gid arr) size (size.toNat + 1) 0 [] with
    | none => undef
    | some out => pure (0, ⟨out, out.length⟩)
  else
    pure (0, ⟨[], 0⟩)

/-- The function `get_saved_ids` (the `getresuid`/`getresgid` branch): its return value, and
the saved uid and gid. -/
def get_saved_ids {σ : Type} (K : OS σ) : Proc σ (Int × Nat × Nat) := do
  DO_SYS (rd (fun os => (K.getresuid os).1))
  let u ← rd (fun os => (K.getresuid os).2)
  DO_SYS (rd (fun os => (K.getresgid os).1))
  let g ← rd (fun os => (K.getresgid os).2)
  pure (0, u.s, g.s)

/-- The function `get_fs_ids` (Linux): its return value, and the filesystem uid and gid. -/
def get_fs_ids {σ : Type} (K : OS σ) : Proc σ (Int × Nat × Nat) := do
  let fp ← rd K.proc_status
  match fp with
  | none => abort
  | some (u, g) =>
    pure (if u.isSome && g.isSome then 0 else -1, u.getD NEG1, g.getD NEG1)

/-- The macro `DO_SYS` around a call that also stores a result: the stored result. -/
def DO_SYS_get {σ α : Type} (call : Proc σ (Int × α)) : Proc σ α := do
  let r ← call
  if r.1 = -1 then abort else pure r.2

/-- The function `get_pcred`: its return value and the credentials it stores in `*pc`. -/
def get_pcred {σ : Type} (K : OS σ) : Proc σ (Int × pcred_t) := do
  let saved ← DO_SYS_get (get_saved_ids K)
  let sups ← DO_SYS_get (get_sups K)
  let ruid ← rd K.getuid
  let euid ← rd K.geteuid
  let rgid ← rd K.getgid
  let egid ← rd K.getegid
  pure (0, ⟨⟨ruid, euid, saved.1⟩, ⟨rgid, egid, saved.2⟩, sups⟩)

/-! ## Changing supplementary groups, gids and uids -/

/-- The function `set_sups` (not on FreeBSD). -/
def set_sups {σ : Type} (K : OS σ) (targetsups : sups_t) : Proc σ Int := do
  let euid ← rd K.geteuid
  (if euid = 0 then
    DO_SYS (sys (.setgroups targetsups.size targetsups.list)
      (K.setgroups targetsups.size targetsups.list))
  else do
    let cursups ← DO_SYS_get (get_sups K)
    let eq ← eql_sups K cursups targetsups
    (if !eq then
      DO_SYS (sys (.setgroups targetsups.size targetsups.list)
        (K.setgroups targetsups.size targetsups.list))
    else pure ()))
  pure 0

/-- The function `set_uids` (the `setresuid` branch). -/
def set_uids {σ : Type} (K : OS σ) (ruid euid suid : Nat) : Proc σ Int := do
  DO_SYS (sys (.setresuid ruid euid suid) (K.setresuid ruid euid suid))
  pure 0

/-- The function `set_gids` (the `setresgid` branch). -/
def set_gids {σ : Type} (K : OS σ) (rgid egid sgid : Nat) : Proc σ Int := do
  DO_SYS (sys (.setresgid rgid egid sgid) (K.setresgid rgid egid sgid))
  pure 0

/-! ## The higher level algorithm -/

/-- The function `drop_privileges_permanently`. -/
def drop_privileges_permanently {σ : Type} (K : OS σ) (uc : ucred_t) : Proc σ Int := do
  let u := uc.uid
  let g := uc.gid
  DO_CHK (ucred_is_sane K uc)
  DO_SYS (set_sups K uc.sups)
  DO_SYS (set_gids K g g g)
  DO_SYS (set_uids K u u u)
  let pc ← DO_SYS_get (get_pcred K)
  DO_CHK (eql_sups K pc.sups uc.sups)
  DO_CHK (pure (decide (g = pc.gids.r) && decide (g = pc.gids.e) && decide (g = pc.gids.s)))
  DO_CHK (pure (decide (u = pc.uids.r) && decide (u = pc.uids.e) && decide (u = pc.uids.s)))
  let fs ← DO_SYS_get (get_fs_ids K)
  DO_CHK (pure (decide (fs.1 = uc.uid)))
  DO_CHK (pure (decide (fs.2 = uc.gid)))
  pure 0

/-- The saved id `drop_privileges_temporarily` asks for, from the old real, effective and
saved ids and the new effective id:
`( old.e == old.r || old.e == old.s ) ? old.s : newE`. -/
def new_saved (r e s newE : Nat) : Nat :=
  if e = r ∨ e = s then s else newE

/-- The function `drop_privileges_temporarily`. -/
def drop_privileges_temporarily {σ : Type} (K : OS σ) (uc : ucred_t) : Proc σ Int := do
  let newEuid := uc.uid
  let newEgid := uc.gid
  DO_CHK (ucred_is_sane K uc)
  let old ← DO_SYS_get (get_pcred K)
  let newSuid := new_saved old.uids.r old.uids.e old.uids.s newEuid
  let newSgid := new_saved old.gids.r old.gids.e old.gids.s newEgid
  DO_SYS (set_sups K uc.sups)
  DO_SYS (set_gids K old.gids.r newEgid newSgid)
  DO_SYS (set_uids K old.uids.r newEuid newSuid)
  let new ← DO_SYS_get (get_pcred K)
  DO_CHK (eql_sups K new.sups uc.sups)
  DO_CHK (pure (decide (old.gids.r = new.gids.r)))
  DO_CHK (pure (decide (newEgid = new.gids.e)))
  DO_CHK (pure (decide (newSgid = new.gids.s)))
  DO_CHK (pure (decide (old.uids.r = new.uids.r)))
  DO_CHK (pure (decide (newEuid = new.uids.e)))
  DO_CHK (pure (decide (newSuid = new.uids.s)))
  pure 0

/-- The function `restore_privileges`. -/
def restore_privileges {σ : Type} (K : OS σ) (uc : ucred_t) : Proc σ Int := do
  let u := uc.uid
  let g := uc.gid
  DO_CHK (ucred_is_sane K uc)
  let euid ← rd K.geteuid
  (if u ≠ euid then DO_SYS (sys (.seteuid u) (K.seteuid u)) else pure ())
  DO_SYS (set_sups K uc.sups)
  let egid ← rd K.getegid
  (if g ≠ egid then DO_SYS (sys (.setegid g) (K.setegid g)) else pure ())
  let pc ← DO_SYS_get (get_pcred K)
  DO_CHK (pure (decide (u = pc.uids.e)))
  DO_CHK (pure (decide (g = pc.gids.e)))
  DO_CHK (eql_sups K pc.sups uc.sups)
  pure 0

/-! ## A reference kernel

The theorems below hold for every `OS`. To run the functions on concrete inputs they are
instantiated with this kernel, which follows the Linux manual pages `setresuid(2)`,
`seteuid(2)`, `setgroups(2)` and `getgroups(2)` for a process whose only privilege is an
effective uid of 0. -/

/-- The state of the reference kernel: the credentials of the process. -/
structure KState where
  uids : uids_t
  gids : gids_t
  fsuid : Nat
  fsgid : Nat
  groups : List Nat
deriving DecidableEq, Repr

/-- An id a process without privilege may pass to a set*id call: `-1`, or one of its real,
effective and saved ids. -/
def ref_permitted (x r e s : Nat) : Bool :=
  x == NEG1 || x == r || x == e || x == s

/-- The id after a set*id call with argument `x`: unchanged when `x` is `-1`. -/
def ref_newid (x old : Nat) : Nat :=
  if x = NEG1 then old else x

/-- The call `setresuid` of the reference kernel. -/
def ref_setresuid (r e s : Nat) (k : KState) : SysRet KState :=
  if k.uids.e = 0 ∨ (ref_permitted r k.uids.r k.uids.e k.uids.s = true ∧
      ref_permitted e k.uids.r k.uids.e k.uids.s = true ∧
      ref_permitted s k.uids.r k.uids.e k.uids.s = true) then
    ⟨0, 0, ⟨⟨ref_newid r k.uids.r, ref_newid e k.uids.e, ref_newid s k.uids.s⟩, k.gids,
      ref_newid e k.uids.e, k.fsgid, k.groups⟩⟩
  else ⟨-1, EPERM, k⟩

/-- The call `setresgid` of the reference kernel. -/
def ref_setresgid (r e s : Nat) (k : KState) : SysRet KState :=
  if k.uids.e = 0 ∨ (ref_permitted r k.gids.r k.gids.e k.gids.s = true ∧
      ref_permitted e k.gids.r k.gids.e k.gids.s = true ∧
      ref_permitted s k.gids.r k.gids.e k.gids.s = true) then
    ⟨0, 0, ⟨k.uids, ⟨ref_newid r k.gids.r, ref_newid e k.gids.e, ref_newid s k.gids.s⟩,
      k.fsuid, ref_newid e k.gids.e, k.groups⟩⟩
  else ⟨-1, EPERM, k⟩

/-- The call `setgroups` of the reference kernel. -/
def ref_setgroups (size : Int) (list : List Nat) (k : KState) : SysRet KState :=
  if k.uids.e = 0 then ⟨0, 0, ⟨k.uids, k.gids, k.fsuid, k.fsgid, list.take size.toNat⟩⟩
  else ⟨-1, EPERM, k⟩

/-- The reference kernel, with insertion sort for `qsort`. -/
def ref_os : OS KState where
  sysconf_NGROUPS_MAX := fun _ => 65536
  getuid := fun k => k.uids.r
  geteuid := fun k => k.uids.e
  getgid := fun k => k.gids.r
  getegid := fun k => k.gids.e
  getresuid := fun k => (0, k.uids)
  getresgid := fun k => (0, k.gids)
  getgroups := fun k => (k.groups.length, k.groups)
  proc_status := fun k => some (some k.fsuid, some k.fsgid)
  qsort := fun cmp l => l.insertionSort (fun a b => cmp a b ≤ 0)
  setgroups := ref_setgroups
  setresuid := ref_setresuid
  setresgid := ref_setresgid
  seteuid := fun u => ref_setresuid NEG1 u NEG1
  setegid := fun g => ref_setresgid NEG1 g NEG1

/-- A process of the reference kernel with the given uids, gid `g` three times, and groups. -/
def ref_world (r e s g : Nat) (groups : List Nat) : World KState :=
  ⟨⟨⟨r, e, s⟩, ⟨g, g, g⟩, e, g, groups⟩, 0, []⟩

/-- A root process of the reference kernel: all uids and gids 0, the single group 0. -/
def ex_root : World KState := ref_world 0 0 0 0 [0]

/-- The identity of an ordinary user. -/
def ex_user : ucred_t := ⟨1000, 100, ⟨[4, 24], 2⟩⟩

/-- The identity of root, with the groups of `ex_root`. -/
def ex_orig : ucred_t := ⟨0, 0, ⟨[0], 1⟩⟩

/-- The process `ex_root` after `drop_privileges_permanently` to `ex_user`. -/
def ex_dropped : World KState :=
  ⟨⟨⟨1000, 1000, 1000⟩, ⟨100, 100, 100⟩, 1000, 100, [4, 24]⟩, 0,
    [.setgroups 2 [4, 24], .setresgid 100 100 100, .setresuid 1000 1000 1000]⟩

/-- The process `ex_root` after `drop_privileges_temporarily` to `ex_user`. -/
def ex_lowered : World KState :=
  ⟨⟨⟨0, 1000, 0⟩, ⟨0, 100, 0⟩, 1000, 100, [4, 24]⟩, 0,
    [.setgroups 2 [4, 24], .setresgid 0 100 0, .setresuid 0 1000 0]⟩

/-- The process `ex_lowered` after `restore_privileges` to `ex_orig`. -/
def ex_restored : World KState :=
  ⟨⟨⟨0, 0, 0⟩, ⟨0, 0, 0⟩, 0, 0, [0]⟩, 0,
    [.setgroups 2 [4, 24], .setresgid 0 100 0, .setresuid 0 1000 0,
      .seteuid 0, .setgroups 1 [0], .setegid 0]⟩

/-- A process whose effective uid 0 is neither its real nor its saved uid. -/
def ex_mixed : World KState := ref_world 1000 0 2000 100 []

/-- An ordinary process whose kernel group list holds its effective gid 100 besides the
groups 4 and 24, unsorted and with a duplicate. -/
def ex_plain : World KState := ref_world 1000 1000 1000 100 [100, 4, 24, 4]

/-- A process whose two supplementary groups are 0 and 2147483649. -/
def ex_wide : World KState := ref_world 1000 1000 1000 100 [0, 2147483649]

/-! ## Predicates used in the statements -/

/-- The entries of `arr` with index from `m` up to `N - 1` are strictly ascending. -/
def AscFrom (arr : List Nat) (m N : Nat) : Prop :=
  ∀ k, m ≤ k → k + 1 < N → arr.getD k 0 < arr.getD (k + 1) 0

/-- The comparison the specification asks of `eql_sups`: the lists are equal, or `g` occurs in
`cur`, not in `tgt`, and `cur` without that occurrence is `tgt`. -/
def eql_sups_spec (g : Nat) (cur tgt : List Nat) : Prop :=
  cur = tgt ∨ (g ∈ cur ∧ g ∉ tgt ∧ cur.erase g = tgt)

/-- A function that leaves the world as it found it, however it ends. -/
def Reads {σ α : Type} (m : Proc σ α) : Prop := ∀ w, (m w).world = w

/-- The real, effective and saved uid of the process, as `get_pcred` reads them. -/
def uids_of {σ : Type} (K : OS σ) (os : σ) : uids_t :=
  ⟨K.getuid os, K.geteuid os, (K.getresuid os).2.s⟩

/-- The real, effective and saved gid of the process, as `get_pcred` reads them. -/
def gids_of {σ : Type} (K : OS σ) (os : σ) : gids_t :=
  ⟨K.getgid os, K.getegid os, (K.getresgid os).2.s⟩

/-- In the run of `m` from `w`, however it ends, the mutating calls issued are some of the
calls of `X`, in the order of `X`. -/
def LogsAt {σ α : Type} (m : Proc σ α) (w : World σ) (X : List Call) : Prop :=
  ∃ l, (m w).world.log = w.log ++ l ∧ List.Sublist l X

/-- In the run of `m` from `w`, however it ends, the property `P` of the kernel state is
kept. -/
def InvAt {σ α : Type} (P : σ → Prop) (m : Proc σ α) (w : World σ) : Prop :=
  P w.os → P (m w).world.os

/-- Assumption on the kernel: the calls `seteuid`, `setgroups` and `setegid` change neither
the real uid nor the saved uid, whether they succeed or not. -/
def KeepsRealSavedUid {σ : Type} (K : OS σ) : Prop :=
  (∀ u os, K.getuid (K.seteuid u os).os = K.getuid os ∧
    (K.getresuid (K.seteuid u os).os).2.s = (K.getresuid os).2.s) ∧
  (∀ n l os, K.getuid (K.setgroups n l os).os = K.getuid os ∧
    (K.getresuid (K.setgroups n l os).os).2.s = (K.getresuid os).2.s) ∧
  (∀ g os, K.getuid (K.setegid g os).os = K.getuid os ∧
    (K.getresuid (K.setegid g os).os).2.s = (K.getresuid os).2.s)

/-- Assumption on the kernel, for a process whose real, effective and saved uid are all `u`:
`setresuid` and `seteuid` to an effective uid other than `u` are refused with EPERM and change
nothing, and `setgroups`, `setresgid` and `setegid` leave the three uids as they are. -/
def RefusesOtherUids {σ : Type} (K : OS σ) (u : Nat) : Prop :=
  ∀ os, uids_of K os = ⟨u, u, u⟩ →
    (∀ n l, uids_of K (K.setgroups n l os).os = ⟨u, u, u⟩) ∧
    (∀ r e s, uids_of K (K.setresgid r e s os).os = ⟨u, u, u⟩) ∧
    (∀ g, uids_of K (K.setegid g os).os = ⟨u, u, u⟩) ∧
    (∀ r e s, e ≠ u → e ≠ NEG1 → K.setresuid r e s os = ⟨-1, EPERM, os⟩) ∧
    (∀ e, e ≠ u → e ≠ NEG1 → K.seteuid e os = ⟨-1, EPERM, os⟩)

/-! ## `priv2`: data structures (`priv2.h`, `priv2_graph.h`, `priv2_generated.h`)

`priv2.c` and `priv2_graph.c` are embedded as compiled on Linux (`IS_LINUX` is 1,
`HAS_SETRESUID` is 1) with assertions enabled: `assert(e)` calls `abort()` when `e` is false.
The generated tables of `priv2_generated.c` are a parameter (`Tables`); the generated functions
`get_num_function_params`, `execute_uids_function` and `execute_gids_function` are embedded as
`ModuleCodeGen.h` prints them. -/

/-- The constant `MAX_NORMALIZED_IDS` of `priv2_generated.h`. -/
def MAX_NORMALIZED_IDS : Nat := 6

/-- The constant `NEG_ONE_IS_SUPPORTED` of `priv2_generated.h`. -/
def NEG_ONE_IS_SUPPORTED : Bool := false

/-- The constant `ID_MAP_SIZE`. -/
def ID_MAP_SIZE : Nat := MAX_NORMALIZED_IDS

/-- The constant `ID_PAIR_COLLECTION_SIZE`. -/
def ID_PAIR_COLLECTION_SIZE : Nat := 5

/-- The capability number `CAP_SETGID` of Linux. -/
def CAP_SETGID : Nat := 6

/-- The capability number `CAP_SETUID` of Linux. -/
def CAP_SETUID : Nat := 7

/-- The enumeration `ci_status_e`. -/
inductive ci_status_e where
  | ci_invalid
  | ci_success
  | ci_invalid_values
  | ci_setuid_failed
  | ci_setgid_failed
  | ci_setuid_setgid_failed
deriving DecidableEq, Repr

/-- The enumeration `groups_timing_e`. -/
inductive groups_timing_e where
  | groups_first
  | groups_last
  | groups_elevate
deriving DecidableEq, Repr

/-- A pair of process credentials: the current state and the target state. -/
structure pcred_pair_t where
  prev : pcred_t
  next : pcred_t
deriving DecidableEq, Repr

/-- The candidate targets of a temporary change: `uids` and `gids` are the arrays of
`ID_PAIR_COLLECTION_SIZE` entries. -/
structure id_pairs_t where
  prev : pcred_t
  uids : List uids_t
  gids : List gids_t
  sups : sups_t
deriving DecidableEq, Repr

/-- The ids the caller uses. -/
structure actual_ids_t where
  uids : uids_t
  gids : gids_t
deriving DecidableEq, Repr

/-- The ids of the graph; gids are stored as uids. -/
structure normalized_ids_t where
  uids : uids_t
  gids : uids_t
deriving DecidableEq, Repr

/-- The map from normalized to actual uids: `ids` is the array of `ID_MAP_SIZE` entries, an
entry that was never written is `none`. -/
structure uids_map_t where
  counter : Nat
  ids : List (Option Nat)
deriving DecidableEq, Repr

/-- The map from normalized to actual gids, as `uids_map_t`. -/
structure gids_map_t where
  counter : Nat
  ids : List (Option Nat)
deriving DecidableEq, Repr

/-- Normalized credentials. -/
structure norm_pcred_t where
  actual : actual_ids_t
  normalized : normalized_ids_t
  sups : sups_t
deriving DecidableEq, Repr

/-- A pair of normalized credentials with the id maps. -/
structure norm_pcred_pair_t where
  prev : norm_pcred_t
  next : norm_pcred_t
  uids_map : uids_map_t
  gids_map : gids_map_t
deriving DecidableEq, Repr

/-- A pair of uid triples. -/
structure uids_pair_t where
  prev : uids_t
  next : uids_t
deriving DecidableEq, Repr

/-- Normalized uids and their map. -/
structure uids_norm_data_t where
  pair : uids_pair_t
  map : uids_map_t
deriving DecidableEq, Repr

/-- Normalized gids and their map. -/
structure gids_norm_data_t where
  pair : uids_pair_t
  map : gids_map_t
deriving DecidableEq, Repr

/-- The generated tables of `priv2_generated.c`. `state_idx_lookup` is `none` where the
generated `switch` reaches `assert(false)`; a cell of `adjacency_matrix` is `none` for `NULL`
and otherwise the calls before the terminating `NULL`, each call being the array
`function, rtn, err, param0, ...`; `effective_privileged_states` holds the states before the
terminating `NULL`. -/
structure Tables where
  state_idx_lookup : Nat → Nat → Nat → Option Int
  predecessor_matrix : List (List Nat)
  adjacency_matrix : List (List (Option (List (List Nat))))
  effective_privileged_states : List uids_t

/-- The system calls and library functions `priv2` uses besides those of `priv.c`.
`cap_get_flag c` gives the return value of
`cap_get_flag(cap_get_proc(), c, CAP_PERMITTED, &flag_value)` and whether `flag_value` is
`CAP_SET`; `cap_set_flag c v` gives the return value of
`cap_set_flag(cap_get_proc(), CAP_EFFECTIVE, 1, &c, v)`, which changes a copy of the
capability state and not the process. -/
structure OS2 (σ : Type) extends OS σ where
  setuid : Nat → σ → SysRet σ
  setreuid : Nat → Nat → σ → SysRet σ
  setgid : Nat → σ → SysRet σ
  setregid : Nat → Nat → σ → SysRet σ
  cap_get_flag : Nat → σ → Int × Bool
  cap_set_flag : Nat → Bool → σ → Int

/-- The static variables of `suid_privilege_is_attainable`. -/
structure Cache where
  cached : Bool
  cached_cu : uids_t
  cached_nu : uids_t
  cached_rtn : Bool
deriving DecidableEq, Repr

/-- The static variables at program start. -/
def Cache.init : Cache := ⟨false, ⟨0, 0, 0⟩, ⟨0, 0, 0⟩, false⟩

/-- The state `priv2` runs in: the kernel state and the static variables of the program. -/
structure Mem (σ : Type) where
  os : σ
  cache : Cache
deriving DecidableEq

/-- A system call on the state of `priv2`: it leaves the static variables alone. -/
def Mem.lift {σ : Type} (f : σ → SysRet σ) (m : Mem σ) : SysRet (Mem σ) :=
  ⟨(f m.os).rc, (f m.os).err, ⟨(f m.os).os, m.cache⟩⟩

/-- The operating system on the state of `priv2`. -/
def OS.mem {σ : Type} (K : OS σ) : OS (Mem σ) where
  sysconf_NGROUPS_MAX := fun m => K.sysconf_NGROUPS_MAX m.os
  getuid := fun m => K.getuid m.os
  geteuid := fun m => K.geteuid m.os
  getgid := fun m => K.getgid m.os
  getegid := fun m => K.getegid m.os
  getresuid := fun m => K.getresuid m.os
  getresgid := fun m => K.getresgid m.os
  getgroups := fun m => K.getgroups m.os
  proc_status := fun m => K.proc_status m.os
  qsort := K.qsort
  setgroups := fun n l => Mem.lift (K.setgroups n l)
  setresuid := fun r e s => Mem.lift (K.setresuid r e s)
  setresgid := fun r e s => Mem.lift (K.setresgid r e s)
  seteuid := fun u => Mem.lift (K.seteuid u)
  setegid := fun g => Mem.lift (K.setegid g)

/-- How a function that touches neither the kernel nor `errno` ends: with a result, with
`abort()` after a failed assertion, or with a read outside an array, a read of an entry that
was never written, or a recursion without end. -/
inductive Res (α : Type) where
  | ok (a : α)
  | abort
  | undef
deriving DecidableEq, Repr

/-- Sequencing for `Res`. -/
def Res.bind {α β : Type} (m : Res α) (f : α → Res β) : Res β :=
  match m with
  | .ok a => f a
  | .abort => .abort
  | .undef => .undef

instance : Monad Res where
  pure a := .ok a
  bind := Res.bind

/-- A `Res` inside a C function. -/
def Res.run {σ α : Type} (r : Res α) : Proc σ α := fun w =>
  match r with
  | .ok a => .ret a w
  | .abort => .abort w
  | .undef => .undef w

/-- The macro `assert(expr)`. -/
def assert {σ : Type} (expr : Bool) : Proc σ Unit :=
  if expr then pure () else abort

/-- The assignment `errno = e`. -/
def set_errno {σ : Type} (e : Int) : Proc σ Unit := fun w => .ret () ⟨w.os, e, w.log⟩

/-- The conversion of a `uid_t` to `int`. -/
def int_of_uid (v : Nat) : Int :=
  if v % 4294967296 < 2147483648 then ((v % 4294967296 : Nat) : Int)
  else ((v % 4294967296 : Nat) : Int) - 4294967296

/-! ## `priv2_graph.c`: walking the graph -/

/-- The function `get_ids_idx`. -/
def get_ids_idx (T : Tables) (uids : uids_t) : Res Int :=
  if !NEG_ONE_IS_SUPPORTED && decide (uids.r = NEG1) && decide (uids.e = NEG1) &&
      decide (uids.s = NEG1) then .ok (-1)
  else
    match T.state_idx_lookup uids.r uids.e uids.s with
    | none => .abort
    | some state_idx => .ok state_idx

/-- The function `can_set_uids_from_graph_recursive`, with `fuel` calls allowed: `undef`
without fuel or on a read outside `predecessor_list`. -/
def can_set_uids_from_graph_recursive (predecessor_list : List Nat) (first_idx : Int) :
    Nat → Int → Res Bool
  | 0, _ => .undef
  | fuel + 1, next_idx =>
    if next_idx < 0 then .ok false
    else if next_idx = first_idx then .ok true
    else
      match idx predecessor_list next_idx with
      | none => .undef
      | some v =>
        let prev_idx := int_of_uid v
        if prev_idx = next_idx then .ok false
        else can_set_uids_from_graph_recursive predecessor_list first_idx fuel prev_idx

/-- The function `can_set_gids_from_graph_recursive`: the macro
`CAN_SET_IDS_FROM_GRAPH_RECURSIVE_DEFN` gives it the body of the function for uids. -/
def can_set_gids_from_graph_recursive (predecessor_list : List Nat) (first_idx : Int) :
    Nat → Int → Res Bool :=
  can_set_uids_from_graph_recursive predecessor_list first_idx

/-- The function `can_set_uids_from_graph_`. The recursion is given one call more than the
predecessor list has entries: a walk that needs more visits an entry twice and has no end. -/
def can_set_uids_from_graph_ (T : Tables) (first_ids second_ids : uids_t) : Res Bool := do
  let first_idx ← get_ids_idx T first_ids
  let second_idx ← get_ids_idx T second_ids
  if first_idx < 0 ∨ second_idx < 0 then pure false
  else
    match T.predecessor_matrix[first_idx.toNat]? with
    | none => .undef
    | some predecessor_list =>
      can_set_uids_from_graph_recursive predecessor_list first_idx
        (predecessor_list.length + 1) second_idx

/-- The function `can_set_gids_from_graph_`: the macro `CAN_SET_IDS_FROM_GRAPH_DEFN` gives it
the body of the function for uids. -/
def can_set_gids_from_graph_ (T : Tables) (first_ids second_ids : uids_t) : Res Bool :=
  can_set_uids_from_graph_ T first_ids second_ids

/-- The function `can_set_uids_from_graph`. -/
def can_set_uids_from_graph (T : Tables) (p : norm_pcred_pair_t) : Res Bool :=
  can_set_uids_from_graph_ T p.prev.normalized.uids p.next.normalized.uids

/-- The function `can_set_gids_from_graph`. -/
def can_set_gids_from_graph (T : Tables) (p : norm_pcred_pair_t) : Res Bool :=
  can_set_gids_from_graph_ T p.prev.normalized.gids p.next.normalized.gids

/-- The loop of `can_set_suid_for_identity_change` over the entries `eps[i]`, `eps[i+1]`, ...
that are left. -/
def can_set_suid_for_identity_change_loop (T : Tables) (current_uids new_uids : uids_t) :
    List uids_t → Res Bool
  | [] => .ok false
  | priv_uids :: eps => do
    let a ← can_set_uids_from_graph_ T current_uids priv_uids
    if a then do
      let b ← can_set_uids_from_graph_ T priv_uids new_uids
      if b then pure true
      else can_set_suid_for_identity_change_loop T current_uids new_uids eps
    else can_set_suid_for_identity_change_loop T current_uids new_uids eps

/-- The function `can_set_suid_for_identity_change`. -/
def can_set_suid_for_identity_change (T : Tables) (current_uids new_uids : uids_t) : Res Bool :=
  can_set_suid_for_identity_change_loop T current_uids new_uids T.effective_privileged_states

/-- The loop of `get_suid_for_identity_change`, and the `assert(false)` after it. -/
def get_suid_for_identity_change_loop (T : Tables) (current_uids new_uids : uids_t) :
    List uids_t → Res uids_t
  | [] => .abort
  | priv_uids :: eps => do
    let a ← can_set_uids_from_graph_ T current_uids priv_uids
    if a then do
      let b ← can_set_uids_from_graph_ T priv_uids new_uids
      if b then pure priv_uids
      else get_suid_for_identity_change_loop T current_uids new_uids eps
    else get_suid_for_identity_change_loop T current_uids new_uids eps

/-- The function `get_suid_for_identity_change`. -/
def get_suid_for_identity_change (T : Tables) (p : norm_pcred_pair_t) : Res uids_t :=
  get_suid_for_identity_change_loop T p.prev.normalized.uids p.next.normalized.uids
    T.effective_privileged_states

/-- The function `suid_privilege_is_attainable`, with its cache of size one. -/
def suid_privilege_is_attainable {σ : Type} (T : Tables) (current_uids new_uids : uids_t) :
    Proc (Mem σ) Bool := fun w =>
  let c := w.os.cache
  if c.cached = true ∧ current_uids = c.cached_cu ∧ new_uids = c.cached_nu then
    .ret c.cached_rtn w
  else
    let w1 : World (Mem σ) :=
      ⟨⟨w.os.os, ⟨c.cached, current_uids, new_uids, c.cached_rtn⟩⟩, w.errno, w.log⟩
    match can_set_suid_for_identity_change T current_uids new_uids with
    | .ok b => .ret b ⟨⟨w.os.os, ⟨true, current_uids, new_uids, b⟩⟩, w.errno, w.log⟩
    | .abort => .abort w1
    | .undef => .undef w1

/-! ## `priv2_graph.c`: normalizing ids -/

/-- The function `new_uids_map`: the counter is 0 and the first three entries are `-1`. -/
def new_uids_map : uids_map_t :=
  ⟨0, [some NEG1, some NEG1, some NEG1, none, none, none]⟩

/-- The function `new_gids_map`. -/
def new_gids_map : gids_map_t :=
  ⟨0, [some NEG1, some NEG1, some NEG1, none, none, none]⟩

/-- The loop `for (ids_idx = 0; ids_idx < map->counter; ++ids_idx)
if (map->ids[ids_idx] == id) return ids_idx + 1;` of `normalize_single_uids` and
`normalize_single_gids`, with `k` iterations left, at `ids_idx`: the value returned, or `none`
when the loop runs to its end. -/
def normalize_lookup (ids : List (Option Nat)) (id : Nat) : Nat → Nat → Res (Option Nat)
  | 0, _ => .ok none
  | k + 1, ids_idx =>
    match ids[ids_idx]? with
    | some (some v) =>
      if v = id then .ok (some (ids_idx + 1)) else normalize_lookup ids id k (ids_idx + 1)
    | _ => Res.undef

/-- The function `normalize_single_uids`: the value returned and the map afterwards. -/
def normalize_single_uids (map : uids_map_t) (id : Nat) : Res (Nat × uids_map_t) :=
  if id = NEG1 then .ok (NEG1, map)
  else if id = 0 then .ok (0, map)
  else
    match normalize_lookup map.ids id map.counter 0 with
    | .abort => .abort
    | .undef => .undef
    | .ok (some n) => .ok (n, map)
    | .ok none =>
      if map.counter < map.ids.length then
        if map.counter + 1 < ID_MAP_SIZE then
          .ok (map.counter + 1, ⟨map.counter + 1, map.ids.set map.counter (some id)⟩)
        else .abort
      else Res.undef

/-- The function `normalize_single_gids`: the value returned and the map afterwards. -/
def normalize_single_gids (map : gids_map_t) (id : Nat) : Res (Nat × gids_map_t) :=
  if id = NEG1 then .ok (NEG1, map)
  else
    match normalize_lookup map.ids id map.counter 0 with
    | .abort => .abort
    | .undef => .undef
    | .ok (some n) => .ok (n, map)
    | .ok none =>
      if map.counter < map.ids.length then
        if map.counter + 1 < 3 then
          .ok (map.counter + 1, ⟨map.counter + 1, map.ids.set map.counter (some id)⟩)
        else .abort
      else Res.undef

/-- The function `normalize_uids`. -/
def normalize_uids (p : pcred_pair_t) : Res uids_norm_data_t := do
  let map := new_uids_map
  let a ← normalize_single_uids map p.prev.uids.r
  let b ← normalize_single_uids a.2 p.prev.uids.e
  let c ← normalize_single_uids b.2 p.prev.uids.s
  let d ← normalize_single_uids c.2 p.next.uids.r
  let e ← normalize_single_uids d.2 p.next.uids.e
  let f ← normalize_single_uids e.2 p.next.uids.s
  pure ⟨⟨⟨a.1, b.1, c.1⟩, ⟨d.1, e.1, f.1⟩⟩, f.2⟩

/-- The function `normalize_gids`. -/
def normalize_gids {σ : Type} (T : Tables) (normalized_current_uids normalized_target_uids : uids_t)
    (p : pcred_pair_t) : Proc (Mem σ) gids_norm_data_t := do
  let map := new_gids_map
  let force_privileged ←
    suid_privilege_is_attainable T normalized_current_uids normalized_target_uids
  let a ← (normalize_single_gids map p.prev.gids.r).run
  let b ← (if force_privileged then pure (0, a.2)
    else (normalize_single_gids a.2 p.prev.gids.e).run)
  let c ← (normalize_single_gids b.2 p.prev.gids.s).run
  let d ← (normalize_single_gids c.2 p.next.gids.r).run
  let e ← (normalize_single_gids d.2 p.next.gids.e).run
  let f ← (normalize_single_gids e.2 p.next.gids.s).run
  pure ⟨⟨⟨a.1, b.1, c.1⟩, ⟨d.1, e.1, f.1⟩⟩, f.2⟩

/-- The function `get_normalized_pcred_pair`. -/
def get_normalized_pcred_pair {σ : Type} (T : Tables) (p : pcred_pair_t) :
    Proc (Mem σ) norm_pcred_pair_t := do
  let uids_norm_data ← (normalize_uids p).run
  let gids_norm_data ← normalize_gids T uids_norm_data.pair.prev uids_norm_data.pair.prev p
  pure ⟨⟨⟨p.prev.uids, p.prev.gids⟩, ⟨uids_norm_data.pair.prev, gids_norm_data.pair.prev⟩,
      p.prev.sups⟩,
    ⟨⟨p.next.uids, p.next.gids⟩, ⟨uids_norm_data.pair.next, gids_norm_data.pair.next⟩,
      p.next.sups⟩,
    uids_norm_data.map, gids_norm_data.map⟩

/-- One iteration of the loop of `map_uids_params`, for the normalized value `n`. -/
def map_uids_param (map : uids_map_t) (n : Nat) : Res Nat :=
  if n = 0 then .ok 0
  else if n = NEG1 then .ok NEG1
  else
    let map_idx := int_of_uid (n - 1)
    if map_idx < ID_MAP_SIZE then
      if map_idx < 0 then .undef
      else
        match map.ids[map_idx.toNat]? with
        | some (some v) => if v > 0 then .ok v else .abort
        | _ => .undef
    else .abort

/-- The loop of `map_uids_params` with `k` iterations left, at `i`. -/
def map_uids_params_loop (map : uids_map_t) (normalized_params : List Nat) :
    Nat → Nat → Res (List Nat)
  | 0, _ => .ok []
  | k + 1, i =>
    match normalized_params[i]? with
    | none => .undef
    | some n => do
      let a ← map_uids_param map n
      let rest ← map_uids_params_loop map normalized_params k (i + 1)
      pure (a :: rest)

/-- The function `map_uids_params`: the entries written to `actual_params`. -/
def map_uids_params (map : uids_map_t) (num_params : Nat) (normalized_params : List Nat) :
    Res (List Nat) :=
  map_uids_params_loop map normalized_params num_params 0

/-- One iteration of the loop of `map_gids_params`, for the normalized value `n`; the second
operand `ids[map_idx] >= 0` of the assertion holds for every unsigned value. -/
def map_gids_param (map : gids_map_t) (n : Nat) : Res Nat :=
  if n = NEG1 then .ok NEG1
  else
    let map_idx := int_of_uid ((n + 4294967296 - 1) % 4294967296)
    if map_idx < ID_MAP_SIZE then
      if map_idx < 0 then .undef
      else
        match map.ids[map_idx.toNat]? with
        | some (some v) => .ok v
        | _ => .undef
    else .abort

/-- The loop of `map_gids_params` with `k` iterations left, at `i`. -/
def map_gids_params_loop (map : gids_map_t) (normalized_params : List Nat) :
    Nat → Nat → Res (List Nat)
  | 0, _ => .ok []
  | k + 1, i =>
    match normalized_params[i]? with
    | none => .undef
    | some n => do
      let a ← map_gids_param map n
      let rest ← map_gids_params_loop map normalized_params k (i + 1)
      pure (a :: rest)

/-- The function `map_gids_params`: the entries written to `actual_params`. -/
def map_gids_params (map : gids_map_t) (num_params : Nat) (normalized_params : List Nat) :
    Res (List Nat) :=
  map_gids_params_loop map normalized_params num_params 0

/-! ## `priv2_graph.c`: executing the calls of a path -/

/-- The generated function `get_num_function_params`. -/
def get_num_function_params (call : Nat) : Res Nat :=
  match call with
  | 0 => .ok 1
  | 1 => .ok 1
  | 2 => .ok 2
  | 3 => .ok 3
  | _ => .abort

/-- The read `params[i]`. -/
def param {σ : Type} (params : List Nat) (i : Nat) : Proc σ Nat :=
  match params[i]? with
  | some v => pure v
  | none => undef

/-- The generated function `execute_uids_function`. -/
def execute_uids_function {σ : Type} (K : OS2 σ) (call : Nat) (params : List Nat) :
    Proc (Mem σ) Int :=
  match call with
  | 0 => do
    let p0 ← param params 0
    sys (.setuid p0) (Mem.lift (K.setuid p0))
  | 1 => do
    let p0 ← param params 0
    sys (.seteuid p0) (Mem.lift (K.seteuid p0))
  | 2 => do
    let p0 ← param params 0
    let p1 ← param params 1
    sys (.setreuid p0 p1) (Mem.lift (K.setreuid p0 p1))
  | 3 => do
    let p0 ← param params 0
    let p1 ← param params 1
    let p2 ← param params 2
    sys (.setresuid p0 p1 p2) (Mem.lift (K.setresuid p0 p1 p2))
  | _ => abort

/-- The generated function `execute_gids_function`. -/
def execute_gids_function {σ : Type} (K : OS2 σ) (call : Nat) (params : List Nat) :
    Proc (Mem σ) Int :=
  match call with
  | 0 => do
    let p0 ← param params 0
    sys (.setgid p0) (Mem.lift (K.setgid p0))
  | 1 => do
    let p0 ← param params 0
    sys (.setegid p0) (Mem.lift (K.setegid p0))
  | 2 => do
    let p0 ← param params 0
    let p1 ← param params 1
    sys (.setregid p0 p1) (Mem.lift (K.setregid p0 p1))
  | 3 => do
    let p0 ← param params 0
    let p1 ← param params 1
    let p2 ← param params 2
    sys (.setresgid p0 p1 p2) (Mem.lift (K.setresgid p0 p1 p2))
  | _ => abort

/-- The function `execute_uids_function_from_array`. -/
def execute_uids_function_from_array {σ : Type} (K : OS2 σ) (p : norm_pcred_pair_t)
    (fn_array : List Nat) : Proc (Mem σ) Int :=
  match fn_array[0]? with
  | none => undef
  | some function_id => do
    let num_params ← (get_num_function_params function_id).run
    let actual_params ← (map_uids_params p.uids_map num_params (fn_array.drop 3)).run
    execute_uids_function K function_id actual_params

/-- The function `execute_gids_function_from_array`. -/
def execute_gids_function_from_array {σ : Type} (K : OS2 σ) (p : norm_pcred_pair_t)
    (fn_array : List Nat) : Proc (Mem σ) Int :=
  match fn_array[0]? with
  | none => undef
  | some function_id => do
    let num_params ← (get_num_function_params function_id).run
    let actual_params ← (map_gids_params p.gids_map num_params (fn_array.drop 3)).run
    execute_gids_function K function_id actual_params

/-- The read `adjacency_matrix[current_idx][next_idx]` with the indices converted to
`unsigned`: `none` outside the matrix. -/
def adjacency_cell (T : Tables) (current_idx next_idx : Int) : Option (Option (List (List Nat))) :=
  match T.adjacency_matrix[(current_idx % 4294967296).toNat]? with
  | none => none
  | some row => row[(next_idx % 4294967296).toNat]?

/-- The function `set_uids_from_idx`. -/
def set_uids_from_idx {σ : Type} (K : OS2 σ) (T : Tables) (p : norm_pcred_pair_t)
    (current_idx next_idx : Int) : Proc (Mem σ) Int :=
  match adjacency_cell T current_idx next_idx with
  | none => undef
  | some none => do
    set_errno EINVAL
    pure (-1)
  | some (some []) => do
    set_errno EINVAL
    pure (-1)
  | some (some (fn_array :: _)) => execute_uids_function_from_array K p fn_array

/-- The function `set_gids_from_idx`. -/
def set_gids_from_idx {σ : Type} (K : OS2 σ) (T : Tables) (p : norm_pcred_pair_t)
    (current_idx next_idx : Int) : Proc (Mem σ) Int :=
  match adjacency_cell T current_idx next_idx with
  | none => undef
  | some none => do
    set_errno EINVAL
    pure (-1)
  | some (some []) => do
    set_errno EINVAL
    pure (-1)
  | some (some (fn_array :: _)) => execute_gids_function_from_array K p fn_array

/-- The function `set_uids_from_graph_recursive`, with `fuel` calls allowed. -/
def set_uids_from_graph_recursive {σ : Type} (K : OS2 σ) (T : Tables) (p : norm_pcred_pair_t)
    (predecessor_list : List Nat) (first_idx : Int) : Nat → Int → Proc (Mem σ) Int
  | 0, _ => undef
  | fuel + 1, next_idx => do
    assert (decide (next_idx ≥ 0))
    if next_idx = first_idx then pure 0
    else
      match idx predecessor_list next_idx with
      | none => undef
      | some v => do
        let prev_idx := int_of_uid v
        assert (decide (prev_idx ≠ next_idx))
        let r ← set_uids_from_graph_recursive K T p predecessor_list first_idx fuel prev_idx
        assert (decide (r = 0))
        let r2 ← set_uids_from_idx K T p prev_idx next_idx
        assert (decide (r2 = 0))
        pure 0

/-- The function `set_gids_from_graph_recursive`, with `fuel` calls allowed. -/
def set_gids_from_graph_recursive {σ : Type} (K : OS2 σ) (T : Tables) (p : norm_pcred_pair_t)
    (predecessor_list : List Nat) (first_idx : Int) : Nat → Int → Proc (Mem σ) Int
  | 0, _ => undef
  | fuel + 1, next_idx => do
    assert (decide (next_idx ≥ 0))
    if next_idx = first_idx then pure 0
    else
      match idx predecessor_list next_idx with
      | none => undef
      | some v => do
        let prev_idx := int_of_uid v
        assert (decide (prev_idx ≠ next_idx))
        let r ← set_gids_from_graph_recursive K T p predecessor_list first_idx fuel prev_idx
        assert (decide (r = 0))
        let r2 ← set_gids_from_idx K T p prev_idx next_idx
        assert (decide (r2 = 0))
        pure 0

/-- The function `set_uids_from_graph`. -/
def set_uids_from_graph {σ : Type} (K : OS2 σ) (T : Tables) (p : norm_pcred_pair_t) :
    Proc (Mem σ) Int := do
  let current_idx ← (get_ids_idx T p.prev.normalized.uids).run
  let new_idx ← (get_ids_idx T p.next.normalized.uids).run
  assert (decide (current_idx ≥ 0) && decide (new_idx ≥ 0))
  match T.predecessor_matrix[current_idx.toNat]? with
  | none => undef
  | some predecessor_list => do
    let r ← set_uids_from_graph_recursive K T p predecessor_list current_idx
      (predecessor_list.length + 1) new_idx
    assert (decide (r = 0))
    pure 0

/-- The function `set_gids_from_graph`. -/
def set_gids_from_graph {σ : Type} (K : OS2 σ) (T : Tables) (p : norm_pcred_pair_t) :
    Proc (Mem σ) Int := do
  let current_idx ← (get_ids_idx T p.prev.normalized.gids).run
  let new_idx ← (get_ids_idx T p.next.normalized.gids).run
  assert (decide (current_idx ≥ 0) && decide (new_idx ≥ 0))
  match T.predecessor_matrix[current_idx.toNat]? with
  | none => undef
  | some predecessor_list => do
    let r ← set_gids_from_graph_recursive K T p predecessor_list current_idx
      (predecessor_list.length + 1) new_idx
    assert (decide (r = 0))
    pure 0

/-! ## `priv2.c`: tests on the target and on the pair -/

/-- The function `ids_are_sane`. -/
def ids_are_sane (ucred : ucred_t) : Bool :=
  NEG_ONE_IS_SUPPORTED || (decide (ucred.uid ≠ NEG1) && decide (ucred.gid ≠ NEG1))

/-- The function `sups_are_sane`, given the value `nm` of `sysconf(_SC_NGROUPS_MAX)`; `none` on
a read outside the array. -/
def sups_are_sane_pure (nm : Int) (sups : sups_t) : Option Bool :=
  if sups.size < 0 then some false
  else
    let n := sups.size
    match ucred_is_sane_loop sups.list n (n.toNat + 1) 1 with
    | none => none
    | some false => some false
    | some true => some (decide (nm ≥ 0) && decide (nm ≥ n) && decide (n ≥ 0))

/-- The function `sups_are_sane`. -/
def sups_are_sane {σ : Type} (K : OS σ) (sups : sups_t) : Proc σ Bool := fun w =>
  match sups_are_sane_pure (K.sysconf_NGROUPS_MAX w.os) sups with
  | none => .undef w
  | some b => .ret b w

/-- The function `sups_is_dont_change`: the size is 0 and the list is `NULL`. A null `list` is
the empty array. -/
def sups_is_dont_change (sups : sups_t) : Bool :=
  decide (sups.size = 0) && decide (sups.list = [])

/-- The function `sups_change_needed`. -/
def sups_change_needed {σ : Type} (K : OS σ) (p : norm_pcred_pair_t) : Proc σ Bool :=
  if sups_is_dont_change p.next.sups then pure false
  else do
    let eq ← eql_sups K p.prev.sups p.next.sups
    pure (!eq)

/-- The function `groups_change_needed`. -/
def groups_change_needed (p : norm_pcred_pair_t) : Bool :=
  decide (p.prev.actual.gids.r ≠ p.next.actual.gids.r) ||
    decide (p.prev.actual.gids.e ≠ p.next.actual.gids.e) ||
    decide (p.prev.actual.gids.s ≠ p.next.actual.gids.s)

/-- The function `suid_privilege_is_effective`. -/
def suid_privilege_is_effective (current_uids : uids_t) : Bool :=
  decide (current_uids.e = 0)

/-- The function `sups_are_possible`. -/
def sups_are_possible {σ : Type} (K : OS2 σ) (T : Tables) (p : norm_pcred_pair_t) :
    Proc (Mem σ) Bool := do
  let needed ← sups_change_needed K.toOS.mem p
  if !needed then pure true
  else if suid_privilege_is_effective p.prev.normalized.uids then pure true
  else suid_privilege_is_attainable T p.prev.normalized.uids p.next.normalized.uids

/-- The function `groups_are_possible`. -/
def groups_are_possible {σ : Type} (T : Tables) (p : norm_pcred_pair_t) :
    Proc (Mem σ) Bool :=
  if !groups_change_needed p then pure true
  else if suid_privilege_is_effective p.prev.normalized.uids then pure true
  else do
    let can ← (can_set_gids_from_graph T p).run
    if can then pure true
    else suid_privilege_is_attainable T p.prev.normalized.uids p.next.normalized.uids

/-- The condition `!sups_are_possible(&np) || !groups_are_possible(&np)` of `fill_pair`. -/
def sups_or_groups_impossible {σ : Type} (K : OS2 σ) (T : Tables) (np : norm_pcred_pair_t) :
    Proc (Mem σ) Bool := do
  let sp ← sups_are_possible K T np
  if !sp then pure true
  else do
    let gp ← groups_are_possible T np
    pure (!gp)

/-! ## `priv2.c`: building the pair of states -/

/-- The function `new_pair`: the field `prev` of the pair it returns; the field `next` is
written by every caller. -/
def new_pair {σ : Type} (K : OS2 σ) (force_privileged : Bool) : Proc (Mem σ) pcred_t := do
  let r ← get_pcred K.toOS.mem
  let prev := r.2
  if force_privileged then pure ⟨⟨prev.uids.r, 0, prev.uids.s⟩, prev.gids, prev.sups⟩
  else pure prev

/-- The function `get_pair_permanent`. -/
def get_pair_permanent {σ : Type} (K : OS2 σ) (u : ucred_t) (force_privileged : Bool) :
    Proc (Mem σ) pcred_pair_t := do
  let prev ← new_pair K force_privileged
  pure ⟨prev, ⟨⟨u.uid, u.uid, u.uid⟩, ⟨u.gid, u.gid, u.gid⟩, u.sups⟩⟩

/-- The function `get_pairs_temporary`. -/
def get_pairs_temporary {σ : Type} (K : OS2 σ) (u : ucred_t) (force_privileged : Bool) :
    Proc (Mem σ) id_pairs_t := do
  let prev ← new_pair K force_privileged
  pure ⟨prev,
    [⟨prev.uids.r, u.uid, prev.uids.e⟩, ⟨prev.uids.e, u.uid, prev.uids.e⟩,
      ⟨prev.uids.s, u.uid, prev.uids.e⟩, ⟨prev.uids.e, u.uid, prev.uids.r⟩,
      ⟨prev.uids.e, u.uid, prev.uids.s⟩],
    [⟨prev.gids.r, u.gid, prev.gids.e⟩, ⟨prev.gids.e, u.gid, prev.gids.e⟩,
      ⟨prev.gids.s, u.gid, prev.gids.e⟩, ⟨prev.gids.e, u.gid, prev.gids.r⟩,
      ⟨prev.gids.e, u.gid, prev.gids.s⟩],
    u.sups⟩

/-- The function `get_pair_current`. -/
def get_pair_current {σ : Type} (K : OS2 σ) (force_privileged : Bool) :
    Proc (Mem σ) pcred_pair_t := do
  let prev ← new_pair K force_privileged
  pure ⟨prev, prev⟩

/-- The permanent branch of `fill_pair`. -/
def fill_pair_permanent {σ : Type} (K : OS2 σ) (T : Tables) (u : ucred_t)
    (force_privileged : Bool) : Proc (Mem σ) (ci_status_e × pcred_pair_t) := do
  let p ← get_pair_permanent K u force_privileged
  let np ← get_normalized_pcred_pair T p
  let bad ← sups_or_groups_impossible K T np
  let can ← (can_set_uids_from_graph T np).run
  if bad then
    (if !can then pure (.ci_setuid_setgid_failed, p) else pure (.ci_setgid_failed, p))
  else
    (if !can then pure (.ci_setuid_failed, p) else pure (.ci_success, p))

/-- The variables `status`, `uid_idx` and `gid_idx` of `fill_pair`. -/
structure fill_state where
  status : ci_status_e
  uid_idx : Int
  gid_idx : Int
deriving DecidableEq, Repr

/-- The body of the inner loop of `fill_pair` for the candidates `i` and `j`: the variables
afterwards, and whether the `break` was taken. -/
def fill_pair_body {σ : Type} (K : OS2 σ) (T : Tables) (pairs : id_pairs_t) (i j : Nat)
    (st : fill_state) : Proc (Mem σ) (fill_state × Bool) :=
  match pairs.uids[i]?, pairs.gids[j]? with
  | some us, some gs => do
    let np ← get_normalized_pcred_pair T ⟨pairs.prev, ⟨us, gs, pairs.sups⟩⟩
    let can ← (can_set_uids_from_graph T np).run
    if !can then do
      let bad ← sups_or_groups_impossible K T np
      if bad then
        (if st.status = .ci_invalid then pure (⟨.ci_setuid_setgid_failed, i, j⟩, false)
        else pure (st, false))
      else
        (if st.status = .ci_invalid ∨ st.status = .ci_setuid_setgid_failed then
          pure (⟨.ci_setuid_failed, i, j⟩, false)
        else pure (st, false))
    else do
      let bad ← sups_or_groups_impossible K T np
      if bad then
        (if st.status = .ci_invalid ∨ st.status = .ci_setuid_setgid_failed ∨
            st.status = .ci_setuid_failed then
          pure (⟨.ci_setgid_failed, i, j⟩, false)
        else pure (st, false))
      else pure (⟨.ci_success, i, j⟩, true)
  | _, _ => undef

/-- The inner loop of `fill_pair` with `k` iterations left, at `j`. -/
def fill_pair_inner {σ : Type} (K : OS2 σ) (T : Tables) (pairs : id_pairs_t) (i : Nat) :
    Nat → Nat → fill_state → Proc (Mem σ) fill_state
  | 0, _, st => pure st
  | k + 1, j, st => do
    let r ← fill_pair_body K T pairs i j st
    if r.2 then pure r.1 else fill_pair_inner K T pairs i k (j + 1) r.1

/-- The outer loop of `fill_pair` with `k` iterations left, at `i`. -/
def fill_pair_outer {σ : Type} (K : OS2 σ) (T : Tables) (pairs : id_pairs_t) :
    Nat → Nat → fill_state → Proc (Mem σ) fill_state
  | 0, _, st => pure st
  | k + 1, i, st => do
    let st1 ← fill_pair_inner K T pairs i ID_PAIR_COLLECTION_SIZE 0 st
    if st1.status = .ci_success then pure st1 else fill_pair_outer K T pairs k (i + 1) st1

/-- The temporary branch of `fill_pair`. -/
def fill_pair_temporary {σ : Type} (K : OS2 σ) (T : Tables) (u : ucred_t)
    (force_privileged : Bool) : Proc (Mem σ) (ci_status_e × pcred_pair_t) := do
  let pairs ← get_pairs_temporary K u force_privileged
  let st ← fill_pair_outer K T pairs ID_PAIR_COLLECTION_SIZE 0 ⟨.ci_invalid, -1, -1⟩
  assert (decide (st.uid_idx ≥ 0) && decide (st.gid_idx ≥ 0))
  match pairs.uids[st.uid_idx.toNat]?, pairs.gids[st.gid_idx.toNat]? with
  | some us, some gs => pure (st.status, ⟨pairs.prev, ⟨us, gs, pairs.sups⟩⟩)
  | _, _ => undef

/-- The function `fill_pair`: the status returned and the pair stored in `*p`. -/
def fill_pair {σ : Type} (K : OS2 σ) (T : Tables) (u : ucred_t) (is_permanent : Bool)
    (force_privileged : Bool) : Proc (Mem σ) (ci_status_e × pcred_pair_t) :=
  if is_permanent then fill_pair_permanent K T u force_privileged
  else fill_pair_temporary K T u force_privileged

/-! ## `priv2.c`: the higher level algorithm -/

/-- The statement `assert(set_sups(..) == 0 && set_gids_from_graph(..) == 0 &&
set_uids_from_graph(..) == 0)` of `change_identity_elevate_for_sups` and
`change_identity_linux`. -/
def assert_set_all {σ : Type} (K : OS2 σ) (T : Tables) (np : norm_pcred_pair_t) :
    Proc (Mem σ) Unit := do
  let r1 ← set_sups K.toOS.mem np.next.sups
  assert (decide (r1 = 0))
  let r2 ← set_gids_from_graph K T np
  assert (decide (r2 = 0))
  let r3 ← set_uids_from_graph K T np
  assert (decide (r3 = 0))

/-- The function `change_identity_elevate_for_sups`. -/
def change_identity_elevate_for_sups {σ : Type} (K : OS2 σ) (T : Tables)
    (np : norm_pcred_pair_t) : Proc (Mem σ) Unit := do
  let priv_norm_uids ← (get_suid_for_identity_change T np).run
  let actual_priv_uids ← (map_uids_params np.uids_map 3
    [priv_norm_uids.r, priv_norm_uids.e, priv_norm_uids.s]).run
  let p1 ← get_pair_current K false
  let a0 ← param actual_priv_uids 0
  let a1 ← param actual_priv_uids 1
  let a2 ← param actual_priv_uids 2
  let np1 ← get_normalized_pcred_pair T ⟨p1.prev, ⟨⟨a0, a1, a2⟩, p1.next.gids, p1.next.sups⟩⟩
  let r ← set_uids_from_graph K T np1
  assert (decide (r = 0))
  let p2 ← get_pair_current K false
  let np2 ← get_normalized_pcred_pair T
    ⟨p2.prev, ⟨np.next.actual.uids, np.next.actual.gids, np.next.sups⟩⟩
  assert_set_all K T np2

/-- The choice of `groups_timing` in `change_identity_basic`. -/
def groups_timing_of (no_priv current_priv target_priv : Bool) : groups_timing_e :=
  if no_priv || current_priv then .groups_first
  else if target_priv then .groups_last
  else .groups_elevate

/-- The statements of `change_identity_basic` for `groups_first` and `groups_last`. -/
def change_identity_in_order {σ : Type} (K : OS2 σ) (T : Tables) (np : norm_pcred_pair_t)
    (groups_timing : groups_timing_e) (must_change_sups must_change_groups : Bool) :
    Proc (Mem σ) ci_status_e := do
  let failed ← (if groups_timing = .groups_first then do
      let r ← (if must_change_groups then set_gids_from_graph K T np else pure 0)
      if r ≠ 0 then pure true
      else do
        (if must_change_sups then do
          let r1 ← set_sups K.toOS.mem np.next.sups
          assert (decide (r1 = 0))
        else pure ())
        pure false
    else pure false)
  if failed then pure .ci_setgid_failed
  else do
    let r ← set_uids_from_graph K T np
    assert (decide (r = 0))
    (if groups_timing = .groups_last then do
      (if must_change_sups then do
        let r1 ← set_sups K.toOS.mem np.next.sups
        assert (decide (r1 = 0))
      else pure ())
      (if must_change_groups then do
        let r2 ← set_gids_from_graph K T np
        assert (decide (r2 = 0))
      else pure ())
    else pure ())
    pure .ci_success

/-- The function `change_identity_basic`. -/
def change_identity_basic {σ : Type} (K : OS2 σ) (T : Tables) (uc : ucred_t)
    (is_permanent : Bool) : Proc (Mem σ) ci_status_e := do
  let sane ← (if !ids_are_sane uc then pure false else sups_are_sane K.toOS.mem uc.sups)
  if !sane then pure .ci_invalid_values
  else do
    let sp ← fill_pair K T uc is_permanent false
    let status := sp.1
    let p := sp.2
    if status ≠ .ci_success then pure status
    else do
      let np ← get_normalized_pcred_pair T p
      let must_change_sups ← sups_change_needed K.toOS.mem np
      let must_change_groups := groups_change_needed np
      let current_priv := suid_privilege_is_effective p.prev.uids
      let target_priv := suid_privilege_is_effective p.next.uids
      let attainable ← suid_privilege_is_attainable T np.prev.normalized.uids
        np.next.normalized.uids
      let no_priv := !attainable
      let groups_timing := groups_timing_of no_priv current_priv target_priv
      if groups_timing = .groups_elevate then do
        change_identity_elevate_for_sups K T np
        pure .ci_success
      else change_identity_in_order K T np groups_timing must_change_sups must_change_groups

/-- The function `can_set_cap_setuid` (`can_set_cap_setgid` for `CAP_SETGID`). -/
def can_set_cap {σ : Type} (K : OS2 σ) (cap : Nat) : Proc (Mem σ) Bool := do
  let r ← rd (fun m => K.cap_get_flag cap m.os)
  if r.1 ≠ 0 then pure false else pure r.2

/-- The functions `set_cap_setuid`, `clear_cap_setuid`, `set_cap_setgid` and
`clear_cap_setgid`: `cap_set_flag` on a copy of the capability state of the process. -/
def modify_cap {σ : Type} (K : OS2 σ) (cap : Nat) (flag_value : Bool) : Proc (Mem σ) Int :=
  rd (fun m => K.cap_set_flag cap flag_value m.os)

/-- The statements of `change_identity_linux` after the capabilities have been set. -/
def change_identity_with_caps {σ : Type} (K : OS2 σ) (T : Tables) (uc : ucred_t)
    (is_permanent : Bool) (status : ci_status_e) : Proc (Mem σ) Int := do
  let sp ← fill_pair K T uc is_permanent true
  assert (decide (sp.1 = .ci_success))
  let np ← get_normalized_pcred_pair T sp.2
  assert_set_all K T np
  (if np.next.actual.uids.e ≠ 0 then do
    (if status = .ci_setuid_failed ∨ status = .ci_setuid_setgid_failed then do
      let r ← modify_cap K CAP_SETUID false
      assert (decide (r = 0))
    else pure ())
    (if status = .ci_setgid_failed ∨ status = .ci_setuid_setgid_failed then do
      let r ← modify_cap K CAP_SETGID false
      assert (decide (r = 0))
    else pure ())
  else pure ())
  pure 0

/-- The statements of `change_identity_linux` that ask for `CAP_SETGID`, and those after
them. -/
def change_identity_setgid_cap {σ : Type} (K : OS2 σ) (T : Tables) (uc : ucred_t)
    (is_permanent : Bool) (status : ci_status_e) : Proc (Mem σ) Int :=
  if status = .ci_setgid_failed ∨ status = .ci_setuid_setgid_failed then do
    let can ← can_set_cap K CAP_SETGID
    if !can then do
      set_errno EPERM
      pure (-1)
    else do
      let r ← modify_cap K CAP_SETGID true
      assert (decide (r = 0))
      change_identity_with_caps K T uc is_permanent status
  else change_identity_with_caps K T uc is_permanent status

/-- The function `change_identity_linux`. -/
def change_identity_linux {σ : Type} (K : OS2 σ) (T : Tables) (uc : ucred_t)
    (is_permanent : Bool) : Proc (Mem σ) Int := do
  let status ← change_identity_basic K T uc is_permanent
  if status = .ci_invalid_values then do
    set_errno EINVAL
    pure (-1)
  else if status = .ci_success then pure 0
  else if status = .ci_setuid_failed ∨ status = .ci_setuid_setgid_failed then do
    let can ← can_set_cap K CAP_SETUID
    if !can then do
      set_errno EPERM
      pure (-1)
    else do
      let r ← modify_cap K CAP_SETUID true
      assert (decide (r = 0))
      change_identity_setgid_cap K T uc is_permanent status
  else change_identity_setgid_cap K T uc is_permanent status

/-- The function `change_identity` (`IS_LINUX`). -/
def change_identity {σ : Type} (K : OS2 σ) (T : Tables) (uc : ucred_t) (is_permanent : Bool) :
    Proc (Mem σ) Int :=
  change_identity_linux K T uc is_permanent

/-- The function `change_identity_permanently`. -/
def change_identity_permanently {σ : Type} (K : OS2 σ) (T : Tables) (uc : ucred_t) :
    Proc (Mem σ) Int :=
  change_identity K T uc true

/-- The function `change_identity_temporarily`. -/
def change_identity_temporarily {σ : Type} (K : OS2 σ) (T : Tables) (uc : ucred_t) :
    Proc (Mem σ) Int :=
  change_identity K T uc false

/-! ## `priv2_setuid.c` -/

/-- The function `fill_ucred`: the credentials stored in `*ucred`. -/
def fill_ucred {σ : Type} (K : OS2 σ) (uid : Nat) : Proc (Mem σ) ucred_t := do
  let r ← get_pcred K.toOS.mem
  let pcred := r.2
  pure ⟨uid, pcred.gids.e, pcred.sups⟩

/-- The function `change_uid` (without `MULTITHREADED`). -/
def change_uid {σ : Type} (K : OS2 σ) (T : Tables) (uid : Nat) (is_permanent : Bool) :
    Proc (Mem σ) Int := do
  let ucred ← fill_ucred K uid
  if is_permanent then change_identity_permanently K T ucred
  else change_identity_temporarily K T ucred

/-- The function `change_uid_permanently`. -/
def change_uid_permanently {σ : Type} (K : OS2 σ) (T : Tables) (uid : Nat) : Proc (Mem σ) Int :=
  change_uid K T uid true

/-- The function `change_uid_temporarily`. -/
def change_uid_temporarily {σ : Type} (K : OS2 σ) (T : Tables) (uid : Nat) : Proc (Mem σ) Int :=
  change_uid K T uid false

/-! ## The reference kernel and reference tables for `priv2`

The calls `setuid`, `setreuid`, `setgid` and `setregid` of the reference kernel follow the
Linux manual pages; the privilege of the process is an effective uid of 0. The reference
tables are a state graph of this kernel for the normalized uids 0, 1 and 2: state `(r, e, s)`
has index `9 r + 3 e + s`, the first call of a cell is the first of the calls `setuid`,
`seteuid`, `setreuid`, `setresuid` (in this order, arguments ascending) that makes the
transition, and the predecessor lists are shortest-path trees. -/

/-- The call `setuid` of the reference kernel. -/
def ref_setuid (u : Nat) (k : KState) : SysRet KState :=
  if u = NEG1 then ⟨-1, EINVAL, k⟩
  else if k.uids.e = 0 then ⟨0, 0, ⟨⟨u, u, u⟩, k.gids, u, k.fsgid, k.groups⟩⟩
  else if u = k.uids.r ∨ u = k.uids.s then
    ⟨0, 0, ⟨⟨k.uids.r, u, k.uids.s⟩, k.gids, u, k.fsgid, k.groups⟩⟩
  else ⟨-1, EPERM, k⟩

/-- The call `setreuid` of the reference kernel. -/
def ref_setreuid (r e : Nat) (k : KState) : SysRet KState :=
  if k.uids.e = 0 ∨ ((r = NEG1 ∨ r = k.uids.r ∨ r = k.uids.e) ∧
      (e = NEG1 ∨ e = k.uids.r ∨ e = k.uids.e ∨ e = k.uids.s)) then
    let newe := ref_newid e k.uids.e
    let news := if r ≠ NEG1 ∨ (e ≠ NEG1 ∧ e ≠ k.uids.r) then newe else k.uids.s
    ⟨0, 0, ⟨⟨ref_newid r k.uids.r, newe, news⟩, k.gids, newe, k.fsgid, k.groups⟩⟩
  else ⟨-1, EPERM, k⟩

/-- The call `setgid` of the reference kernel. -/
def ref_setgid (g : Nat) (k : KState) : SysRet KState :=
  if g = NEG1 then ⟨-1, EINVAL, k⟩
  else if k.uids.e = 0 then ⟨0, 0, ⟨k.uids, ⟨g, g, g⟩, k.fsuid, g, k.groups⟩⟩
  else if g = k.gids.r ∨ g = k.gids.s then
    ⟨0, 0, ⟨k.uids, ⟨k.gids.r, g, k.gids.s⟩, k.fsuid, g, k.groups⟩⟩
  else ⟨-1, EPERM, k⟩

/-- The call `setregid` of the reference kernel. -/
def ref_setregid (r e : Nat) (k : KState) : SysRet KState :=
  if k.uids.e = 0 ∨ ((r = NEG1 ∨ r = k.gids.r ∨ r = k.gids.e) ∧
      (e = NEG1 ∨ e = k.gids.r ∨ e = k.gids.e ∨ e = k.gids.s)) then
    let newe := ref_newid e k.gids.e
    let news := if r ≠ NEG1 ∨ (e ≠ NEG1 ∧ e ≠ k.gids.r) then newe else k.gids.s
    ⟨0, 0, ⟨k.uids, ⟨ref_newid r k.gids.r, newe, news⟩, k.fsuid, newe, k.groups⟩⟩
  else ⟨-1, EPERM, k⟩

/-- The reference kernel for `priv2`: a capability is permitted when one of the three uids is
0, and `cap_set_flag` succeeds. -/
def ref_os2 : OS2 KState where
  toOS := ref_os
  setuid := ref_setuid
  setreuid := ref_setreuid
  setgid := ref_setgid
  setregid := ref_setregid
  cap_get_flag := fun _ k => (0, decide (k.uids.r = 0 ∨ k.uids.e = 0 ∨ k.uids.s = 0))
  cap_set_flag := fun _ _ _ => 0

/-- The state with index `i` of the reference tables. -/
def ref_state (i : Nat) : uids_t := ⟨i / 9 % 3, i / 3 % 3, i % 3⟩

/-- The index of a state in the reference tables. -/
def ref_index (u : uids_t) : Nat := 9 * u.r + 3 * u.e + u.s

/-- The calls of the reference tables, in the order of the generated call lists. -/
def ref_calls : List (List Nat) :=
  [[0, 0, 0, 0], [0, 0, 0, 1], [0, 0, 0, 2], [1, 0, 0, 0], [1, 0, 0, 1], [1, 0, 0, 2]] ++
    ((List.range 9).map fun n => [2, 0, 0, n / 3, n % 3]) ++
    ((List.range 27).map fun n => [3, 0, 0, n / 9 % 3, n / 3 % 3, n % 3])

/-- The uids after a call of `ref_calls` in the state `a` of the reference kernel, `none`
when the call fails. -/
def ref_apply (a : uids_t) (c : List Nat) : Option uids_t :=
  let k : KState := ⟨a, ⟨0, 0, 0⟩, a.e, 0, []⟩
  let r : SysRet KState :=
    match c with
    | [0, _, _, u] => ref_setuid u k
    | [1, _, _, u] => ref_setresuid NEG1 u NEG1 k
    | [2, _, _, x, y] => ref_setreuid x y k
    | [3, _, _, x, y, z] => ref_setresuid x y z k
    | _ => ⟨-1, EINVAL, k⟩
  if r.rc = 0 then some r.os.uids else none

/-- The cell of the reference adjacency matrix from state `i` to state `j`. -/
def ref_cell (i j : Nat) : Option (List (List Nat)) :=
  match ref_calls.find? (fun c => decide (ref_apply (ref_state i) c = some (ref_state j))) with
  | some c => some [c]
  | none => none

/-- The predecessor of state `j` on a shortest path from state `i`: `i` itself when one call
makes the transition, else the state reached by `seteuid(0)` when the real or the saved uid of
`i` is 0, else `j` itself (no path). -/
def ref_pred (i j : Nat) : Nat :=
  if i = j ∨ (ref_cell i j).isSome then i
  else if ((ref_state i).r = 0 ∨ (ref_state i).s = 0) ∧ (ref_state i).e ≠ 0 then
    ref_index ⟨(ref_state i).r, 0, (ref_state i).s⟩
  else j

/-- The reference tables. -/
def ref_tables : Tables where
  state_idx_lookup := fun r e s =>
    if r < 3 ∧ e < 3 ∧ s < 3 then some ((ref_index ⟨r, e, s⟩ : Nat) : Int) else none
  predecessor_matrix := (List.range 27).map fun i => (List.range 27).map fun j => ref_pred i j
  adjacency_matrix := (List.range 27).map fun i => (List.range 27).map fun j => ref_cell i j
  effective_privileged_states :=
    ((List.range 27).filter fun i => decide ((ref_state i).e = 0)).map ref_state

/-- A process of the reference kernel in the state of `priv2` at program start. -/
def ref_mem (uids : uids_t) (gids : gids_t) (groups : List Nat) : World (Mem KState) :=
  ⟨⟨⟨uids, gids, uids.e, gids.e, groups⟩, Cache.init⟩, 0, []⟩

/-! ## `priv.c` on AIX: `aix_set_uids` and `aix_set_gids` (`_AIX`) -/

/-- The predecessor of vertex `v` in a predecessor list (`v` itself outside the list). -/
def pred_of (predecessor_list : List Nat) (v : Nat) : Nat := predecessor_list.getD v v

/-- Following predecessors from `dest` reaches `first` in finitely many steps. -/
def Reaches (predecessor_list : List Nat) (first dest : Nat) : Prop :=
  ∃ k, (pred_of predecessor_list)^[k] dest = first

/-- The edges `(v(i-1), v(i))` of the predecessor path from `first_idx` to `next_idx`, first
edge first, found by following predecessors from `next_idx` for at most `fuel` steps. -/
def path_edges (predecessor_list : List Nat) (first_idx : Int) : Nat → Int → List (Int × Int)
  | 0, _ => []
  | fuel + 1, next_idx =>
    if next_idx = first_idx then []
    else
      match idx predecessor_list next_idx with
      | none => []
      | some v =>
        path_edges predecessor_list first_idx fuel (int_of_uid v) ++ [(int_of_uid v, next_idx)]

/-- One call of `set_uids_from_idx` per edge, in the order of the list, each followed by the
assertion that it returned 0. -/
def run_uids_edges {σ : Type} (K : OS2 σ) (T : Tables) (p : norm_pcred_pair_t) :
    List (Int × Int) → Proc (Mem σ) Unit
  | [] => pure ()
  | e :: es => do
    let r ← set_uids_from_idx K T p e.1 e.2
    assert (decide (r = 0))
    run_uids_edges K T p es

/-- The six uids of a pair, in the order `normalize_uids` reads them. -/
def uids_of_pair (p : pcred_pair_t) : List Nat :=
  [p.prev.uids.r, p.prev.uids.e, p.prev.uids.s, p.next.uids.r, p.next.uids.e, p.next.uids.s]

/-- The six normalized uids of a pair, in the same order. -/
def uids_of_norm (d : uids_norm_data_t) : List Nat :=
  [d.pair.prev.r, d.pair.prev.e, d.pair.prev.s, d.pair.next.r, d.pair.next.e, d.pair.next.s]

/-- The number of distinct uids of a pair other than 0 and `-1`. -/
def distinct_uids (p : pcred_pair_t) : Nat :=
  (((uids_of_pair p).filter fun v => decide (v ≠ 0 ∧ v ≠ NEG1)).dedup).length

/-- The map holds exactly the uids `seen`, in this order. -/
def MapHolds (map : uids_map_t) (seen : List Nat) : Prop :=
  map.counter = seen.length ∧ map.ids.length = ID_MAP_SIZE ∧ seen.Nodup ∧
    (∀ v ∈ seen, v ≠ 0 ∧ v ≠ NEG1) ∧ ∀ i, i < seen.length → map.ids[i]? = some seen[i]?

/-- The normalized value of `id` when the map holds `seen`. -/
def norm_code (seen : List Nat) (id : Nat) : Nat :=
  if id = NEG1 then NEG1 else if id = 0 then 0 else seen.indexOf id + 1

/-- The uids seen after `id`: `id` is appended unless it is 0, `-1` or already there. -/
def seen_after (seen : List Nat) (id : Nat) : List Nat :=
  if id = NEG1 ∨ id = 0 ∨ id ∈ seen then seen else seen ++ [id]

/-- Calls of `suid_privilege_is_attainable`, one after another. -/
def attainable_all {σ : Type} (T : Tables) : List (uids_t × uids_t) → Proc (Mem σ) (List Bool)
  | [] => pure []
  | q :: qs => do
    let b ← suid_privilege_is_attainable T q.1 q.2
    let bs ← attainable_all T qs
    pure (b :: bs)

/-- Calls of `can_set_suid_for_identity_change`, one after another. -/
def can_set_suid_all (T : Tables) : List (uids_t × uids_t) → Res (List Bool)
  | [] => .ok []
  | q :: qs => do
    let b ← can_set_suid_for_identity_change T q.1 q.2
    let bs ← can_set_suid_all T qs
    pure (b :: bs)

/-- The cache holds nothing, or the value of `can_set_suid_for_identity_change` for the pair
it holds. -/
def CacheOK (T : Tables) (c : Cache) : Prop :=
  c.cached = true → can_set_suid_for_identity_change T c.cached_cu c.cached_nu = .ok c.cached_rtn

/-- A root process: all uids and gids 0, the single group 0. -/
def ex2_root : World (Mem KState) := ref_mem ⟨0, 0, 0⟩ ⟨0, 0, 0⟩ [0]

/-- A process with real and effective uid 1000 and saved uid 0 (a set-uid-root program after
a temporary drop), gids 100 and the groups 4 and 24. -/
def ex2_suid : World (Mem KState) := ref_mem ⟨1000, 1000, 0⟩ ⟨100, 100, 100⟩ [4, 24]

/-- A root process with real gid 100 and effective and saved gid 200. -/
def ex2_setgid : World (Mem KState) := ref_mem ⟨0, 0, 0⟩ ⟨100, 200, 200⟩ [4, 24]

/-- A root process whose groups are 0, 3 and 2147483653. -/
def ex2_wide : World (Mem KState) := ref_mem ⟨0, 0, 0⟩ ⟨0, 0, 0⟩ [0, 3, 2147483653]

/-- The target uid 1000, gid 100, with the "leave unchanged" marker for the groups. -/
def ex_keep : ucred_t := ⟨1000, 100, ⟨[], 0⟩⟩

/-- A run `o` from `w` on the state of `priv2` ends as the computation `r` does: with the
same result, the kernel state, `errno` and the log being those of `w`, or with `abort()` when
`r` does, or without a defined result when `r` has none. -/
def Agrees {σ α : Type} (r : Res α) (o : Outcome (Mem σ) α) (w : World (Mem σ)) : Prop :=
  match r with
  | .ok a => ∃ c, o = .ret a ⟨⟨w.os.os, c⟩, w.errno, w.log⟩
  | .abort => ∃ w1, o = .abort w1
  | .undef => ∃ w1, o = .undef w1

/-- The uids seen after the uids `vals`, starting from `seen`. -/
def seen_all (seen : List Nat) (vals : List Nat) : List Nat := vals.foldl seen_after seen

/-- Calls of `normalize_single_uids` on the same map, one after another: the values returned
and the map afterwards. -/
def normalize_list (map : uids_map_t) : List Nat → Res (List Nat × uids_map_t)
  | [] => .ok ([], map)
  | v :: vs => do
    let a ← normalize_single_uids map v
    let r ← normalize_list a.2 vs
    pure (a.1 :: r.1, r.2)

/-- The normalized pair for the change from uids 1000, 1000, 0 to uids 2000, 2000, 2000: the
states with index 12 and 26 of the reference tables. -/
def ex_np : norm_pcred_pair_t :=
  ⟨⟨⟨⟨1000, 1000, 0⟩, ⟨100, 100, 100⟩⟩, ⟨⟨1, 1, 0⟩, ⟨1, 0, 1⟩⟩, ⟨[4, 24], 2⟩⟩,
    ⟨⟨⟨2000, 2000, 2000⟩, ⟨100, 100, 100⟩⟩, ⟨⟨2, 2, 2⟩, ⟨1, 1, 1⟩⟩, ⟨[4, 24], 2⟩⟩,
    ⟨2, [some 1000, some 2000, some NEG1, none, none, none]⟩,
    ⟨1, [some 100, some NEG1, some NEG1, none, none, none]⟩⟩

/-! ## Examples for the assertions and lookups of `priv2_graph.c` -/

/-- A set-gid process of the reference kernel run by root: real gid 100, effective and saved
gid 200. -/
def ex2_three : World (Mem KState) := ref_mem ⟨0, 0, 0⟩ ⟨100, 200, 200⟩ [4, 24]

/-- A target with a gid that is neither 100 nor 200. -/
def ex_third : ucred_t := ⟨1000, 300, ⟨[4, 24], 2⟩⟩

/-- The reference tables without a way into the state with index `n`: no cell leads to it and
it is its own predecessor in every predecessor list. -/
def cut_tables (n : Nat) : Tables where
  state_idx_lookup := ref_tables.state_idx_lookup
  predecessor_matrix := (List.range 27).map fun i => (List.range 27).map fun j =>
    if j = n then n else ref_pred i j
  adjacency_matrix := (List.range 27).map fun i => (List.range 27).map fun j =>
    if j = n ∧ i ≠ n then none else ref_cell i j
  effective_privileged_states := ref_tables.effective_privileged_states

/-- The pair of states for the change from uids 1000, 1000, 0 to uid 2000 with the gids left at
100. -/
def ex_cut_pair : pcred_pair_t :=
  ⟨⟨⟨1000, 1000, 0⟩, ⟨100, 100, 100⟩, ⟨[4, 24], 2⟩⟩,
    ⟨⟨2000, 2000, 2000⟩, ⟨100, 100, 100⟩, ⟨[4, 24], 2⟩⟩⟩

/-! ## `priv.c` on Solaris: `solaris_set_uids` and `solaris_set_gids` (`__sun`) -/

/-- The system calls and constants the Solaris functions use. `open_cred` is the value of
`open("/proc/self/cred", O_RDONLY)`; `read_cred fd` gives the return value of
`read(fd, p, sizeof(*p))` and the structure it stores in `*p`; `close fd` is the value of
`close(fd)`; `open_ctl` is `open("/proc/self/ctl", O_WRONLY)`; `writev_ctl fd cmd prc` is
`writev(fd, iov, 2)` for the two buffers `cmd` and `prc`. `sizeof_cmd` is `sizeof(long)`,
`sizeof_prc` is `sizeof(prcred_t)`, `PCSCRED` is the constant of `<sys/procfs.h>`, and
`size_bits` is the width of `size_t` and `ssize_t`. -/
structure Solaris (σ : Type) where
  geteuid : σ → Nat
  open_cred : σ → Int
  read_cred : Int → σ → Int × prcred_t
  close : Int → σ → Int
  open_ctl : σ → SysRet σ
  writev_ctl : Int → Nat → prcred_t → σ → SysRet σ
  setreuid : Nat → Nat → σ → SysRet σ
  seteuid : Nat → σ → SysRet σ
  setregid : Nat → Nat → σ → SysRet σ
  setegid : Nat → σ → SysRet σ
  sizeof_cmd : Nat
  sizeof_prc : Nat
  PCSCRED : Nat
  size_bits : Nat

/-- The conversion of an `ssize_t` to `size_t`, which a comparison of a return value with a
`sizeof` makes. -/
def size_t_of (bits : Nat) (v : Int) : Nat := (v % (2 : Int) ^ bits).toNat

/-- The function `solaris_get_prcred`: its return value and the structure it stores in
`*p`. -/
def solaris_get_prcred {σ : Type} (S : Solaris σ) : Proc σ (Int × prcred_t) := do
  let fd ← rd S.open_cred
  DO_SYS (pure fd)
  let r ← rd (S.read_cred fd)
  DO_CHK (pure (decide (size_t_of S.size_bits r.1 = S.sizeof_prc % 2 ^ S.size_bits)))
  DO_SYS (rd (S.close fd))
  pure (0, r.2)

/-- The function `solaris_set_uids`. In `DO_SYS( (fd = open(...)) == -1 )` the value
that `DO_SYS` compares with `-1` is that of the comparison, 0 or 1. -/
def solaris_set_uids {σ : Type} (S : Solaris σ) (ruid euid suid : Nat) : Proc σ Int := do
  let cureuid ← rd S.geteuid
  if cureuid = 0 then do
    let prc0 ← DO_SYS_get (solaris_get_prcred S)
    let prc : prcred_t :=
      ⟨euid, ruid, suid, prc0.pr_egid, prc0.pr_rgid, prc0.pr_sgid, 0⟩
    let fd ← sys .open_ctl S.open_ctl
    DO_SYS (pure (if fd = -1 then 1 else 0))
    let n ← sys (.writev_ctl fd S.PCSCRED prc) (S.writev_ctl fd S.PCSCRED prc)
    DO_CHK (pure (decide (size_t_of S.size_bits n =
      (S.sizeof_cmd + S.sizeof_prc) % 2 ^ S.size_bits)))
    pure 0
  else do
    DO_SYS (sys (.setreuid ruid suid) (S.setreuid ruid suid))
    DO_SYS (sys (.seteuid euid) (S.seteuid euid))
    pure 0

/-- The function `solaris_set_gids`. -/
def solaris_set_gids {σ : Type} (S : Solaris σ) (rgid egid sgid : Nat) : Proc σ Int := do
  let cureuid ← rd S.geteuid
  if cureuid = 0 then do
    let prc0 ← DO_SYS_get (solaris_get_prcred S)
    let prc : prcred_t :=
      ⟨prc0.pr_euid, prc0.pr_ruid, prc0.pr_suid, egid, rgid, sgid, 0⟩
    let fd ← sys .open_ctl S.open_ctl
    DO_SYS (pure (if fd = -1 then 1 else 0))
    let n ← sys (.writev_ctl fd S.PCSCRED prc) (S.writev_ctl fd S.PCSCRED prc)
    DO_CHK (pure (decide (size_t_of S.size_bits n ≠
      (S.sizeof_cmd + S.sizeof_cmd) % 2 ^ S.size_bits)))
    pure 0
  else do
    DO_SYS (sys (.setregid rgid sgid) (S.setregid rgid sgid))
    DO_SYS (sys (.setegid egid) (S.setegid egid))
    pure 0

/-- The state of the Solaris reference kernel: the credentials, and whether
`/proc/self/ctl` can be opened. -/
structure SolState where
  k : KState
  ctl : Bool
deriving DecidableEq

/-- The error number `EBADF`. -/
def EBADF : Int := 9

/-- The error number `EACCES`. -/
def EACCES : Int := 13

/-- A Solaris kernel for running the functions on concrete inputs, with the sizes of the
64-bit data model: `/proc/self/cred` is file descriptor 3 and holds the credentials,
`/proc/self/ctl` is file descriptor 4 when it can be opened, and a write of `PCSCRED` to it
sets the six ids when the effective uid is 0. -/
def ref_solaris : Solaris SolState where
  geteuid := fun s => s.k.uids.e
  open_cred := fun _ => 3
  read_cred := fun fd s =>
    if fd = 3 then
      (32, ⟨s.k.uids.e, s.k.uids.r, s.k.uids.s, s.k.gids.e, s.k.gids.r, s.k.gids.s,
        (s.k.groups.length : Int)⟩)
    else (-1, ⟨0, 0, 0, 0, 0, 0, 0⟩)
  close := fun fd _ => if fd = 3 then 0 else -1
  open_ctl := fun s => if s.ctl then ⟨4, 0, s⟩ else ⟨-1, EACCES, s⟩
  writev_ctl := fun fd cmd prc s =>
    if fd = 4 ∧ s.ctl then
      if cmd = 27 ∧ s.k.uids.e = 0 then
        ⟨40, 0, ⟨⟨⟨prc.pr_ruid, prc.pr_euid, prc.pr_suid⟩,
          ⟨prc.pr_rgid, prc.pr_egid, prc.pr_sgid⟩, prc.pr_euid, prc.pr_egid, s.k.groups⟩,
          s.ctl⟩⟩
      else ⟨-1, EPERM, s⟩
    else ⟨-1, EBADF, s⟩
  setreuid := fun r e s =>
    ⟨(ref_setreuid r e s.k).rc, (ref_setreuid r e s.k).err, ⟨(ref_setreuid r e s.k).os, s.ctl⟩⟩
  seteuid := fun u s =>
    ⟨(ref_os.seteuid u s.k).rc, (ref_os.seteuid u s.k).err, ⟨(ref_os.seteuid u s.k).os, s.ctl⟩⟩
  setregid := fun r e s =>
    ⟨(ref_setregid r e s.k).rc, (ref_setregid r e s.k).err, ⟨(ref_setregid r e s.k).os, s.ctl⟩⟩
  setegid := fun g s =>
    ⟨(ref_os.setegid g s.k).rc, (ref_os.setegid g s.k).err, ⟨(ref_os.setegid g s.k).os, s.ctl⟩⟩
  sizeof_cmd := 8
  sizeof_prc := 32
  PCSCRED := 27
  size_bits := 64

/-- A root process of the Solaris reference kernel with gids 100 for which the `open` of
`/proc/self/ctl` fails. -/
def ex_sol_closed : World SolState := ⟨⟨⟨⟨0, 0, 0⟩, ⟨100, 100, 100⟩, 0, 100, []⟩, false⟩, 0, []⟩

/-- The same process when `/proc/self/ctl` can be opened. -/
def ex_sol_open : World SolState := ⟨⟨⟨⟨0, 0, 0⟩, ⟨100, 100, 100⟩, 0, 100, []⟩, true⟩, 0, []⟩

/-! ## Examples for `fill_pair` -/

/-- A process of the reference kernel with real and saved uid 500 and effective uid 1000. -/
def ex2_eff : World (Mem KState) := ref_mem ⟨500, 1000, 500⟩ ⟨100, 100, 100⟩ [4, 24]

/-! ## `priv2` compiled with `NDEBUG`

With `NDEBUG` defined `assert(e)` expands to `((void)0)` and `e` is not evaluated. The
functions below are those of `change_identity_basic` in which an assertion holds a call; the
functions in which every assertion only tests a value (`get_ids_idx`, `fill_pair`,
`get_normalized_pcred_pair`, `get_suid_for_identity_change`, `map_uids_params`) are shared with
the build with assertions, the two builds executing the same statements on a run in which none
of these tests fails. -/

/-- The function `set_uids_from_graph` with `NDEBUG`: the call of
`set_uids_from_graph_recursive` stands in an `assert`. -/
def set_uids_from_graph_ndebug {σ : Type} (T : Tables) (p : norm_pcred_pair_t) :
    Proc (Mem σ) Int := do
  let _ ← (get_ids_idx T p.prev.normalized.uids).run
  let _ ← (get_ids_idx T p.next.normalized.uids).run
  pure 0

/-- The function `set_gids_from_graph` with `NDEBUG`. -/
def set_gids_from_graph_ndebug {σ : Type} (T : Tables) (p : norm_pcred_pair_t) :
    Proc (Mem σ) Int := do
  let _ ← (get_ids_idx T p.prev.normalized.gids).run
  let _ ← (get_ids_idx T p.next.normalized.gids).run
  pure 0

/-- The function `change_identity_elevate_for_sups` with `NDEBUG`: the calls of
`set_uids_from_graph`, `set_sups` and `set_gids_from_graph` stand in `assert`s. -/
def change_identity_elevate_for_sups_ndebug {σ : Type} (K : OS2 σ) (T : Tables)
    (np : norm_pcred_pair_t) : Proc (Mem σ) Unit := do
  let priv_norm_uids ← (get_suid_for_identity_change T np).run
  let actual_priv_uids ← (map_uids_params np.uids_map 3
    [priv_norm_uids.r, priv_norm_uids.e, priv_norm_uids.s]).run
  let p1 ← get_pair_current K false
  let a0 ← param actual_priv_uids 0
  let a1 ← param actual_priv_uids 1
  let a2 ← param actual_priv_uids 2
  let _ ← get_normalized_pcred_pair T ⟨p1.prev, ⟨⟨a0, a1, a2⟩, p1.next.gids, p1.next.sups⟩⟩
  let p2 ← get_pair_current K false
  let _ ← get_normalized_pcred_pair T
    ⟨p2.prev, ⟨np.next.actual.uids, np.next.actual.gids, np.next.sups⟩⟩
  pure ()

/-- The statements of `change_identity_basic` for `groups_first` and `groups_last` with
`NDEBUG`: what is left is the call of `set_gids_from_graph` in the `if` of `groups_first`. -/
def change_identity_in_order_ndebug {σ : Type} (T : Tables) (np : norm_pcred_pair_t)
    (groups_timing : groups_timing_e) (must_change_groups : Bool) :
    Proc (Mem σ) ci_status_e := do
  let failed ← (if groups_timing = .groups_first then do
      let r ← (if must_change_groups then set_gids_from_graph_ndebug T np else pure 0)
      if r ≠ 0 then pure true
      else pure false
    else pure false)
  if failed then pure .ci_setgid_failed
  else pure .ci_success

/-- The function `change_identity_basic` with `NDEBUG`. -/
def change_identity_basic_ndebug {σ : Type} (K : OS2 σ) (T : Tables) (uc : ucred_t)
    (is_permanent : Bool) : Proc (Mem σ) ci_status_e := do
  let sane ← (if !ids_are_sane uc then pure false else sups_are_sane K.toOS.mem uc.sups)
  if !sane then pure .ci_invalid_values
  else do
    let sp ← fill_pair K T uc is_permanent false
    let status := sp.1
    let p := sp.2
    if status ≠ .ci_success then pure status
    else do
      let np ← get_normalized_pcred_pair T p
      let _ ← sups_change_needed K.toOS.mem np
      let must_change_groups := groups_change_needed np
      let current_priv := suid_privilege_is_effective p.prev.uids
      let target_priv := suid_privilege_is_effective p.next.uids
      let attainable ← suid_privilege_is_attainable T np.prev.normalized.uids
        np.next.normalized.uids
      let no_priv := !attainable
      let groups_timing := groups_timing_of no_priv current_priv target_priv
      if groups_timing = .groups_elevate then do
        change_identity_elevate_for_sups_ndebug K T np
        pure .ci_success
      else change_identity_in_order_ndebug T np groups_timing must_change_groups

/-! ## `GraphVerificationImpl.h`: `GeneralSanityVisitor::visitEdge`

The C++ checks of the state graph, as compiled on Linux (`HAS_SETRESUID` is 1). An exception
thrown by `E_CONFIRM` is the error value of `Except`, holding the description `desc`. -/

/-- The enumeration `SetuidFunction`. -/
inductive SetuidFunction where
  | SetuidInvalid
  | Setuid
  | Seteuid
  | Setreuid
  | Setresuid
  | SetuidFunctionEnd
  | DropPrivPerm
  | DropPrivTemp
  | RestorePriv
  | PrivFunctionEnd
deriving DecidableEq, Repr

/-- The structure `SetuidState`. -/
structure SetuidState where
  ruid : Nat
  euid : Nat
  svuid : Nat
deriving DecidableEq, Repr

/-- The structure `SetuidFunctionReturn`, without the text `errDescription`. -/
structure SetuidFunctionReturn where
  value : Int
  errNumber : Int
deriving DecidableEq, Repr

/-- The structure `SetuidFunctionCall`, without `weight`. -/
structure SetuidFunctionCall where
  function : SetuidFunction
  params : List Int
  rtn : SetuidFunctionReturn
deriving DecidableEq, Repr

/-- The macro `SOMEWHAT_PRIVILEGED(s)`, which every use puts in parentheses. -/
def SOMEWHAT_PRIVILEGED (s : SetuidState) : Bool :=
  decide (s.ruid = 0) || decide (s.euid = 0) || decide (s.svuid = 0)

/-- The macro `INVALID_UID`. -/
def INVALID_UID : Nat := NEG1

/-- The macro `HAS_INVALID_UID(s)`. -/
def HAS_INVALID_UID (s : SetuidState) : Bool :=
  decide (s.ruid = INVALID_UID) || decide (s.euid = INVALID_UID) ||
    decide (s.svuid = INVALID_UID)

/-- The macro `E_CONFIRM(cond, desc)`: `if (!(cond)) throw EdgeVisitorError<Graph>(desc, e, v1,
v2)`. -/
def E_CONFIRM (cond : Bool) (desc : String) : Except String Unit :=
  if !cond then .error desc else .ok ()

/-- The method `GeneralSanityVisitor<Graph>::visitEdge`. -/
def GeneralSanityVisitor.visitEdge (e : SetuidFunctionCall) (v1 v2 : SetuidState) :
    Except String Unit := do
  (match e.function with
    | .Setuid =>
      E_CONFIRM (decide (e.params.length = 1)) "Expected 1 parameter for setuid() call"
    | .Seteuid =>
      E_CONFIRM (decide (e.params.length = 1)) "Expected 1 parameter for seteuid() call"
    | .Setreuid =>
      E_CONFIRM (decide (e.params.length = 2)) "Expected 2 parameters for setreuid() call"
    | .Setresuid =>
      E_CONFIRM (decide (e.params.length = 3)) "Expected 3 parameters for setresuid() call"
    | .DropPrivPerm =>
      E_CONFIRM (decide (e.params.length = 1)) "Expected 1 parameter for dropprivperm() call"
    | .DropPrivTemp =>
      E_CONFIRM (decide (e.params.length = 1)) "Expected 1 parameter for dropprivtemp() call"
    | .RestorePriv =>
      E_CONFIRM (decide (e.params.length = 1)) "Expected 1 parameter for restorepriv() call"
    | _ => E_CONFIRM false "Invalid setuid function type")
  E_CONFIRM (decide (e.rtn.value = 0) || decide (e.rtn.value = -1))
    "Expected function return of 0 or -1"
  E_CONFIRM (decide (e.rtn.value = -1) || decide (e.rtn.errNumber = 0))
    "Expected no error value for function return of 0"
  E_CONFIRM (decide (e.rtn.value = 0) || decide (e.rtn.errNumber = EPERM) ||
      decide (e.rtn.errNumber = EINVAL))
    "Expected no error codes other than EPERM and EINVAL"
  E_CONFIRM (!(HAS_INVALID_UID v1) && !(HAS_INVALID_UID v2))
    "Expected no edges to/from states containing UID -1"
  E_CONFIRM (SOMEWHAT_PRIVILEGED v1 || !(SOMEWHAT_PRIVILEGED v2))
    "Expected no transitions from unprivileged states to somewhat privileged states"
  E_CONFIRM (decide (e.rtn.value = 0) ||
      (decide (v1.ruid = v2.ruid) && decide (v1.euid = v2.euid) &&
        decide (v1.svuid = v2.svuid)))
    "Expected no change in UID values on failed function call"
  E_CONFIRM (decide (v1.euid ≠ 0) || decide (e.rtn.value = 0) ||
      (decide (e.rtn.value = -1) && decide (e.rtn.errNumber = EINVAL)))
    "Expected root to only fail function call with EINVAL error code"

/-- The method `SetuidStateEdgeVisitor<Graph>::examine_edge` for the visitor
`GeneralSanityVisitor`: the descriptions written to `std::cerr`, which are none when `visitEdge`
throws nothing. -/
def GeneralSanityVisitor.examine_edge (edge : SetuidFunctionCall × SetuidState × SetuidState) :
    List String :=
  match GeneralSanityVisitor.visitEdge edge.1 edge.2.1 edge.2.2 with
  | .error desc => ["Graph visitor error:", desc]
  | .ok _ => []

/-- The run of `GeneralSanityVisitor` over a graph, given the edges in the order in which the
breadth-first search of the graph library examines them: all that is written to
`std::cerr`. -/
def GeneralSanityVisitor.visitGraph
    (edges : List (SetuidFunctionCall × SetuidState × SetuidState)) : List String :=
  edges.flatMap GeneralSanityVisitor.examine_edge

/-- A state is wholly unprivileged when its three uids are all non-zero. -/
def wholly_unprivileged (s : SetuidState) : Prop := s.ruid ≠ 0 ∧ s.euid ≠ 0 ∧ s.svuid ≠ 0

/-- A state is somewhat privileged when one of its three uids is zero. -/
def somewhat_privileged (s : SetuidState) : Prop := s.ruid = 0 ∨ s.euid = 0 ∨ s.svuid = 0

/-! ## `fill_pair`: the tests on a pair of states, without the cache

The answer of `suid_privilege_is_attainable` is the value of
`can_set_suid_for_identity_change`, computed or taken from the cache, so the tests `fill_pair`
makes on a pair of states are functions of the kernel state. They are written down here, for
the statements about `fill_pair`, with `can_set_suid_for_identity_change` in the place of
`suid_privilege_is_attainable`. -/

/-- The value of `normalize_gids`. -/
def normalize_gids_value (T : Tables) (normalized_current_uids normalized_target_uids : uids_t)
    (p : pcred_pair_t) : Res gids_norm_data_t := do
  let map := new_gids_map
  let force_privileged ←
    can_set_suid_for_identity_change T normalized_current_uids normalized_target_uids
  let a ← normalize_single_gids map p.prev.gids.r
  let b ← (if force_privileged then pure (0, a.2)
    else normalize_single_gids a.2 p.prev.gids.e)
  let c ← normalize_single_gids b.2 p.prev.gids.s
  let d ← normalize_single_gids c.2 p.next.gids.r
  let e ← normalize_single_gids d.2 p.next.gids.e
  let f ← normalize_single_gids e.2 p.next.gids.s
  pure ⟨⟨⟨a.1, b.1, c.1⟩, ⟨d.1, e.1, f.1⟩⟩, f.2⟩

/-- The value of `get_normalized_pcred_pair`. -/
def get_normalized_pcred_pair_value (T : Tables) (p : pcred_pair_t) : Res norm_pcred_pair_t := do
  let uids_norm_data ← normalize_uids p
  let gids_norm_data ←
    normalize_gids_value T uids_norm_data.pair.prev uids_norm_data.pair.prev p
  pure ⟨⟨⟨p.prev.uids, p.prev.gids⟩, ⟨uids_norm_data.pair.prev, gids_norm_data.pair.prev⟩,
      p.prev.sups⟩,
    ⟨⟨p.next.uids, p.next.gids⟩, ⟨uids_norm_data.pair.next, gids_norm_data.pair.next⟩,
      p.next.sups⟩,
    uids_norm_data.map, gids_norm_data.map⟩

/-- The value of `sups_change_needed` in the kernel state `os`. -/
def sups_change_needed_value {σ : Type} (K : OS σ) (os : σ) (p : norm_pcred_pair_t) : Res Bool :=
  if sups_is_dont_change p.next.sups then .ok false
  else
    match eql_sups_pure (K.getegid os) p.prev.sups p.next.sups with
    | some eq => .ok (!eq)
    | none => Res.undef

/-- The value of `sups_are_possible` in the kernel state `os`. -/
def sups_are_possible_value {σ : Type} (K : OS2 σ) (T : Tables) (os : σ)
    (p : norm_pcred_pair_t) : Res Bool := do
  let needed ← sups_change_needed_value K.toOS os p
  if !needed then pure true
  else if suid_privilege_is_effective p.prev.normalized.uids then pure true
  else can_set_suid_for_identity_change T p.prev.normalized.uids p.next.normalized.uids

/-- The value of `groups_are_possible`. -/
def groups_are_possible_value (T : Tables) (p : norm_pcred_pair_t) : Res Bool :=
  if !groups_change_needed p then pure true
  else if suid_privilege_is_effective p.prev.normalized.uids then pure true
  else do
    let can ← can_set_gids_from_graph T p
    if can then pure true
    else can_set_suid_for_identity_change T p.prev.normalized.uids p.next.normalized.uids

/-- The value of `!sups_are_possible(&np) || !groups_are_possible(&np)` in the kernel state
`os`. -/
def sups_or_groups_impossible_value {σ : Type} (K : OS2 σ) (T : Tables) (os : σ)
    (np : norm_pcred_pair_t) : Res Bool := do
  let sp ← sups_are_possible_value K T os np
  if !sp then pure true
  else do
    let gp ← groups_are_possible_value T np
    pure (!gp)

/-- The status the `if` chains of `fill_pair` name for a pair of states: `can` is the value of
`can_set_uids_from_graph(&np)` and `bad` that of
`!sups_are_possible(&np) || !groups_are_possible(&np)`. -/
def fill_status (can bad : Bool) : ci_status_e :=
  if !can then (if bad then .ci_setuid_setgid_failed else .ci_setuid_failed)
  else if bad then .ci_setgid_failed
  else .ci_success

/-- The status of the pair of states `p` in the kernel state `os`. -/
def pair_status {σ : Type} (K : OS2 σ) (T : Tables) (os : σ) (p : pcred_pair_t) :
    Res ci_status_e := do
  let np ← get_normalized_pcred_pair_value T p
  let can ← can_set_uids_from_graph T np
  let bad ← sups_or_groups_impossible_value K T os np
  pure (fill_status can bad)

/-- The status of the pair of candidates `pairs.uids[i]` and `pairs.gids[j]`. -/
def candidate_status {σ : Type} (K : OS2 σ) (T : Tables) (os : σ) (pairs : id_pairs_t)
    (i j : Nat) : Res ci_status_e :=
  match pairs.uids[i]?, pairs.gids[j]? with
  | some us, some gs => pair_status K T os ⟨pairs.prev, ⟨us, gs, pairs.sups⟩⟩
  | _, _ => Res.undef

/-- The ranking of the comments of `fill_pair`: success, then a missing gid privilege, then a
missing uid privilege, then both missing. -/
def status_rank : ci_status_e → Nat
  | .ci_success => 4
  | .ci_setgid_failed => 3
  | .ci_setuid_failed => 2
  | .ci_setuid_setgid_failed => 1
  | _ => 0

/-- What one pass of the inner loop of `fill_pair` does to `status`, `uid_idx` and `gid_idx`
when the pair of candidates `i`, `j` has the status `s`, and whether it takes the `break`. -/
def fill_update (st : fill_state) (i j : Nat) (s : ci_status_e) : fill_state × Bool :=
  if s = .ci_success then (⟨s, i, j⟩, true)
  else if status_rank st.status < status_rank s then (⟨s, i, j⟩, false)
  else (st, false)

/-- The pair `(a, b)` comes before `(i, j)` in the order of the two loops of `fill_pair`. -/
def comes_before (a b i j : Nat) : Prop := a < i ∨ (a = i ∧ b < j)

/-- The variables of `fill_pair` hold the best of the candidate pairs before `(i, j)`, and the
first one of that status: either no pair has been tried and the variables have their first
values, or they name a pair before `(i, j)` whose status ranks at least as high as that of
every pair before `(i, j)` and higher than that of every pair before itself. -/
def BestBefore (cls : Nat → Nat → ci_status_e) (st : fill_state) (i j : Nat) : Prop :=
  (st = ⟨.ci_invalid, -1, -1⟩ ∧ i = 0 ∧ j = 0) ∨
    ∃ a b, a < ID_PAIR_COLLECTION_SIZE ∧ b < ID_PAIR_COLLECTION_SIZE ∧ comes_before a b i j ∧
      st = ⟨cls a b, a, b⟩ ∧
      (∀ x y, x < ID_PAIR_COLLECTION_SIZE → y < ID_PAIR_COLLECTION_SIZE → comes_before x y i j →
        status_rank (cls x y) ≤ status_rank (cls a b)) ∧
      (∀ x y, x < ID_PAIR_COLLECTION_SIZE → y < ID_PAIR_COLLECTION_SIZE → comes_before x y a b →
        status_rank (cls x y) < status_rank (cls a b))

/-- A function of `priv2` that changes nothing but the cache and returns the value `f os` in
the kernel state `os`, when that value is defined. -/
def CachePure {σ α : Type} (T : Tables) (m : Proc (Mem σ) α) (f : σ → Res α) : Prop :=
  ∀ (w : World (Mem σ)) (a : α), CacheOK T w.os.cache → f w.os.os = .ok a →
    ∃ c, m w = .ret a ⟨⟨w.os.os, c⟩, w.errno, w.log⟩ ∧ CacheOK T c

/-- A process of the reference kernel with real and effective uid 500 and saved uid 1000. -/
def ex2_saved : World (Mem KState) := ref_mem ⟨500, 500, 1000⟩ ⟨100, 100, 100⟩ [4, 24]

/-- A target with the effective uid of `ex2_saved` and another supplementary group. -/
def ex_back : ucred_t := ⟨500, 100, ⟨[5], 1⟩⟩

/-- The candidates of `get_pairs_temporary` for `ex_back` and `ex2_saved`. -/
def ex_pairs : id_pairs_t :=
  ⟨⟨⟨500, 500, 1000⟩, ⟨100, 100, 100⟩, ⟨[4, 24], 2⟩⟩,
    [⟨500, 500, 500⟩, ⟨500, 500, 500⟩, ⟨1000, 500, 500⟩, ⟨500, 500, 500⟩, ⟨500, 500, 1000⟩],
    [⟨100, 100, 100⟩, ⟨100, 100, 100⟩, ⟨100, 100, 100⟩, ⟨100, 100, 100⟩, ⟨100, 100, 100⟩],
    ⟨[5], 1⟩⟩

/-- The status of the candidate pairs of `ex_pairs` for the tables without a way into the state
`(1, 1, 1)`: the uid candidates 2 and 4 can be reached, the others not, and the supplementary
groups cannot be changed. -/
def ex_cls (i _j : Nat) : ci_status_e :=
  if i = 2 ∨ i = 4 then .ci_setgid_failed else .ci_setuid_setgid_failed

/-- The normalized pair of states for the permanent change of `ex2_saved` to `ex_back`. -/
def ex_np_back : norm_pcred_pair_t :=
  ⟨⟨⟨⟨500, 500, 1000⟩, ⟨100, 100, 100⟩⟩, ⟨⟨1, 1, 2⟩, ⟨1, 1, 1⟩⟩, ⟨[4, 24], 2⟩⟩,
    ⟨⟨⟨500, 500, 500⟩, ⟨100, 100, 100⟩⟩, ⟨⟨1, 1, 1⟩, ⟨1, 1, 1⟩⟩, ⟨[5], 1⟩⟩,
    ⟨2, [some 500, some 1000, some NEG1, none, none, none]⟩,
    ⟨1, [some 100, some NEG1, some NEG1, none, none, none]⟩⟩

/-! ## A kernel for a process that holds capabilities

On Linux a process with `CAP_SETUID` and `CAP_SETGID` in its effective set may pass any id to
the set*id calls, whatever its uids are (`capabilities(7)`). This kernel gives the calls of the
reference kernel that privilege on every state. -/

/-- The call `setresuid` for a process with `CAP_SETUID`. -/
def cap_setresuid (r e s : Nat) (k : KState) : SysRet KState :=
  ⟨0, 0, ⟨⟨ref_newid r k.uids.r, ref_newid e k.uids.e, ref_newid s k.uids.s⟩, k.gids,
    ref_newid e k.uids.e, k.fsgid, k.groups⟩⟩

/-- The call `setresgid` for a process with `CAP_SETGID`. -/
def cap_setresgid (r e s : Nat) (k : KState) : SysRet KState :=
  ⟨0, 0, ⟨k.uids, ⟨ref_newid r k.gids.r, ref_newid e k.gids.e, ref_newid s k.gids.s⟩,
    k.fsuid, ref_newid e k.gids.e, k.groups⟩⟩

/-- The call `setgroups` for a process with `CAP_SETGID`. -/
def cap_setgroups (size : Int) (list : List Nat) (k : KState) : SysRet KState :=
  ⟨0, 0, ⟨k.uids, k.gids, k.fsuid, k.fsgid, list.take size.toNat⟩⟩

/-- The call `setuid` for a process with `CAP_SETUID`. -/
def cap_setuid (u : Nat) (k : KState) : SysRet KState :=
  if u = NEG1 then ⟨-1, EINVAL, k⟩
  else ⟨0, 0, ⟨⟨u, u, u⟩, k.gids, u, k.fsgid, k.groups⟩⟩

/-- The call `setreuid` for a process with `CAP_SETUID`. -/
def cap_setreuid (r e : Nat) (k : KState) : SysRet KState :=
  let newe := ref_newid e k.uids.e
  let news := if r ≠ NEG1 ∨ (e ≠ NEG1 ∧ e ≠ k.uids.r) then newe else k.uids.s
  ⟨0, 0, ⟨⟨ref_newid r k.uids.r, newe, news⟩, k.gids, newe, k.fsgid, k.groups⟩⟩

/-- The call `setgid` for a process with `CAP_SETGID`. -/
def cap_setgid (g : Nat) (k : KState) : SysRet KState :=
  if g = NEG1 then ⟨-1, EINVAL, k⟩
  else ⟨0, 0, ⟨k.uids, ⟨g, g, g⟩, k.fsuid, g, k.groups⟩⟩

/-- The call `setregid` for a process with `CAP_SETGID`. -/
def cap_setregid (r e : Nat) (k : KState) : SysRet KState :=
  let newe := ref_newid e k.gids.e
  let news := if r ≠ NEG1 ∨ (e ≠ NEG1 ∧ e ≠ k.gids.r) then newe else k.gids.s
  ⟨0, 0, ⟨k.uids, ⟨ref_newid r k.gids.r, newe, news⟩, k.fsuid, newe, k.groups⟩⟩

/-- The kernel for a process that holds `CAP_SETUID` and `CAP_SETGID` in its permitted and its
effective set: the reads are those of the reference kernel, every set*id call is permitted,
`cap_get_flag` reports the capabilities as permitted, and `cap_set_flag` succeeds. -/
def cap_os2 : OS2 KState where
  sysconf_NGROUPS_MAX := ref_os.sysconf_NGROUPS_MAX
  getuid := ref_os.getuid
  geteuid := ref_os.geteuid
  getgid := ref_os.getgid
  getegid := ref_os.getegid
  getresuid := ref_os.getresuid
  getresgid := ref_os.getresgid
  getgroups := ref_os.getgroups
  proc_status := ref_os.proc_status
  qsort := ref_os.qsort
  setgroups := cap_setgroups
  setresuid := cap_setresuid
  setresgid := cap_setresgid
  seteuid := fun u => cap_setresuid NEG1 u NEG1
  setegid := fun g => cap_setresgid NEG1 g NEG1
  setuid := cap_setuid
  setreuid := cap_setreuid
  setgid := cap_setgid
  setregid := cap_setregid
  cap_get_flag := fun _ _ => (0, true)
  cap_set_flag := fun _ _ _ => 0

/-- A process with real uid 500 and effective and saved uid 1000, as a program that is setuid
to the user 1000 has when the user 500 starts it. -/
def ex2_caps : World (Mem KState) := ref_mem ⟨500, 1000, 1000⟩ ⟨100, 100, 100⟩ [4, 24]

/-- The identity of the user 500 with the gid 300 and the groups of `ex2_caps`. -/
def ex_regroup : ucred_t := ⟨500, 300, ⟨[4, 24], 2⟩⟩

/-- The test of `Priv2SanityVisitor::visitVertex` on the uids after a successful
`change_identity_temporarily`, `uState.euid == param.uid && (uState.ruid == v.euid ||
uState.svuid == v.euid)`, for the effective uid `v_euid` before the call. -/
def visitVertex_temp_uids (v_euid : Nat) (uState : uids_t) (param_uid : Nat) : Bool :=
  uState.e == param_uid && (uState.r == v_euid || uState.s == v_euid)

/-- The test of `Priv2SanityVisitor::visitVertex` on the uids after a successful
`change_identity_permanently`, `uState.ruid == param.uid && uState.euid == param.uid &&
uState.svuid == param.uid`. -/
def visitVertex_perm_uids (uState : uids_t) (param_uid : Nat) : Bool :=
  uState.r == param_uid && uState.e == param_uid && uState.s == param_uid

/-- What a returning `set_sups(t)` has done from the world `w`: `sl` are the calls it issued
and `os1` is the kernel state it left. Either it issued the one call `setgroups(t)`, which did
not fail, because the effective uid is 0 or because `eql_sups` rejects the list `get_sups`
reads against `t`; or it issued no call, the effective uid is not 0 and `eql_sups` accepts the
list `get_sups` reads. -/
def SupsStep {σ : Type} (K : OS σ) (t : sups_t) (w : World σ) (sl : List Call) (os1 : σ) :
    Prop :=
  (sl = [.setgroups t.size t.list] ∧ os1 = (K.setgroups t.size t.list w.os).os ∧
    (K.setgroups t.size t.list w.os).rc ≠ -1 ∧
    (K.geteuid w.os = 0 ∨ ∃ rc cur, get_sups K w = .ret (rc, cur) w ∧
      eql_sups_pure (K.getegid w.os) cur t = some false)) ∨
  (sl = [] ∧ os1 = w.os ∧ K.geteuid w.os ≠ 0 ∧ ∃ rc cur, get_sups K w = .ret (rc, cur) w ∧
    eql_sups_pure (K.getegid w.os) cur t = some true)

/-! # Theorems -/

/-! ## `ucred_is_sane` is the sanity test of the specification -/

theorem idx_natCast (arr : List Nat) (m : Nat) : idx arr (m : Int) = arr[m]? := by
  simp [idx]

theorem idx_natCast_succ (arr : List Nat) (m : Nat) : idx arr ((m : Int) + 1) = arr[m + 1]? := by
  have h : ((m : Int) + 1) = ((m + 1 : Nat) : Int) := by push_cast; rfl
  rw [h, idx_natCast]

theorem ucred_is_sane_loop_spec (arr : List Nat) (N : Nat) (hN : N ≤ arr.length) :
    ∀ (fuel m : Nat), N < m + 1 + fuel → 0 < fuel →
      ∃ b, ucred_is_sane_loop arr N fuel ((m : Int) + 1) = some b ∧
        (b = true ↔ AscFrom arr m N) := by
  intro fuel
  induction fuel with
  | zero =>
    intro m _ h
    omega
  | succ fuel ih =>
    intro m h _
    unfold ucred_is_sane_loop
    by_cases hlt : ((m : Int) + 1) < (N : Int)
    · have hm : m + 1 < N := by omega
      have h1 : m < arr.length := by omega
      have h2 : m + 1 < arr.length := by omega
      simp only [hlt, if_true, add_sub_cancel_right, idx_natCast, idx_natCast_succ,
        List.getElem?_eq_getElem h1, List.getElem?_eq_getElem h2]
      by_cases hge : arr[m] ≥ arr[m + 1]
      · simp only [hge, if_true]
        refine ⟨false, rfl, ?_⟩
        constructor
        · intro hf
          cases hf
        · intro hall
          have := hall m (le_refl _) hm
          simp [List.getD_eq_getElem?_getD, List.getElem?_eq_getElem h1,
            List.getElem?_eq_getElem h2] at this
          omega
      · simp only [hge, if_false]
        have e : ((m : Int) + 1 + 1) = (((m + 1 : Nat) : Int) + 1) := by push_cast; rfl
        rw [e]
        obtain ⟨b, hb, hiff⟩ := ih (m + 1) (by omega) (by omega)
        refine ⟨b, hb, ?_⟩
        rw [hiff]
        constructor
        · intro hall k hk hkN
          rcases Nat.eq_or_lt_of_le hk with rfl | hlt2
          · simp [List.getD_eq_getElem?_getD, List.getElem?_eq_getElem h1,
              List.getElem?_eq_getElem h2]
            omega
          · exact hall k hlt2 hkN
        · intro hall k hk hkN
          exact hall k (by omega) hkN
    · simp only [hlt, if_false]
      refine ⟨true, rfl, ?_⟩
      simp only [true_iff]
      intro k hk hkN
      omega

theorem ascFrom_zero_iff (arr : List Nat) (N : Nat) (hN : N ≤ arr.length) :
    AscFrom arr 0 N ↔ (arr.take N).Pairwise (· < ·) := by
  rw [← List.chain'_iff_pairwise, List.chain'_iff_get]
  have hlen : (arr.take N).length = N := by simp [hN]
  constructor
  · intro h i hi
    rw [hlen] at hi
    have := h i (Nat.zero_le _) (by omega)
    have h1 : i < arr.length := by omega
    have h2 : i + 1 < arr.length := by omega
    simp [List.getD_eq_getElem?_getD, List.getElem?_eq_getElem h1,
      List.getElem?_eq_getElem h2] at this
    simpa [List.getElem_take] using this
  · intro h k _ hk
    have := h k (by rw [hlen]; omega)
    have h1 : k < arr.length := by omega
    have h2 : k + 1 < arr.length := by omega
    simp [List.getD_eq_getElem?_getD, List.getElem?_eq_getElem h1,
      List.getElem?_eq_getElem h2]
    simpa [List.getElem_take] using this

theorem ucred_is_sane_loop_top (arr : List Nat) (n : Int) (hn : n ≤ arr.length) :
    ∃ b, ucred_is_sane_loop arr n (n.toNat + 1) 1 = some b ∧
      (b = true ↔ (arr.take n.toNat).Pairwise (· < ·)) := by
  by_cases h0 : 0 ≤ n
  · obtain ⟨N, rfl⟩ := Int.eq_ofNat_of_zero_le h0
    have hN : N ≤ arr.length := by exact_mod_cast hn
    obtain ⟨b, hb, hiff⟩ := ucred_is_sane_loop_spec arr N hN (N + 1) 0 (by omega) (by omega)
    refine ⟨b, ?_, ?_⟩
    · simpa using hb
    · rw [hiff]
      simpa using ascFrom_zero_iff arr N hN
  · have hz : n.toNat = 0 := by omega
    refine ⟨true, ?_, ?_⟩
    · rw [hz]
      unfold ucred_is_sane_loop
      have : ¬ (1 < n) := by omega
      simp [this]
    · simp [hz]

theorem ucred_is_sane_pure_spec (nm : Int) (uc : ucred_t) (errno : Int)
    (h : uc.sups.size ≤ uc.sups.list.length) :
    ∃ b e, ucred_is_sane_pure nm uc errno = some (b, e) ∧
      (b = true ↔ uc.uid ≠ NEG1 ∧ uc.gid ≠ NEG1 ∧ 0 ≤ uc.sups.size ∧ uc.sups.size ≤ nm ∧
        (uc.sups.list.take uc.sups.size.toNat).Pairwise (· < ·)) := by
  obtain ⟨b, hb, hiff⟩ := ucred_is_sane_loop_top uc.sups.list uc.sups.size h
  unfold ucred_is_sane_pure
  simp only [hb]
  cases b with
  | false =>
    refine ⟨false, errno, rfl, ?_⟩
    constructor
    · intro hf
      cases hf
    · intro hall
      exact absurd (hiff.mpr hall.2.2.2.2) (by simp)
  | true =>
    have hp := hiff.mp rfl
    simp only []
    split
    · rename_i hr
      refine ⟨_, _, rfl, ?_⟩
      simp only [Bool.not_eq_true'] at hr
      rw [hr]
      constructor
      · intro hf
        cases hf
      · intro hall
        exfalso
        simp only [Bool.and_eq_false_iff, decide_eq_false_iff_not] at hr
        omega
    · rename_i hr
      refine ⟨_, _, rfl, ?_⟩
      simp only [Bool.not_eq_true', Bool.not_eq_false] at hr
      rw [hr]
      simp only [Bool.and_eq_true, decide_eq_true_eq] at hr
      simp only [true_iff]
      exact ⟨hr.1.2, hr.2, hr.1.1.2, by omega, hp⟩

/-- C5: `ucred_is_sane` returns (it does not abort), and it returns true exactly when the uid
and the gid are not `-1`, the group count `n` satisfies `0 ≤ n ≤ sysconf(_SC_NGROUPS_MAX)`, and
the `n` supplementary groups are strictly ascending. -/
theorem ucred_is_sane_iff {σ : Type} (K : OS σ) (uc : ucred_t) (w : World σ)
    (h : uc.sups.size ≤ uc.sups.list.length) :
    ∃ b e, ucred_is_sane K uc w = .ret b ⟨w.os, e, w.log⟩ ∧
      (b = true ↔ uc.uid ≠ NEG1 ∧ uc.gid ≠ NEG1 ∧ 0 ≤ uc.sups.size ∧
        uc.sups.size ≤ K.sysconf_NGROUPS_MAX w.os ∧
        (uc.sups.list.take uc.sups.size.toNat).Pairwise (· < ·)) := by
  obtain ⟨b, e, hpure, hiff⟩ :=
    ucred_is_sane_pure_spec (K.sysconf_NGROUPS_MAX w.os) uc w.errno h
  refine ⟨b, e, ?_, hiff⟩
  unfold ucred_is_sane
  rw [hpure]

/-! ## `eql_sups` is the comparison of the specification -/

theorem eql_sups_spec_nil_cons (g t : Nat) (ts : List Nat) :
    ¬ eql_sups_spec g [] (t :: ts) := by
  simp [eql_sups_spec]

theorem eql_sups_spec_cons_same (g c : Nat) (cs ts : List Nat) (hnd : (c :: cs).Nodup) :
    eql_sups_spec g (c :: cs) (c :: ts) ↔ eql_sups_spec g cs ts := by
  have hc : c ∉ cs := (List.nodup_cons.mp hnd).1
  unfold eql_sups_spec
  by_cases hg : g = c
  · subst hg
    simp [hc]
  · have hg2 : c ≠ g := fun h => hg h.symm
    simp [hg, List.erase_cons_tail, hg2, beq_iff_eq]

theorem eql_sups_spec_cons_skip (g t : Nat) (cs ts : List Nat) (hnd : (g :: cs).Nodup)
    (hgt : g ≠ t) : eql_sups_spec g (g :: cs) (t :: ts) ↔ eql_sups_spec g cs (t :: ts) := by
  have hc : g ∉ cs := (List.nodup_cons.mp hnd).1
  unfold eql_sups_spec
  simp only [List.cons.injEq, hgt, false_and, List.mem_cons, true_or, List.erase_cons_head,
    true_and, false_or, hc]
  constructor
  · rintro ⟨_, h⟩
    exact Or.inl h
  · rintro (h | h)
    · refine ⟨?_, h⟩
      intro hmem
      apply hc
      rw [h]
      exact List.mem_cons_of_mem _ hmem
    · exact absurd h (by simp)

theorem eql_sups_spec_cons_diff (g c t : Nat) (cs ts : List Nat) (hct : c ≠ t) (hcg : c ≠ g) :
    ¬ eql_sups_spec g (c :: cs) (t :: ts) := by
  unfold eql_sups_spec
  simp [hct, List.erase_cons_tail, hcg, beq_iff_eq]

theorem eql_sups_spec_nil_right (g : Nat) (cs : List Nat) :
    eql_sups_spec g cs [] ↔ cs = [] ∨ cs = [g] := by
  unfold eql_sups_spec
  constructor
  · rintro (h | ⟨hm, _, he⟩)
    · exact Or.inl h
    · right
      cases cs with
      | nil => simp at hm
      | cons c cs =>
        by_cases hcg : c = g
        · subst hcg
          simpa using he
        · simp [List.erase_cons_tail, hcg, beq_iff_eq] at he
  · rintro (h | h)
    · exact Or.inl h
    · right
      subst h
      simp

theorem idx_of_lt (arr : List Nat) (j : Nat) (h : j < arr.length) :
    idx arr (j : Int) = some arr[j] := by
  rw [idx_natCast, List.getElem?_eq_getElem h]

theorem idx_of_ge (arr : List Nat) (j : Nat) (h : arr.length ≤ j) :
    idx arr (j : Int) = none := by
  rw [idx_natCast, List.getElem?_eq_none h]

theorem eql_sups_loop_spec (g : Nat) (cur tgt : List Nat) (hnd : cur.Nodup) :
    ∀ (fuel i j : Nat), i ≤ tgt.length → j ≤ cur.length → cur.length - j < fuel →
      (eql_sups_end ⟨cur, cur.length⟩ g
          (eql_sups_loop cur tgt tgt.length g fuel i j) = some true ↔
        eql_sups_spec g (cur.drop j) (tgt.drop i)) := by
  intro fuel
  induction fuel with
  | zero =>
    intro i j _ _ h
    omega
  | succ fuel ih =>
    intro i j hi hj hf
    unfold eql_sups_loop
    by_cases hlt : (i : Int) < (tgt.length : Int)
    · have hi2 : i < tgt.length := by exact_mod_cast hlt
      rw [if_pos hlt, List.drop_eq_getElem_cons hi2]
      by_cases hj2 : j < cur.length
      · have hndj : (cur[j] :: cur.drop (j + 1)).Nodup := by
          rw [← List.drop_eq_getElem_cons hj2]
          exact hnd.sublist (List.drop_sublist _ _)
        have e1 : ((j : Int) + 1) = ((j + 1 : Nat) : Int) := by push_cast; rfl
        have e2 : ((i : Int) + 1) = ((i + 1 : Nat) : Int) := by push_cast; rfl
        rw [List.drop_eq_getElem_cons hj2]
        simp only [idx_of_lt cur j hj2, idx_of_lt tgt i hi2]
        by_cases hct : cur[j] = tgt[i]
        · simp only [hct, ne_eq, not_true_eq_false, if_false]
          rw [e1, e2, ih (i + 1) (j + 1) (by omega) (by omega) (by omega)]
          rw [hct] at hndj
          exact (eql_sups_spec_cons_same g _ _ _ hndj).symm
        · simp only [ne_eq, hct, not_false_eq_true, if_true]
          by_cases hcg : cur[j] = g
          · simp only [hcg, if_true, sub_add_cancel]
            rw [e1, ih i (j + 1) (by omega) (by omega) (by omega),
              List.drop_eq_getElem_cons hi2]
            rw [hcg] at hndj
            exact (eql_sups_spec_cons_skip g _ _ _ hndj (by rw [← hcg]; exact hct)).symm
          · simp only [hcg, if_false, eql_sups_end]
            constructor
            · intro h
              cases h
            · intro h
              exact absurd h (eql_sups_spec_cons_diff g _ _ _ _ hct hcg)
      · have hj3 : cur.length ≤ j := by omega
        have hdc : cur.drop j = [] := List.drop_eq_nil_of_le hj3
        rw [idx_of_ge cur j hj3, hdc]
        simp only [eql_sups_end]
        constructor
        · intro h
          cases h
        · intro h
          exact absurd h (eql_sups_spec_nil_cons g _ _)
    · have hi2 : i = tgt.length := by
        have : ¬ (i < tgt.length) := by exact_mod_cast hlt
        omega
      have hdt : tgt.drop i = [] := List.drop_eq_nil_of_le (by omega)
      rw [if_neg hlt, hdt, eql_sups_spec_nil_right]
      simp only [eql_sups_end]
      by_cases hj2 : j = cur.length
      · subst hj2
        simp
      · have hne : ¬ ((j : Int) = (cur.length : Int)) := by exact_mod_cast hj2
        rw [if_neg hne]
        have hj3 : j < cur.length := by omega
        by_cases hj4 : j + 1 = cur.length
        · have e : ((j : Int) + 1 = (cur.length : Int)) := by exact_mod_cast hj4
          have hdc : cur.drop (j + 1) = [] := List.drop_eq_nil_of_le (by omega)
          rw [if_pos e, idx_of_lt cur j hj3, List.drop_eq_getElem_cons hj3, hdc]
          simp
        · have e : ¬ ((j : Int) + 1 = (cur.length : Int)) := by exact_mod_cast hj4
          rw [if_neg e]
          have hne2 : ¬ (cur.drop j = [] ∨ cur.drop j = [g]) := by
            rintro (h | h)
            · have := congrArg List.length h
              simp at this
              omega
            · have := congrArg List.length h
              simp at this
              omega
          constructor
          · intro h
            cases h
          · intro h
            exact absurd h hne2

theorem eql_sups_pure_iff_spec (g : Nat) (cur target : List Nat) (hnd : cur.Nodup) :
    eql_sups_pure g ⟨cur, cur.length⟩ ⟨target, target.length⟩ = some true ↔
      eql_sups_spec g cur target := by
  have hspec := eql_sups_loop_spec g cur target hnd (cur.length + 1) 0 0
    (Nat.zero_le _) (Nat.zero_le _) (by omega)
  simp only [List.drop_zero, Nat.cast_zero] at hspec
  unfold eql_sups_pure
  simp only []
  by_cases hd : ((cur.length : Int) - (target.length : Int) > 1 ∨
      (cur.length : Int) - (target.length : Int) < 0)
  · rw [if_pos hd]
    constructor
    · intro h
      cases h
    · unfold eql_sups_spec
      rintro (h | ⟨hm, _, he⟩)
      · subst h
        omega
      · have := List.length_erase_of_mem hm
        rw [he] at this
        have hpos : 0 < cur.length := List.length_pos_of_mem hm
        omega
  · rw [if_neg hd]
    exact hspec

/-- C7: for strictly ascending lists `cur` and `target` and every effective gid `g`, `eql_sups`
returns true exactly when the lists are equal, or `g` occurs in `cur`, does not occur in
`target`, and `cur` without `g` is `target`. -/
theorem eql_sups_iff (g : Nat) (cur target : List Nat)
    (hc : cur.Pairwise (· < ·)) (_ht : target.Pairwise (· < ·)) :
    eql_sups_pure g ⟨cur, cur.length⟩ ⟨target, target.length⟩ = some true ↔
      (cur = target ∨ (g ∈ cur ∧ g ∉ target ∧ cur.erase g = target)) :=
  eql_sups_pure_iff_spec g cur target (hc.imp (fun h => Nat.ne_of_lt h))

/-! ## Running a `Proc` -/

theorem bind_apply {σ α β : Type} (m : Proc σ α) (f : α → Proc σ β) (w : World σ) :
    (m >>= f) w = match m w with
      | .ret a w1 => f a w1
      | .abort w1 => .abort w1
      | .undef w1 => .undef w1 := rfl

theorem pure_apply {σ α : Type} (a : α) (w : World σ) :
    (pure a : Proc σ α) w = .ret a w := rfl

theorem bind_ret_inv {σ α β : Type} {m : Proc σ α} {f : α → Proc σ β} {w w2 : World σ} {b : β}
    (h : (m >>= f) w = .ret b w2) : ∃ a w1, m w = .ret a w1 ∧ f a w1 = .ret b w2 := by
  rw [bind_apply] at h
  cases hm : m w with
  | ret a w1 =>
    rw [hm] at h
    exact ⟨a, w1, rfl, h⟩
  | abort w1 =>
    rw [hm] at h
    cases h
  | undef w1 =>
    rw [hm] at h
    cases h

theorem DO_SYS_ret_inv {σ : Type} {call : Proc σ Int} {w w2 : World σ} {u : Unit}
    (h : DO_SYS call w = .ret u w2) : ∃ rc, call w = .ret rc w2 ∧ rc ≠ -1 := by
  unfold DO_SYS at h
  obtain ⟨rc, w1, h1, h2⟩ := bind_ret_inv h
  by_cases hrc : rc = -1
  · rw [if_pos hrc] at h2
    cases h2
  · rw [if_neg hrc, pure_apply] at h2
    cases h2
    exact ⟨rc, h1, hrc⟩

theorem DO_SYS_get_ret_inv {σ α : Type} {call : Proc σ (Int × α)} {w w2 : World σ} {a : α}
    (h : DO_SYS_get call w = .ret a w2) : ∃ rc, call w = .ret (rc, a) w2 ∧ rc ≠ -1 := by
  unfold DO_SYS_get at h
  obtain ⟨r, w1, h1, h2⟩ := bind_ret_inv h
  by_cases hrc : r.1 = -1
  · rw [if_pos hrc] at h2
    cases h2
  · rw [if_neg hrc, pure_apply] at h2
    cases h2
    exact ⟨r.1, h1, hrc⟩

theorem DO_CHK_ret_inv {σ : Type} {expr : Proc σ Bool} {w w2 : World σ} {u : Unit}
    (h : DO_CHK expr w = .ret u w2) : expr w = .ret true w2 := by
  unfold DO_CHK at h
  obtain ⟨b, w1, h1, h2⟩ := bind_ret_inv h
  cases b with
  | false =>
    simp only [Bool.not_false, if_true] at h2
    cases h2
  | true =>
    simp only [Bool.not_true, Bool.false_eq_true, if_false, pure_apply] at h2
    cases h2
    exact h1

theorem DO_CHK_pure_ret_inv {σ : Type} {b : Bool} {w w2 : World σ} {u : Unit}
    (h : DO_CHK (pure b) w = .ret u w2) : b = true ∧ w2 = w := by
  have := DO_CHK_ret_inv h
  rw [pure_apply] at this
  cases this
  exact ⟨rfl, rfl⟩

/-! ## Functions that only read -/

theorem Reads.ret_eq {σ α : Type} {m : Proc σ α} (hm : Reads m) {w w1 : World σ} {a : α}
    (h : m w = .ret a w1) : w1 = w := by
  have := hm w
  rw [h] at this
  exact this

theorem reads_pure {σ α : Type} (a : α) : Reads (pure a : Proc σ α) := fun _ => rfl

theorem reads_abort {σ α : Type} : Reads (abort : Proc σ α) := fun _ => rfl

theorem reads_undef {σ α : Type} : Reads (undef : Proc σ α) := fun _ => rfl

theorem reads_rd {σ α : Type} (f : σ → α) : Reads (rd f) := fun _ => rfl

theorem reads_bind {σ α β : Type} {m : Proc σ α} {f : α → Proc σ β}
    (hm : Reads m) (hf : ∀ a, Reads (f a)) : Reads (m >>= f) := by
  intro w
  rw [bind_apply]
  have h1 := hm w
  cases hmw : m w with
  | ret a w1 =>
    rw [hmw] at h1
    simp only [Outcome.world] at h1
    subst h1
    exact hf a _
  | abort w1 =>
    rw [hmw] at h1
    exact h1
  | undef w1 =>
    rw [hmw] at h1
    exact h1

theorem reads_ite {σ α : Type} (c : Prop) [Decidable c] {m1 m2 : Proc σ α}
    (h1 : Reads m1) (h2 : Reads m2) : Reads (if c then m1 else m2) := by
  split
  · exact h1
  · exact h2

theorem reads_DO_SYS {σ : Type} {call : Proc σ Int} (h : Reads call) : Reads (DO_SYS call) :=
  reads_bind h (fun _ => reads_ite _ reads_abort (reads_pure _))

theorem reads_DO_SYS_get {σ α : Type} {call : Proc σ (Int × α)} (h : Reads call) :
    Reads (DO_SYS_get call) :=
  reads_bind h (fun _ => reads_ite _ reads_abort (reads_pure _))

theorem reads_DO_CHK {σ : Type} {expr : Proc σ Bool} (h : Reads expr) : Reads (DO_CHK expr) :=
  reads_bind h (fun _ => reads_ite _ reads_abort (reads_pure _))

theorem reads_eql_sups {σ : Type} (K : OS σ) (c t : sups_t) : Reads (eql_sups K c t) := by
  intro w
  unfold eql_sups
  split <;> rfl

theorem reads_get_sups {σ : Type} (K : OS σ) : Reads (get_sups K) := by
  unfold get_sups
  refine reads_bind (reads_rd _) (fun size => ?_)
  refine reads_bind (reads_DO_CHK (reads_pure _)) (fun _ => ?_)
  refine reads_ite _ ?_ (reads_pure _)
  refine reads_bind (reads_DO_CHK (reads_pure _)) (fun _ => ?_)
  refine reads_bind (reads_DO_SYS (reads_rd _)) (fun _ => ?_)
  refine reads_bind (reads_rd _) (fun arr => ?_)
  intro w
  generalize get_sups_loop (K.qsort cmp_gid arr) size (size.toNat + 1) 0 [] = r
  cases r <;> rfl

theorem reads_get_saved_ids {σ : Type} (K : OS σ) : Reads (get_saved_ids K) := by
  unfold get_saved_ids
  refine reads_bind (reads_DO_SYS (reads_rd _)) (fun _ => ?_)
  refine reads_bind (reads_rd _) (fun _ => ?_)
  refine reads_bind (reads_DO_SYS (reads_rd _)) (fun _ => ?_)
  refine reads_bind (reads_rd _) (fun _ => ?_)
  exact reads_pure _

theorem reads_get_fs_ids {σ : Type} (K : OS σ) : Reads (get_fs_ids K) := by
  unfold get_fs_ids
  refine reads_bind (reads_rd _) (fun fp => ?_)
  split
  · exact reads_abort
  · exact reads_pure _

theorem reads_get_pcred {σ : Type} (K : OS σ) : Reads (get_pcred K) := by
  unfold get_pcred
  refine reads_bind (reads_DO_SYS_get (reads_get_saved_ids K)) (fun _ => ?_)
  refine reads_bind (reads_DO_SYS_get (reads_get_sups K)) (fun _ => ?_)
  refine reads_bind (reads_rd _) (fun _ => ?_)
  refine reads_bind (reads_rd _) (fun _ => ?_)
  refine reads_bind (reads_rd _) (fun _ => ?_)
  refine reads_bind (reads_rd _) (fun _ => ?_)
  exact reads_pure _

theorem get_pcred_ret {σ : Type} (K : OS σ) {w w1 : World σ} {rc : Int} {pc : pcred_t}
    (h : get_pcred K w = .ret (rc, pc) w1) :
    rc = 0 ∧ pc.uids.r = K.getuid w.os ∧ pc.uids.e = K.geteuid w.os ∧
      pc.uids.s = (K.getresuid w.os).2.s ∧ pc.gids.r = K.getgid w.os ∧
      pc.gids.e = K.getegid w.os ∧ pc.gids.s = (K.getresgid w.os).2.s := by
  unfold get_pcred at h
  obtain ⟨saved, wa, h1, ha⟩ := bind_ret_inv h
  obtain ⟨rc1, h1, _⟩ := DO_SYS_get_ret_inv h1
  have ea := (reads_get_saved_ids K).ret_eq h1
  subst ea
  obtain ⟨sups, wb, h2, hb⟩ := bind_ret_inv ha
  obtain ⟨rc2, h2, _⟩ := DO_SYS_get_ret_inv h2
  have eb := (reads_get_sups K).ret_eq h2
  subst eb
  unfold get_saved_ids at h1
  obtain ⟨_, wc, h3, hc⟩ := bind_ret_inv h1
  have ec := (reads_DO_SYS (reads_rd _)).ret_eq h3
  subst ec
  obtain ⟨u, wd, h4, hd⟩ := bind_ret_inv hc
  have ed := (reads_rd _).ret_eq h4
  subst ed
  obtain ⟨_, we, h5, he⟩ := bind_ret_inv hd
  have ee := (reads_DO_SYS (reads_rd _)).ret_eq h5
  subst ee
  simp only [bind_apply, rd, pure_apply] at hb he h4
  cases he
  cases hb
  cases h4
  exact ⟨rfl, rfl, rfl, rfl, rfl, rfl, rfl⟩

/-! ## `drop_privileges_permanently` verifies what it did -/

theorem drop_privileges_permanently_ret {σ : Type} (K : OS σ) (uc : ucred_t)
    (w w2 : World σ) (rc : Int) (h : drop_privileges_permanently K uc w = .ret rc w2) :
    rc = 0 ∧ ∃ pc, get_pcred K w2 = .ret (0, pc) w2 ∧
      pc.uids = ⟨uc.uid, uc.uid, uc.uid⟩ ∧ pc.gids = ⟨uc.gid, uc.gid, uc.gid⟩ ∧
      eql_sups K pc.sups uc.sups w2 = .ret true w2 := by
  unfold drop_privileges_permanently at h
  obtain ⟨_, w1, _, k1⟩ := bind_ret_inv h
  obtain ⟨_, w3, _, k2⟩ := bind_ret_inv k1
  obtain ⟨_, w4, _, k3⟩ := bind_ret_inv k2
  obtain ⟨_, w5, _, k4⟩ := bind_ret_inv k3
  obtain ⟨pc, w6, hpc0, k5⟩ := bind_ret_inv k4
  obtain ⟨rcp, hpc, _⟩ := DO_SYS_get_ret_inv hpc0
  have e6 := (reads_get_pcred K).ret_eq hpc
  subst e6
  obtain ⟨_, w7, hsups0, k6⟩ := bind_ret_inv k5
  have hsups := DO_CHK_ret_inv hsups0
  have e7 := (reads_eql_sups K _ _).ret_eq hsups
  subst e7
  obtain ⟨_, w8, hg0, k7⟩ := bind_ret_inv k6
  obtain ⟨hg, e8⟩ := DO_CHK_pure_ret_inv hg0
  subst e8
  obtain ⟨_, w9, hu0, k8⟩ := bind_ret_inv k7
  obtain ⟨hu, e9⟩ := DO_CHK_pure_ret_inv hu0
  subst e9
  obtain ⟨fs, w10, hfs0, k9⟩ := bind_ret_inv k8
  obtain ⟨rcf, hfs, _⟩ := DO_SYS_get_ret_inv hfs0
  have e10 := (reads_get_fs_ids K).ret_eq hfs
  subst e10
  obtain ⟨_, w11, hfu, k10⟩ := bind_ret_inv k9
  obtain ⟨_, e11⟩ := DO_CHK_pure_ret_inv hfu
  subst e11
  obtain ⟨_, w12, hfg, k11⟩ := bind_ret_inv k10
  obtain ⟨_, e12⟩ := DO_CHK_pure_ret_inv hfg
  subst e12
  rw [pure_apply] at k11
  cases k11
  have hrc := (get_pcred_ret K hpc).1
  subst hrc
  simp only [Bool.and_eq_true, decide_eq_true_eq] at hg hu
  refine ⟨rfl, pc, hpc, ?_, ?_, hsups⟩
  · obtain ⟨⟨h1, h2⟩, h3⟩ := hu
    cases hpu : pc.uids
    rw [hpu] at h1 h2 h3
    simp only at h1 h2 h3
    rw [← h1, ← h2, ← h3]
  · obtain ⟨⟨h1, h2⟩, h3⟩ := hg
    cases hpg : pc.gids
    rw [hpg] at h1 h2 h3
    simp only at h1 h2 h3
    rw [← h1, ← h2, ← h3]

/-- C1: when `drop_privileges_permanently` returns, it returns 0 and the credentials read back
have real = effective = saved uid `uc.uid`, real = effective = saved gid `uc.gid`, and a group
list that `eql_sups` accepts against `uc.sups`; so whenever one of these checks fails the call
does not return. -/
theorem drop_privileges_permanently_verified {σ : Type} (K : OS σ) (uc : ucred_t)
    (w w2 : World σ) (rc : Int) (h : drop_privileges_permanently K uc w = .ret rc w2) :
    rc = 0 ∧ ∃ pc, get_pcred K w2 = .ret (0, pc) w2 ∧
      pc.uids = ⟨uc.uid, uc.uid, uc.uid⟩ ∧ pc.gids = ⟨uc.gid, uc.gid, uc.gid⟩ ∧
      eql_sups K pc.sups uc.sups w2 = .ret true w2 :=
  drop_privileges_permanently_ret K uc w w2 rc h

/-! ## The log of mutating calls -/

theorem logsAt_of_reads {σ α : Type} {m : Proc σ α} (hm : Reads m) (w : World σ) :
    LogsAt m w [] :=
  ⟨[], by rw [hm w, List.append_nil], List.Sublist.refl _⟩

theorem logsAt_mono {σ α : Type} {m : Proc σ α} {w : World σ} {X Y : List Call}
    (h : LogsAt m w X) (hXY : List.Sublist X Y) : LogsAt m w Y := by
  obtain ⟨l, h1, h2⟩ := h
  exact ⟨l, h1, h2.trans hXY⟩

theorem logsAt_sys {σ : Type} (c : Call) (f : σ → SysRet σ) (w : World σ) :
    LogsAt (sys c f) w [c] :=
  ⟨[c], rfl, List.Sublist.refl _⟩

theorem logsAt_bind {σ α β : Type} {m : Proc σ α} {f : α → Proc σ β} {w : World σ}
    {X Y : List Call} (hm : LogsAt m w X)
    (hf : ∀ a w1, m w = .ret a w1 → LogsAt (f a) w1 Y) : LogsAt (m >>= f) w (X ++ Y) := by
  obtain ⟨l1, h1, h2⟩ := hm
  unfold LogsAt
  rw [bind_apply]
  cases hmw : m w with
  | ret a w1 =>
    rw [hmw] at h1
    simp only [Outcome.world] at h1
    obtain ⟨l2, h3, h4⟩ := hf a w1 hmw
    refine ⟨l1 ++ l2, ?_, h2.append h4⟩
    simp only []
    rw [h3, h1, List.append_assoc]
  | abort w1 =>
    rw [hmw] at h1
    simp only [Outcome.world] at h1
    refine ⟨l1, h1, ?_⟩
    exact h2.trans (List.sublist_append_left _ _)
  | undef w1 =>
    rw [hmw] at h1
    simp only [Outcome.world] at h1
    refine ⟨l1, h1, ?_⟩
    exact h2.trans (List.sublist_append_left _ _)

theorem logsAt_bind_cons {σ α β : Type} {m : Proc σ α} {f : α → Proc σ β} {w : World σ}
    {c : Call} {Y : List Call} (hm : LogsAt m w [c])
    (hf : ∀ a w1, m w = .ret a w1 → LogsAt (f a) w1 Y) : LogsAt (m >>= f) w (c :: Y) :=
  logsAt_bind hm hf

theorem logsAt_bind_nil {σ α β : Type} {m : Proc σ α} {f : α → Proc σ β} {w : World σ}
    {Y : List Call} (hm : LogsAt m w [])
    (hf : ∀ a w1, m w = .ret a w1 → LogsAt (f a) w1 Y) : LogsAt (m >>= f) w Y := by
  have := logsAt_bind hm hf
  simpa using this

theorem logsAt_bind_reads {σ α β : Type} {m : Proc σ α} {f : α → Proc σ β} {w : World σ}
    {X : List Call} (hm : LogsAt m w X) (hf : ∀ a, Reads (f a)) : LogsAt (m >>= f) w X := by
  have := logsAt_bind hm (fun a w1 _ => logsAt_of_reads (hf a) w1)
  simpa using this

theorem logsAt_DO_SYS {σ : Type} {call : Proc σ Int} {w : World σ} {X : List Call}
    (h : LogsAt call w X) : LogsAt (DO_SYS call) w X :=
  logsAt_bind_reads h (fun _ => reads_ite _ reads_abort (reads_pure _))

theorem logsAt_DO_CHK {σ : Type} {expr : Proc σ Bool} {w : World σ} {X : List Call}
    (h : LogsAt expr w X) : LogsAt (DO_CHK expr) w X :=
  logsAt_bind_reads h (fun _ => reads_ite _ reads_abort (reads_pure _))

theorem ucred_is_sane_world {σ : Type} (K : OS σ) (uc : ucred_t) (w : World σ) :
    (ucred_is_sane K uc w).world.os = w.os ∧ (ucred_is_sane K uc w).world.log = w.log := by
  unfold ucred_is_sane
  generalize ucred_is_sane_pure (K.sysconf_NGROUPS_MAX w.os) uc w.errno = r
  cases r with
  | none => exact ⟨rfl, rfl⟩
  | some p => exact ⟨rfl, rfl⟩

theorem logsAt_ucred_is_sane {σ : Type} (K : OS σ) (uc : ucred_t) (w : World σ) :
    LogsAt (ucred_is_sane K uc) w [] :=
  ⟨[], by rw [(ucred_is_sane_world K uc w).2, List.append_nil], List.Sublist.refl _⟩

theorem DO_CHK_ucred_is_sane_ret {σ : Type} (K : OS σ) (uc : ucred_t) {w w1 : World σ}
    {u : Unit} (h : DO_CHK (ucred_is_sane K uc) w = .ret u w1) :
    w1.os = w.os ∧ w1.log = w.log := by
  have h1 := DO_CHK_ret_inv h
  have h2 := ucred_is_sane_world K uc w
  rw [h1] at h2
  exact h2

theorem logsAt_set_sups {σ : Type} (K : OS σ) (t : sups_t) (w : World σ) :
    LogsAt (set_sups K t) w [.setgroups t.size t.list] := by
  unfold set_sups
  refine logsAt_bind_nil (logsAt_of_reads (reads_rd _) w) (fun euid w1 _ => ?_)
  refine logsAt_bind_reads ?_ (fun _ => reads_pure _)
  split
  · exact logsAt_DO_SYS (logsAt_sys _ _ _)
  · refine logsAt_bind_nil (logsAt_of_reads (reads_DO_SYS_get (reads_get_sups K)) w1)
      (fun cur w2 _ => ?_)
    refine logsAt_bind_nil (logsAt_of_reads (reads_eql_sups K _ _) w2) (fun eq w3 _ => ?_)
    split
    · exact logsAt_DO_SYS (logsAt_sys _ _ _)
    · exact logsAt_mono (logsAt_of_reads (reads_pure _) w3) (List.nil_sublist _)

theorem logsAt_set_gids {σ : Type} (K : OS σ) (r e s : Nat) (w : World σ) :
    LogsAt (set_gids K r e s) w [.setresgid r e s] := by
  unfold set_gids
  exact logsAt_bind_reads (logsAt_DO_SYS (logsAt_sys _ _ _)) (fun _ => reads_pure _)

theorem logsAt_set_uids {σ : Type} (K : OS σ) (r e s : Nat) (w : World σ) :
    LogsAt (set_uids K r e s) w [.setresuid r e s] := by
  unfold set_uids
  exact logsAt_bind_reads (logsAt_DO_SYS (logsAt_sys _ _ _)) (fun _ => reads_pure _)

theorem reads_verify_permanent {σ : Type} (K : OS σ) (uc : ucred_t) :
    Reads (do
      let pc ← DO_SYS_get (get_pcred K)
      DO_CHK (eql_sups K pc.sups uc.sups)
      DO_CHK (pure (decide (uc.gid = pc.gids.r) && decide (uc.gid = pc.gids.e) &&
        decide (uc.gid = pc.gids.s)))
      DO_CHK (pure (decide (uc.uid = pc.uids.r) && decide (uc.uid = pc.uids.e) &&
        decide (uc.uid = pc.uids.s)))
      let fs ← DO_SYS_get (get_fs_ids K)
      DO_CHK (pure (decide (fs.1 = uc.uid)))
      DO_CHK (pure (decide (fs.2 = uc.gid)))
      (pure 0 : Proc σ Int)) := by
  refine reads_bind (reads_DO_SYS_get (reads_get_pcred K)) (fun pc => ?_)
  refine reads_bind (reads_DO_CHK (reads_eql_sups K _ _)) (fun _ => ?_)
  refine reads_bind (reads_DO_CHK (reads_pure _)) (fun _ => ?_)
  refine reads_bind (reads_DO_CHK (reads_pure _)) (fun _ => ?_)
  refine reads_bind (reads_DO_SYS_get (reads_get_fs_ids K)) (fun fs => ?_)
  refine reads_bind (reads_DO_CHK (reads_pure _)) (fun _ => ?_)
  refine reads_bind (reads_DO_CHK (reads_pure _)) (fun _ => ?_)
  exact reads_pure _

theorem logsAt_drop_privileges_permanently {σ : Type} (K : OS σ) (uc : ucred_t)
    (w : World σ) :
    LogsAt (drop_privileges_permanently K uc) w
      [.setgroups uc.sups.size uc.sups.list, .setresgid uc.gid uc.gid uc.gid,
        .setresuid uc.uid uc.uid uc.uid] := by
  unfold drop_privileges_permanently
  refine logsAt_bind_nil (logsAt_DO_CHK (logsAt_ucred_is_sane K uc w)) (fun _ w1 _ => ?_)
  refine logsAt_bind_cons (logsAt_DO_SYS (logsAt_set_sups K _ w1)) (fun _ w2 _ => ?_)
  refine logsAt_bind_cons (logsAt_DO_SYS (logsAt_set_gids K _ _ _ w2)) (fun _ w3 _ => ?_)
  refine logsAt_bind_reads (logsAt_DO_SYS (logsAt_set_uids K _ _ _ w3)) (fun _ => ?_)
  exact reads_verify_permanent K uc

theorem reads_verify_temporary {σ : Type} (K : OS σ) (uc : ucred_t) (old : pcred_t)
    (newSgid newSuid : Nat) :
    Reads (do
      let new ← DO_SYS_get (get_pcred K)
      DO_CHK (eql_sups K new.sups uc.sups)
      DO_CHK (pure (decide (old.gids.r = new.gids.r)))
      DO_CHK (pure (decide (uc.gid = new.gids.e)))
      DO_CHK (pure (decide (newSgid = new.gids.s)))
      DO_CHK (pure (decide (old.uids.r = new.uids.r)))
      DO_CHK (pure (decide (uc.uid = new.uids.e)))
      DO_CHK (pure (decide (newSuid = new.uids.s)))
      (pure 0 : Proc σ Int)) := by
  refine reads_bind (reads_DO_SYS_get (reads_get_pcred K)) (fun pc => ?_)
  refine reads_bind (reads_DO_CHK (reads_eql_sups K _ _)) (fun _ => ?_)
  refine reads_bind (reads_DO_CHK (reads_pure _)) (fun _ => ?_)
  refine reads_bind (reads_DO_CHK (reads_pure _)) (fun _ => ?_)
  refine reads_bind (reads_DO_CHK (reads_pure _)) (fun _ => ?_)
  refine reads_bind (reads_DO_CHK (reads_pure _)) (fun _ => ?_)
  refine reads_bind (reads_DO_CHK (reads_pure _)) (fun _ => ?_)
  refine reads_bind (reads_DO_CHK (reads_pure _)) (fun _ => ?_)
  exact reads_pure _

theorem logsAt_drop_privileges_temporarily {σ : Type} (K : OS σ) (uc : ucred_t)
    (w : World σ) :
    LogsAt (drop_privileges_temporarily K uc) w
      [.setgroups uc.sups.size uc.sups.list,
        .setresgid (K.getgid w.os) uc.gid
          (new_saved (K.getgid w.os) (K.getegid w.os) (K.getresgid w.os).2.s uc.gid),
        .setresuid (K.getuid w.os) uc.uid
          (new_saved (K.getuid w.os) (K.geteuid w.os) (K.getresuid w.os).2.s uc.uid)] := by
  unfold drop_privileges_temporarily
  refine logsAt_bind_nil (logsAt_DO_CHK (logsAt_ucred_is_sane K uc w)) (fun _ w1 h1 => ?_)
  have hos := (DO_CHK_ucred_is_sane_ret K uc h1).1
  refine logsAt_bind_nil (logsAt_of_reads (reads_DO_SYS_get (reads_get_pcred K)) w1)
    (fun old w2 h2 => ?_)
  obtain ⟨rc, h2, _⟩ := DO_SYS_get_ret_inv h2
  obtain ⟨_, hur, hue, hus, hgr, hge, hgs⟩ := get_pcred_ret K h2
  rw [hos] at hur hue hus hgr hge hgs
  simp only [← hur, ← hue, ← hus, ← hgr, ← hge, ← hgs]
  refine logsAt_bind_cons (logsAt_DO_SYS (logsAt_set_sups K _ w2)) (fun _ w3 _ => ?_)
  refine logsAt_bind_cons (logsAt_DO_SYS (logsAt_set_gids K _ _ _ w3)) (fun _ w4 _ => ?_)
  refine logsAt_bind_reads (logsAt_DO_SYS (logsAt_set_uids K _ _ _ w4)) (fun _ => ?_)
  exact reads_verify_temporary K uc old _ _

theorem reads_verify_restore {σ : Type} (K : OS σ) (uc : ucred_t) :
    Reads (do
      let pc ← DO_SYS_get (get_pcred K)
      DO_CHK (pure (decide (uc.uid = pc.uids.e)))
      DO_CHK (pure (decide (uc.gid = pc.gids.e)))
      DO_CHK (eql_sups K pc.sups uc.sups)
      (pure 0 : Proc σ Int)) := by
  refine reads_bind (reads_DO_SYS_get (reads_get_pcred K)) (fun pc => ?_)
  refine reads_bind (reads_DO_CHK (reads_pure _)) (fun _ => ?_)
  refine reads_bind (reads_DO_CHK (reads_pure _)) (fun _ => ?_)
  refine reads_bind (reads_DO_CHK (reads_eql_sups K _ _)) (fun _ => ?_)
  exact reads_pure _

theorem logsAt_restore_privileges {σ : Type} (K : OS σ) (uc : ucred_t) (w : World σ) :
    LogsAt (restore_privileges K uc) w
      [.seteuid uc.uid, .setgroups uc.sups.size uc.sups.list, .setegid uc.gid] := by
  unfold restore_privileges
  refine logsAt_bind_nil (logsAt_DO_CHK (logsAt_ucred_is_sane K uc w)) (fun _ w1 _ => ?_)
  refine logsAt_bind_nil (logsAt_of_reads (reads_rd _) w1) (fun euid w2 _ => ?_)
  have hu : LogsAt (if uc.uid ≠ euid then DO_SYS (sys (.seteuid uc.uid) (K.seteuid uc.uid))
      else pure ()) w2 [.seteuid uc.uid] := by
    split
    · exact logsAt_DO_SYS (logsAt_sys _ _ _)
    · exact logsAt_mono (logsAt_of_reads (reads_pure _) w2) (List.nil_sublist _)
  refine logsAt_bind_cons hu (fun _ w3 _ => ?_)
  refine logsAt_bind_cons (logsAt_DO_SYS (logsAt_set_sups K _ w3)) (fun _ w4 _ => ?_)
  refine logsAt_bind_nil (logsAt_of_reads (reads_rd _) w4) (fun egid w5 _ => ?_)
  have hg : LogsAt (if uc.gid ≠ egid then DO_SYS (sys (.setegid uc.gid) (K.setegid uc.gid))
      else pure ()) w5 [.setegid uc.gid] := by
    split
    · exact logsAt_DO_SYS (logsAt_sys _ _ _)
    · exact logsAt_mono (logsAt_of_reads (reads_pure _) w5) (List.nil_sublist _)
  refine logsAt_bind_reads hg (fun _ => ?_)
  exact reads_verify_restore K uc

/-! ## `set_sups` -/

theorem set_sups_root {σ : Type} (K : OS σ) (target : sups_t) (w : World σ)
    (h0 : K.geteuid w.os = 0) :
    (set_sups K target w).world.log = w.log ++ [.setgroups target.size target.list] := by
  by_cases hrc : (K.setgroups target.size target.list w.os).rc = -1
  · simp only [set_sups, bind_apply, rd, h0, if_true, DO_SYS, sys, pure_apply, hrc, abort,
      Outcome.world]
  · simp only [set_sups, bind_apply, rd, h0, if_true, DO_SYS, sys, pure_apply, hrc, if_false,
      Outcome.world]

theorem set_sups_equal {σ : Type} (K : OS σ) (target cur : sups_t) (w : World σ)
    (h0 : K.geteuid w.os ≠ 0) (hcur : get_sups K w = .ret (0, cur) w)
    (heq : eql_sups_pure (K.getegid w.os) cur target = some true) :
    set_sups K target w = .ret 0 w := by
  have h1 : DO_SYS_get (get_sups K) w = .ret cur w := by
    simp [DO_SYS_get, bind_apply, hcur, pure_apply]
  have h2 : eql_sups K cur target w = .ret true w := by
    simp [eql_sups, heq]
  simp [set_sups, bind_apply, rd, h0, h1, h2, pure_apply]

/-- C8: with effective uid 0, `set_sups(target)` issues exactly one call, `setgroups(target)`;
with another effective uid it issues no call and returns 0 whenever `eql_sups` accepts the
current group list against `target`, in particular when the current list is `target` with the
effective gid added. -/
theorem set_sups_calls {σ : Type} (K : OS σ) (target : sups_t) (w : World σ) :
    (K.geteuid w.os = 0 →
      (set_sups K target w).world.log = w.log ++ [.setgroups target.size target.list]) ∧
    (K.geteuid w.os ≠ 0 → ∀ cur, get_sups K w = .ret (0, cur) w →
      eql_sups_pure (K.getegid w.os) cur target = some true →
      set_sups K target w = .ret 0 w) ∧
    (K.geteuid w.os ≠ 0 → ∀ cur : List Nat, get_sups K w = .ret (0, ⟨cur, cur.length⟩) w →
      cur.Pairwise (· < ·) → target.size = target.list.length →
      K.getegid w.os ∈ cur → K.getegid w.os ∉ target.list →
      cur.erase (K.getegid w.os) = target.list →
      set_sups K target w = .ret 0 w) := by
  refine ⟨set_sups_root K target w, fun h0 cur hcur heq => set_sups_equal K target cur w h0 hcur heq,
    ?_⟩
  intro h0 cur hcur hsorted hsize hmem hnot herase
  refine set_sups_equal K target _ w h0 hcur ?_
  have hnd : cur.Nodup := hsorted.imp (fun h => Nat.ne_of_lt h)
  have := (eql_sups_pure_iff_spec (K.getegid w.os) cur target.list hnd).mpr
    (Or.inr ⟨hmem, hnot, herase⟩)
  rw [← hsize] at this
  exact this

/-! ## Invariants of the kernel state -/

theorem invAt_of_reads {σ α : Type} {P : σ → Prop} {m : Proc σ α} (hm : Reads m)
    (w : World σ) : InvAt P m w := by
  intro h
  rw [hm w]
  exact h

theorem invAt_bind {σ α β : Type} {P : σ → Prop} {m : Proc σ α} {f : α → Proc σ β}
    {w : World σ} (hm : InvAt P m w) (hf : ∀ a w1, m w = .ret a w1 → InvAt P (f a) w1) :
    InvAt P (m >>= f) w := by
  intro h
  have h1 := hm h
  rw [bind_apply]
  cases hmw : m w with
  | ret a w1 =>
    rw [hmw] at h1
    exact hf a w1 hmw h1
  | abort w1 =>
    rw [hmw] at h1
    exact h1
  | undef w1 =>
    rw [hmw] at h1
    exact h1

theorem invAt_bind_reads {σ α β : Type} {P : σ → Prop} {m : Proc σ α} {f : α → Proc σ β}
    {w : World σ} (hm : InvAt P m w) (hf : ∀ a, Reads (f a)) : InvAt P (m >>= f) w :=
  invAt_bind hm (fun a w1 _ => invAt_of_reads (hf a) w1)

theorem invAt_sys {σ : Type} {P : σ → Prop} (c : Call) (f : σ → SysRet σ) (w : World σ)
    (hf : P w.os → P (f w.os).os) : InvAt P (sys c f) w := hf

theorem invAt_DO_SYS {σ : Type} {P : σ → Prop} {call : Proc σ Int} {w : World σ}
    (h : InvAt P call w) : InvAt P (DO_SYS call) w :=
  invAt_bind_reads h (fun _ => reads_ite _ reads_abort (reads_pure _))

theorem invAt_DO_CHK {σ : Type} {P : σ → Prop} {expr : Proc σ Bool} {w : World σ}
    (h : InvAt P expr w) : InvAt P (DO_CHK expr) w :=
  invAt_bind_reads h (fun _ => reads_ite _ reads_abort (reads_pure _))

theorem invAt_ucred_is_sane {σ : Type} {P : σ → Prop} (K : OS σ) (uc : ucred_t)
    (w : World σ) : InvAt P (ucred_is_sane K uc) w := by
  intro h
  rw [(ucred_is_sane_world K uc w).1]
  exact h

theorem invAt_set_sups {σ : Type} {P : σ → Prop} (K : OS σ) (t : sups_t) (w : World σ)
    (hf : ∀ os, P os → P (K.setgroups t.size t.list os).os) : InvAt P (set_sups K t) w := by
  unfold set_sups
  refine invAt_bind (invAt_of_reads (reads_rd _) w) (fun euid w1 _ => ?_)
  refine invAt_bind_reads ?_ (fun _ => reads_pure _)
  split
  · exact invAt_DO_SYS (invAt_sys _ _ _ (hf _))
  · refine invAt_bind (invAt_of_reads (reads_DO_SYS_get (reads_get_sups K)) w1)
      (fun cur w2 _ => ?_)
    refine invAt_bind (invAt_of_reads (reads_eql_sups K _ _) w2) (fun eq w3 _ => ?_)
    split
    · exact invAt_DO_SYS (invAt_sys _ _ _ (hf _))
    · exact invAt_of_reads (reads_pure _) w3

theorem invAt_set_gids {σ : Type} {P : σ → Prop} (K : OS σ) (r e s : Nat) (w : World σ)
    (hf : P w.os → P (K.setresgid r e s w.os).os) : InvAt P (set_gids K r e s) w := by
  unfold set_gids
  exact invAt_bind_reads (invAt_DO_SYS (invAt_sys _ _ _ hf)) (fun _ => reads_pure _)

theorem invAt_set_uids {σ : Type} {P : σ → Prop} (K : OS σ) (r e s : Nat) (w : World σ)
    (hf : P w.os → P (K.setresuid r e s w.os).os) : InvAt P (set_uids K r e s) w := by
  unfold set_uids
  exact invAt_bind_reads (invAt_DO_SYS (invAt_sys _ _ _ hf)) (fun _ => reads_pure _)

theorem invAt_restore_privileges {σ : Type} {P : σ → Prop} (K : OS σ) (uc : ucred_t)
    (w : World σ) (hu : ∀ os, P os → P (K.seteuid uc.uid os).os)
    (hs : ∀ os, P os → P (K.setgroups uc.sups.size uc.sups.list os).os)
    (hg : ∀ os, P os → P (K.setegid uc.gid os).os) : InvAt P (restore_privileges K uc) w := by
  unfold restore_privileges
  refine invAt_bind (invAt_DO_CHK (invAt_ucred_is_sane K uc w)) (fun _ w1 _ => ?_)
  refine invAt_bind (invAt_of_reads (reads_rd _) w1) (fun euid w2 _ => ?_)
  have h1 : InvAt P (if uc.uid ≠ euid then DO_SYS (sys (.seteuid uc.uid) (K.seteuid uc.uid))
      else pure ()) w2 := by
    split
    · exact invAt_DO_SYS (invAt_sys _ _ _ (hu _))
    · exact invAt_of_reads (reads_pure _) w2
  refine invAt_bind h1 (fun _ w3 _ => ?_)
  refine invAt_bind (invAt_DO_SYS (invAt_set_sups K _ w3 hs)) (fun _ w4 _ => ?_)
  refine invAt_bind (invAt_of_reads (reads_rd _) w4) (fun egid w5 _ => ?_)
  have h2 : InvAt P (if uc.gid ≠ egid then DO_SYS (sys (.setegid uc.gid) (K.setegid uc.gid))
      else pure ()) w5 := by
    split
    · exact invAt_DO_SYS (invAt_sys _ _ _ (hg _))
    · exact invAt_of_reads (reads_pure _) w5
  refine invAt_bind_reads h2 (fun _ => ?_)
  exact reads_verify_restore K uc

/-! ## What a normal return has verified -/

theorem drop_privileges_temporarily_ret {σ : Type} (K : OS σ) (uc : ucred_t)
    (w w2 : World σ) (rc : Int) (h : drop_privileges_temporarily K uc w = .ret rc w2) :
    K.getuid w2.os = K.getuid w.os ∧ K.geteuid w2.os = uc.uid ∧
      (K.getresuid w2.os).2.s =
        new_saved (K.getuid w.os) (K.geteuid w.os) (K.getresuid w.os).2.s uc.uid := by
  unfold drop_privileges_temporarily at h
  obtain ⟨_, w1, hsane, k1⟩ := bind_ret_inv h
  have hos := (DO_CHK_ucred_is_sane_ret K uc hsane).1
  obtain ⟨old, wa, hold0, k2⟩ := bind_ret_inv k1
  obtain ⟨rco, hold, _⟩ := DO_SYS_get_ret_inv hold0
  obtain ⟨_, hur, hue, hus, _, _, _⟩ := get_pcred_ret K hold
  rw [hos] at hur hue hus
  obtain ⟨_, w3, _, k3⟩ := bind_ret_inv k2
  obtain ⟨_, w4, _, k4⟩ := bind_ret_inv k3
  obtain ⟨_, w5, _, k5⟩ := bind_ret_inv k4
  obtain ⟨new, w6, hnew0, k6⟩ := bind_ret_inv k5
  obtain ⟨rcn, hnew, _⟩ := DO_SYS_get_ret_inv hnew0
  have e6 := (reads_get_pcred K).ret_eq hnew
  subst e6
  obtain ⟨_, nur, nue, nus, _, _, _⟩ := get_pcred_ret K hnew
  obtain ⟨_, w7, hc1, k7⟩ := bind_ret_inv k6
  have e7 := (reads_DO_CHK (reads_eql_sups K _ _)).ret_eq hc1
  subst e7
  obtain ⟨_, w8, hc2, k8⟩ := bind_ret_inv k7
  obtain ⟨_, e8⟩ := DO_CHK_pure_ret_inv hc2
  subst e8
  obtain ⟨_, w9, hc3, k9⟩ := bind_ret_inv k8
  obtain ⟨_, e9⟩ := DO_CHK_pure_ret_inv hc3
  subst e9
  obtain ⟨_, w10, hc4, k10⟩ := bind_ret_inv k9
  obtain ⟨_, e10⟩ := DO_CHK_pure_ret_inv hc4
  subst e10
  obtain ⟨_, w11, hc5, k11⟩ := bind_ret_inv k10
  obtain ⟨hr, e11⟩ := DO_CHK_pure_ret_inv hc5
  subst e11
  obtain ⟨_, w12, hc6, k12⟩ := bind_ret_inv k11
  obtain ⟨he, e12⟩ := DO_CHK_pure_ret_inv hc6
  subst e12
  obtain ⟨_, w13, hc7, k13⟩ := bind_ret_inv k12
  obtain ⟨hs, e13⟩ := DO_CHK_pure_ret_inv hc7
  subst e13
  rw [pure_apply] at k13
  cases k13
  simp only [decide_eq_true_eq] at hr he hs
  refine ⟨?_, ?_, ?_⟩
  · rw [← nur, ← hr, hur]
  · rw [← nue, ← he]
  · rw [← nus, ← hs, hur, hue, hus]

theorem restore_privileges_ret {σ : Type} (K : OS σ) (uc : ucred_t)
    (w w2 : World σ) (rc : Int) (h : restore_privileges K uc w = .ret rc w2) :
    K.geteuid w2.os = uc.uid := by
  unfold restore_privileges at h
  obtain ⟨_, w1, _, k1⟩ := bind_ret_inv h
  obtain ⟨euid, wa, _, k2⟩ := bind_ret_inv k1
  obtain ⟨_, w3, _, k3⟩ := bind_ret_inv k2
  obtain ⟨_, w4, _, k4⟩ := bind_ret_inv k3
  obtain ⟨egid, w5, _, k5⟩ := bind_ret_inv k4
  obtain ⟨_, w6, _, k6⟩ := bind_ret_inv k5
  obtain ⟨pc, w7, hpc0, k7⟩ := bind_ret_inv k6
  obtain ⟨rcp, hpc, _⟩ := DO_SYS_get_ret_inv hpc0
  have e7 := (reads_get_pcred K).ret_eq hpc
  subst e7
  obtain ⟨_, _, pe, _, _, _, _⟩ := get_pcred_ret K hpc
  obtain ⟨_, w8, hc1, k8⟩ := bind_ret_inv k7
  obtain ⟨hu, e8⟩ := DO_CHK_pure_ret_inv hc1
  subst e8
  obtain ⟨_, w9, hc2, k9⟩ := bind_ret_inv k8
  obtain ⟨_, e9⟩ := DO_CHK_pure_ret_inv hc2
  subst e9
  obtain ⟨_, w10, hc3, k10⟩ := bind_ret_inv k9
  have e10 := (reads_DO_CHK (reads_eql_sups K _ _)).ret_eq hc3
  subst e10
  rw [pure_apply] at k10
  cases k10
  simp only [decide_eq_true_eq] at hu
  rw [← pe, ← hu]

/-- C3: on a kernel whose `seteuid`, `setgroups` and `setegid` leave the real and the saved
uid alone, from a state whose effective uid equals its real or its saved uid, a
`drop_privileges_temporarily` that returns, followed by a `restore_privileges` to the original
effective uid that returns, leaves the process with its original effective uid and with the
real and saved uid it had before the drop; in between the effective uid was the target. -/
theorem drop_restore_round_trip {σ : Type} (K : OS σ) (hK : KeepsRealSavedUid K)
    (uc orig : ucred_t) (w w1 w2 : World σ) (rc1 rc2 : Int)
    (he : K.geteuid w.os = K.getuid w.os ∨ K.geteuid w.os = (K.getresuid w.os).2.s)
    (horig : orig.uid = K.geteuid w.os)
    (h1 : drop_privileges_temporarily K uc w = .ret rc1 w1)
    (h2 : restore_privileges K orig w1 = .ret rc2 w2) :
    K.geteuid w1.os = uc.uid ∧ K.geteuid w2.os = K.geteuid w.os ∧
      K.getuid w2.os = K.getuid w.os ∧
      (K.getresuid w2.os).2.s = (K.getresuid w.os).2.s := by
  obtain ⟨d1, d2, d3⟩ := drop_privileges_temporarily_ret K uc w w1 rc1 h1
  have r1 := restore_privileges_ret K orig w1 w2 rc2 h2
  have hinv : InvAt (fun os => K.getuid os = K.getuid w.os ∧
      (K.getresuid os).2.s = (K.getresuid w.os).2.s) (restore_privileges K orig) w1 := by
    refine invAt_restore_privileges K orig w1 ?_ ?_ ?_
    · intro os hP
      rw [(hK.1 _ os).1, (hK.1 _ os).2]
      exact hP
    · intro os hP
      rw [(hK.2.1 _ _ os).1, (hK.2.1 _ _ os).2]
      exact hP
    · intro os hP
      rw [(hK.2.2 _ os).1, (hK.2.2 _ os).2]
      exact hP
  have hs : new_saved (K.getuid w.os) (K.geteuid w.os) (K.getresuid w.os).2.s uc.uid =
      (K.getresuid w.os).2.s := by
    unfold new_saved
    rw [if_pos he]
  have := hinv ⟨d1, by rw [d3, hs]⟩
  rw [h2] at this
  exact ⟨d2, by rw [r1, horig], this.1, this.2⟩

/-! ## After a permanent drop -/

theorem ucred_is_sane_pure_true (nm : Int) (uc : ucred_t) (errno e : Int)
    (h : ucred_is_sane_pure nm uc errno = some (true, e)) : uc.uid ≠ NEG1 ∧ e = errno := by
  unfold ucred_is_sane_pure at h
  dsimp only at h
  cases hl : ucred_is_sane_loop uc.sups.list uc.sups.size (uc.sups.size.toNat + 1) 1 with
  | none =>
    rw [hl] at h
    cases h
  | some b =>
    rw [hl] at h
    cases b with
    | false =>
      dsimp only at h
      cases h
    | true =>
      dsimp only at h
      split at h
      · rename_i hr
        simp only [Bool.not_eq_true'] at hr
        rw [hr] at h
        cases h
      · rename_i hr
        simp only [Bool.not_eq_true', Bool.not_eq_false] at hr
        simp only [Bool.and_eq_true, decide_eq_true_eq] at hr
        simp only [Option.some.injEq, Prod.mk.injEq] at h
        exact ⟨hr.1.2, h.2.symm⟩

theorem ucred_is_sane_true {σ : Type} (K : OS σ) (uc : ucred_t) {w w1 : World σ}
    (h : ucred_is_sane K uc w = .ret true w1) : uc.uid ≠ NEG1 ∧ w1 = w := by
  unfold ucred_is_sane at h
  cases hp : ucred_is_sane_pure (K.sysconf_NGROUPS_MAX w.os) uc w.errno with
  | none =>
    rw [hp] at h
    cases h
  | some p =>
    obtain ⟨b, e⟩ := p
    rw [hp] at h
    dsimp only at h
    cases h
    obtain ⟨h1, h2⟩ := ucred_is_sane_pure_true _ _ _ _ hp
    subst h2
    exact ⟨h1, rfl⟩

theorem uids_of_e {σ : Type} (K : OS σ) (os : σ) (a b c : Nat)
    (h : uids_of K os = ⟨a, b, c⟩) : K.geteuid os = b := by
  have := congrArg uids_t.e h
  exact this

theorem invAt_drop_privileges_permanently {σ : Type} (K : OS σ) (u : Nat)
    (hK : RefusesOtherUids K u) (uc : ucred_t) (hne : uc.uid ≠ u) (w : World σ) :
    InvAt (fun os => uids_of K os = ⟨u, u, u⟩) (drop_privileges_permanently K uc) w := by
  unfold drop_privileges_permanently
  refine invAt_bind (invAt_DO_CHK (invAt_ucred_is_sane K uc w)) (fun _ w1 hs => ?_)
  have hn1 := (ucred_is_sane_true K uc (DO_CHK_ret_inv hs)).1
  refine invAt_bind (invAt_DO_SYS (invAt_set_sups K _ w1 (fun os h => (hK os h).1 _ _)))
    (fun _ w2 _ => ?_)
  refine invAt_bind (invAt_DO_SYS (invAt_set_gids K _ _ _ w2 (fun h => (hK _ h).2.1 _ _ _)))
    (fun _ w3 _ => ?_)
  refine invAt_bind_reads (invAt_DO_SYS (invAt_set_uids K _ _ _ w3 (fun h => ?_)))
    (fun _ => reads_verify_permanent K uc)
  rw [(hK _ h).2.2.2.1 _ _ _ hne hn1]
  exact h

theorem invAt_drop_privileges_temporarily {σ : Type} (K : OS σ) (u : Nat)
    (hK : RefusesOtherUids K u) (uc : ucred_t) (hne : uc.uid ≠ u) (w : World σ) :
    InvAt (fun os => uids_of K os = ⟨u, u, u⟩) (drop_privileges_temporarily K uc) w := by
  unfold drop_privileges_temporarily
  refine invAt_bind (invAt_DO_CHK (invAt_ucred_is_sane K uc w)) (fun _ w1 hs => ?_)
  have hn1 := (ucred_is_sane_true K uc (DO_CHK_ret_inv hs)).1
  refine invAt_bind (invAt_of_reads (reads_DO_SYS_get (reads_get_pcred K)) w1)
    (fun old wa _ => ?_)
  refine invAt_bind (invAt_DO_SYS (invAt_set_sups K _ wa (fun os h => (hK os h).1 _ _)))
    (fun _ w2 _ => ?_)
  refine invAt_bind (invAt_DO_SYS (invAt_set_gids K _ _ _ w2 (fun h => (hK _ h).2.1 _ _ _)))
    (fun _ w3 _ => ?_)
  refine invAt_bind_reads (invAt_DO_SYS (invAt_set_uids K _ _ _ w3 (fun h => ?_)))
    (fun _ => reads_verify_temporary K uc old _ _)
  rw [(hK _ h).2.2.2.1 _ _ _ hne hn1]
  exact h

theorem invAt_restore_after_drop {σ : Type} (K : OS σ) (u : Nat)
    (hK : RefusesOtherUids K u) (uc : ucred_t) (hne : uc.uid ≠ u) (w : World σ) :
    InvAt (fun os => uids_of K os = ⟨u, u, u⟩) (restore_privileges K uc) w := by
  unfold restore_privileges
  refine invAt_bind (invAt_DO_CHK (invAt_ucred_is_sane K uc w)) (fun _ w1 hs => ?_)
  have hn1 := (ucred_is_sane_true K uc (DO_CHK_ret_inv hs)).1
  refine invAt_bind (invAt_of_reads (reads_rd _) w1) (fun euid w2 _ => ?_)
  have h1 : InvAt (fun os => uids_of K os = ⟨u, u, u⟩)
      (if uc.uid ≠ euid then DO_SYS (sys (.seteuid uc.uid) (K.seteuid uc.uid))
        else pure ()) w2 := by
    split
    · refine invAt_DO_SYS (invAt_sys _ _ _ (fun h => ?_))
      rw [(hK _ h).2.2.2.2 _ hne hn1]
      exact h
    · exact invAt_of_reads (reads_pure _) w2
  refine invAt_bind h1 (fun _ w3 _ => ?_)
  refine invAt_bind (invAt_DO_SYS (invAt_set_sups K _ w3 (fun os h => (hK os h).1 _ _)))
    (fun _ w4 _ => ?_)
  refine invAt_bind (invAt_of_reads (reads_rd _) w4) (fun egid w5 _ => ?_)
  have h2 : InvAt (fun os => uids_of K os = ⟨u, u, u⟩)
      (if uc.gid ≠ egid then DO_SYS (sys (.setegid uc.gid) (K.setegid uc.gid))
        else pure ()) w5 := by
    split
    · exact invAt_DO_SYS (invAt_sys _ _ _ (fun h => (hK _ h).2.2.1 _))
    · exact invAt_of_reads (reads_pure _) w5
  refine invAt_bind_reads h2 (fun _ => ?_)
  exact reads_verify_restore K uc

theorem restore_refused {σ : Type} (K : OS σ) (u : Nat) (hK : RefusesOtherUids K u)
    (uc : ucred_t) (hne : uc.uid ≠ u) (w w1 : World σ)
    (hw : uids_of K w.os = ⟨u, u, u⟩) (hs : ucred_is_sane K uc w = .ret true w1) :
    restore_privileges K uc w = .abort ⟨w.os, EPERM, w.log ++ [.seteuid uc.uid]⟩ := by
  obtain ⟨hn1, e1⟩ := ucred_is_sane_true K uc hs
  subst e1
  have he : K.geteuid w1.os = u := uids_of_e K _ _ _ _ hw
  have hne2 : uc.uid ≠ K.geteuid w1.os := by rw [he]; exact hne
  have href := (hK _ hw).2.2.2.2 _ hne hn1
  simp [restore_privileges, bind_apply, DO_CHK, hs, pure_apply, rd, hne2, DO_SYS, sys, href,
    abort]

/-- C4, as amended: on a kernel that, for a process whose three uids are `u`, refuses
`setresuid` and `seteuid` to any other effective uid and whose `setgroups`, `setresgid` and
`setegid` leave the uids alone, a further `drop_privileges_permanently`,
`drop_privileges_temporarily` or `restore_privileges` with a target uid other than `u` never
returns and never changes the uid triple; for a sane target, `restore_privileges` ends in
`abort()` right after the refused `seteuid`, with `errno` EPERM. -/
theorem permanent_drop_is_final {σ : Type} (K : OS σ) (u : Nat) (hK : RefusesOtherUids K u)
    (uc : ucred_t) (hne : uc.uid ≠ u) (w : World σ) (hw : uids_of K w.os = ⟨u, u, u⟩) :
    ((∀ rc w2, drop_privileges_permanently K uc w ≠ .ret rc w2) ∧
      uids_of K (drop_privileges_permanently K uc w).world.os = ⟨u, u, u⟩) ∧
    ((∀ rc w2, drop_privileges_temporarily K uc w ≠ .ret rc w2) ∧
      uids_of K (drop_privileges_temporarily K uc w).world.os = ⟨u, u, u⟩) ∧
    ((∀ rc w2, restore_privileges K uc w ≠ .ret rc w2) ∧
      uids_of K (restore_privileges K uc w).world.os = ⟨u, u, u⟩) ∧
    (∀ w1, ucred_is_sane K uc w = .ret true w1 →
      restore_privileges K uc w = .abort ⟨w.os, EPERM, w.log ++ [.seteuid uc.uid]⟩) := by
  have ip := invAt_drop_privileges_permanently K u hK uc hne w hw
  have it := invAt_drop_privileges_temporarily K u hK uc hne w hw
  have ir := invAt_restore_after_drop K u hK uc hne w hw
  refine ⟨⟨?_, ip⟩, ⟨?_, it⟩, ⟨?_, ir⟩, fun w1 hs => restore_refused K u hK uc hne w w1 hw hs⟩
  · intro rc w2 h
    rw [h] at ip
    obtain ⟨_, pc, hpc, hu, _, _⟩ := drop_privileges_permanently_ret K uc w w2 rc h
    obtain ⟨_, _, pe, _, _, _, _⟩ := get_pcred_ret K hpc
    have h1 : K.geteuid w2.os = u := uids_of_e K _ _ _ _ ip
    rw [hu] at pe
    exact hne (by rw [← h1, ← pe])
  · intro rc w2 h
    rw [h] at it
    obtain ⟨_, d2, _⟩ := drop_privileges_temporarily_ret K uc w w2 rc h
    have h1 : K.geteuid w2.os = u := uids_of_e K _ _ _ _ it
    exact hne (by rw [← h1, ← d2])
  · intro rc w2 h
    rw [h] at ir
    have r1 := restore_privileges_ret K uc w w2 rc h
    have h1 : K.geteuid w2.os = u := uids_of_e K _ _ _ _ ir
    exact hne (by rw [← h1, ← r1])

/-! ## The reference kernel meets the assumptions -/

theorem ref_os_keeps : KeepsRealSavedUid ref_os := by
  refine ⟨fun u os => ?_, fun n l os => ?_, fun g os => ?_⟩
  · show (ref_setresuid NEG1 u NEG1 os).os.uids.r = os.uids.r ∧
      (ref_setresuid NEG1 u NEG1 os).os.uids.s = os.uids.s
    unfold ref_setresuid
    split <;> simp [ref_newid]
  · show (ref_setgroups n l os).os.uids.r = os.uids.r ∧
      (ref_setgroups n l os).os.uids.s = os.uids.s
    unfold ref_setgroups
    split <;> simp
  · show (ref_setresgid NEG1 g NEG1 os).os.uids.r = os.uids.r ∧
      (ref_setresgid NEG1 g NEG1 os).os.uids.s = os.uids.s
    unfold ref_setresgid
    split <;> simp

theorem ref_setresuid_refused (u : Nat) (hu : u ≠ 0) (os : KState)
    (h : os.uids = ⟨u, u, u⟩) (r e s : Nat) (he : e ≠ u) (hn : e ≠ NEG1) :
    ref_setresuid r e s os = ⟨-1, EPERM, os⟩ := by
  unfold ref_setresuid
  rw [if_neg]
  simp [h, hu, ref_permitted, he, hn]

theorem ref_os_refuses (u : Nat) (hu : u ≠ 0) : RefusesOtherUids ref_os u := by
  intro os h
  have h2 : os.uids = ⟨u, u, u⟩ := h
  refine ⟨fun n l => ?_, fun r e s => ?_, fun g => ?_, fun r e s he hn => ?_, fun e he hn => ?_⟩
  · show (ref_setgroups n l os).os.uids = ⟨u, u, u⟩
    unfold ref_setgroups
    split <;> simp [h2]
  · show (ref_setresgid r e s os).os.uids = ⟨u, u, u⟩
    unfold ref_setresgid
    split <;> simp [h2]
  · show (ref_setresgid NEG1 g NEG1 os).os.uids = ⟨u, u, u⟩
    unfold ref_setresgid
    split <;> simp [h2]
  · exact ref_setresuid_refused u hu os h2 r e s he hn
  · exact ref_setresuid_refused u hu os h2 NEG1 e NEG1 he hn

/-! ## The claims at concrete inputs -/

theorem drop_privileges_permanently_verified_witness :
    drop_privileges_permanently ref_os ex_user ex_root = .ret 0 ex_dropped ∧
      ((0 : Int) = 0 ∧ ∃ pc, get_pcred ref_os ex_dropped = .ret (0, pc) ex_dropped ∧
        pc.uids = ⟨ex_user.uid, ex_user.uid, ex_user.uid⟩ ∧
        pc.gids = ⟨ex_user.gid, ex_user.gid, ex_user.gid⟩ ∧
        eql_sups ref_os pc.sups ex_user.sups ex_dropped = .ret true ex_dropped) :=
  ⟨by decide, drop_privileges_permanently_verified ref_os ex_user ex_root ex_dropped 0
    (by decide)⟩

/-- C2 (code defect): from real uid 1000, effective uid 0, saved uid 2000 and target uid 3000,
`drop_privileges_temporarily` asks for `setresuid(1000, 3000, 3000)` and returns 0 with the
uids 1000, 3000, 3000: the saved uid is the target uid, not the old effective uid 0, which
the process no longer holds. -/
theorem drop_privileges_temporarily_saves_target :
    drop_privileges_temporarily ref_os ⟨3000, 100, ⟨[], 0⟩⟩ ex_mixed =
      .ret 0 ⟨⟨⟨1000, 3000, 3000⟩, ⟨100, 100, 100⟩, 3000, 100, []⟩, 0,
        [.setgroups 0 [], .setresgid 100 100 100, .setresuid 1000 3000 3000]⟩ := by
  decide

theorem drop_restore_round_trip_witness :
    KeepsRealSavedUid ref_os ∧
      (ref_os.geteuid ex_root.os = ref_os.getuid ex_root.os ∨
        ref_os.geteuid ex_root.os = (ref_os.getresuid ex_root.os).2.s) ∧
      ex_orig.uid = ref_os.geteuid ex_root.os ∧
      drop_privileges_temporarily ref_os ex_user ex_root = .ret 0 ex_lowered ∧
      restore_privileges ref_os ex_orig ex_lowered = .ret 0 ex_restored ∧
      (ref_os.geteuid ex_lowered.os = ex_user.uid ∧
        ref_os.geteuid ex_restored.os = ref_os.geteuid ex_root.os ∧
        ref_os.getuid ex_restored.os = ref_os.getuid ex_root.os ∧
        (ref_os.getresuid ex_restored.os).2.s = (ref_os.getresuid ex_root.os).2.s) :=
  ⟨ref_os_keeps, by decide, by decide, by decide, by decide,
    drop_restore_round_trip ref_os ref_os_keeps ex_user ex_orig ex_root ex_lowered ex_restored
      0 0 (by decide) (by decide) (by decide) (by decide)⟩

/-- C4, as stated, fails: after `drop_privileges_permanently` from root to uid 1000 has
returned 0, `restore_privileges` to uid 0 does not report an error to its caller; it does not
return at all, `DO_SYS` calls `abort()` after the refused `seteuid(0)`. -/
theorem restore_after_permanent_drop_aborts :
    drop_privileges_permanently ref_os ex_user ex_root = .ret 0 ex_dropped ∧
      restore_privileges ref_os ex_orig ex_dropped =
        .abort ⟨ex_dropped.os, EPERM, ex_dropped.log ++ [.seteuid 0]⟩ ∧
      ¬ ∃ rc w2, restore_privileges ref_os ex_orig ex_dropped = .ret rc w2 := by
  have h : restore_privileges ref_os ex_orig ex_dropped =
      .abort ⟨ex_dropped.os, EPERM, ex_dropped.log ++ [.seteuid 0]⟩ := by decide
  refine ⟨by decide, h, ?_⟩
  rintro ⟨rc, w2, h2⟩
  rw [h] at h2
  cases h2

theorem permanent_drop_is_final_witness :
    RefusesOtherUids ref_os 1000 ∧ ex_orig.uid ≠ 1000 ∧
      uids_of ref_os ex_dropped.os = ⟨1000, 1000, 1000⟩ ∧
      (((∀ rc w2, drop_privileges_permanently ref_os ex_orig ex_dropped ≠ .ret rc w2) ∧
        uids_of ref_os (drop_privileges_permanently ref_os ex_orig ex_dropped).world.os =
          ⟨1000, 1000, 1000⟩) ∧
      ((∀ rc w2, drop_privileges_temporarily ref_os ex_orig ex_dropped ≠ .ret rc w2) ∧
        uids_of ref_os (drop_privileges_temporarily ref_os ex_orig ex_dropped).world.os =
          ⟨1000, 1000, 1000⟩) ∧
      ((∀ rc w2, restore_privileges ref_os ex_orig ex_dropped ≠ .ret rc w2) ∧
        uids_of ref_os (restore_privileges ref_os ex_orig ex_dropped).world.os =
          ⟨1000, 1000, 1000⟩) ∧
      (∀ w1, ucred_is_sane ref_os ex_orig ex_dropped = .ret true w1 →
        restore_privileges ref_os ex_orig ex_dropped =
          .abort ⟨ex_dropped.os, EPERM, ex_dropped.log ++ [.seteuid ex_orig.uid]⟩)) :=
  ⟨ref_os_refuses 1000 (by decide), by decide, by decide,
    permanent_drop_is_final ref_os 1000 (ref_os_refuses 1000 (by decide)) ex_orig (by decide)
      ex_dropped (by decide)⟩

theorem ucred_is_sane_iff_witness :
    ex_user.sups.size ≤ ex_user.sups.list.length ∧
      ∃ b e, ucred_is_sane ref_os ex_user ex_root = .ret b ⟨ex_root.os, e, ex_root.log⟩ ∧
        (b = true ↔ ex_user.uid ≠ NEG1 ∧ ex_user.gid ≠ NEG1 ∧ 0 ≤ ex_user.sups.size ∧
          ex_user.sups.size ≤ ref_os.sysconf_NGROUPS_MAX ex_root.os ∧
          (ex_user.sups.list.take ex_user.sups.size.toNat).Pairwise (· < ·)) :=
  ⟨by decide, ucred_is_sane_iff ref_os ex_user ex_root (by decide)⟩

/-- C6 (code defect): for a target whose two groups are 2, 1, `ucred_is_sane` returns false
and leaves `errno` as it was, whatever the operating system and the state: the `return false`
inside the loop is taken before `errno = EINVAL`. -/
theorem ucred_is_sane_unsorted_keeps_errno {σ : Type} (K : OS σ) (w : World σ) :
    ucred_is_sane K ⟨1000, 1000, ⟨[2, 1], 2⟩⟩ w = .ret false w := by
  have h : ∀ nm e, ucred_is_sane_pure nm ⟨1000, 1000, ⟨[2, 1], 2⟩⟩ e = some (false, e) := by
    intro nm e
    simp [ucred_is_sane_pure, ucred_is_sane_loop, idx]
  unfold ucred_is_sane
  rw [h]

theorem eql_sups_iff_witness :
    [4, 24, 100].Pairwise (· < ·) ∧ [4, 24].Pairwise (· < ·) ∧
      (eql_sups_pure 100 ⟨[4, 24, 100], ([4, 24, 100] : List Nat).length⟩
          ⟨[4, 24], ([4, 24] : List Nat).length⟩ = some true ↔
        (([4, 24, 100] : List Nat) = [4, 24] ∨
          (100 ∈ [4, 24, 100] ∧ 100 ∉ [4, 24] ∧ [4, 24, 100].erase 100 = [4, 24]))) :=
  ⟨by decide, by decide, eql_sups_iff 100 [4, 24, 100] [4, 24] (by decide) (by decide)⟩

theorem set_sups_calls_witness :
    ref_os.geteuid ex_plain.os ≠ 0 ∧
      get_sups ref_os ex_plain = .ret (0, ⟨[4, 24, 100], 3⟩) ex_plain ∧
      eql_sups_pure (ref_os.getegid ex_plain.os) ⟨[4, 24, 100], 3⟩ ⟨[4, 24], 2⟩ = some true ∧
      set_sups ref_os ⟨[4, 24], 2⟩ ex_plain = .ret 0 ex_plain ∧
      (set_sups ref_os ⟨[4, 24], 2⟩ ex_root).world.log =
        ex_root.log ++ [.setgroups 2 [4, 24]] :=
  ⟨by decide, by decide, by decide,
    (set_sups_calls ref_os ⟨[4, 24], 2⟩ ex_plain).2.1 (by decide) ⟨[4, 24, 100], 3⟩
      (by decide) (by decide),
    (set_sups_calls ref_os ⟨[4, 24], 2⟩ ex_root).1 (by decide)⟩

theorem qsort_pair (l : List Nat) (hp : l.Perm [0, 2147483649])
    (hc : l.Chain' (fun a b => cmp_gid a b ≤ 0)) : l = [2147483649, 0] := by
  have hlen := hp.length_eq
  match l, hlen with
  | [a, b], _ =>
    have h0 : (0 : Nat) ∈ [a, b] := hp.symm.subset (by simp)
    have h1 : (2147483649 : Nat) ∈ [a, b] := hp.symm.subset (by simp)
    have hnd : [a, b].Nodup := hp.nodup_iff.mpr (by decide)
    simp only [List.mem_cons, List.mem_singleton, List.not_mem_nil, or_false] at h0 h1
    simp only [List.nodup_cons, List.mem_singleton, List.not_mem_nil, not_false_eq_true,
      List.nodup_nil, and_true] at hnd
    simp only [List.chain'_cons, List.chain'_singleton, and_true] at hc
    rcases h0 with h0 | h0 <;> rcases h1 with h1 | h1
    · omega
    · subst h0 h1
      exact absurd hc (by decide)
    · subst h0 h1
      rfl
    · omega

/-- C9 (code defect): when `getgroups` gives the two groups 0 and 2147483649, and `qsort`
gives back a permutation ordered by `cmp_gid`, `get_sups` produces the one-entry list
2147483649: group 0 is lost, because `cmp_gid` puts 2147483649 before 0. -/
theorem get_sups_loses_group {σ : Type} (K : OS σ) (w : World σ)
    (hg : K.getgroups w.os = (2, [0, 2147483649]))
    (hp : (K.qsort cmp_gid [0, 2147483649]).Perm [0, 2147483649])
    (hc : (K.qsort cmp_gid [0, 2147483649]).Chain' (fun a b => cmp_gid a b ≤ 0)) :
    get_sups K w = .ret (0, ⟨[2147483649], 1⟩) w := by
  have hq := qsort_pair _ hp hc
  simp [get_sups, bind_apply, rd, hg, DO_CHK, DO_SYS, pure_apply, hq, get_sups_loop, idx]

theorem ref_qsort_pair_chain :
    (ref_os.qsort cmp_gid [0, 2147483649]).Chain' (fun a b => cmp_gid a b ≤ 0) := by
  have hq : ref_os.qsort cmp_gid [0, 2147483649] = [2147483649, 0] := by decide
  rw [hq]
  simp only [List.chain'_cons, List.chain'_singleton, and_true]
  decide

theorem get_sups_loses_group_witness :
    ref_os.getgroups ex_wide.os = (2, [0, 2147483649]) ∧
      (ref_os.qsort cmp_gid [0, 2147483649]).Perm [0, 2147483649] ∧
      (ref_os.qsort cmp_gid [0, 2147483649]).Chain' (fun a b => cmp_gid a b ≤ 0) ∧
      get_sups ref_os ex_wide = .ret (0, ⟨[2147483649], 1⟩) ex_wide :=
  ⟨by decide, by decide, ref_qsort_pair_chain,
    get_sups_loses_group ref_os ex_wide (by decide) (by decide) ref_qsort_pair_chain⟩

/-! ## `priv2`: the targets that are built -/

theorem new_pair_false_ret {σ : Type} (K : OS2 σ) {w w1 : World (Mem σ)} {prev : pcred_t}
    (h : new_pair K false w = .ret prev w1) :
    w1 = w ∧ prev.uids.e = K.geteuid w.os.os ∧ prev.gids.e = K.getegid w.os.os := by
  unfold new_pair at h
  obtain ⟨r, wa, h1, h2⟩ := bind_ret_inv h
  have ea := (reads_get_pcred K.toOS.mem).ret_eq h1
  subst ea
  simp only [Bool.false_eq_true, if_false, pure_apply] at h2
  cases h2
  obtain ⟨rc, pc⟩ := r
  obtain ⟨_, _, he, _, _, hg, _⟩ := get_pcred_ret K.toOS.mem h1
  exact ⟨rfl, he, hg⟩

theorem get_pair_permanent_ret {σ : Type} (K : OS2 σ) (u : ucred_t) (f : Bool)
    {w w1 : World (Mem σ)} {p : pcred_pair_t} (h : get_pair_permanent K u f w = .ret p w1) :
    p.next.uids = ⟨u.uid, u.uid, u.uid⟩ ∧ p.next.gids = ⟨u.gid, u.gid, u.gid⟩ ∧
      p.next.sups = u.sups := by
  unfold get_pair_permanent at h
  obtain ⟨prev, wa, _, h2⟩ := bind_ret_inv h
  rw [pure_apply] at h2
  cases h2
  exact ⟨rfl, rfl, rfl⟩

theorem get_pairs_temporary_ret {σ : Type} (K : OS2 σ) (u : ucred_t)
    {w w1 : World (Mem σ)} {ps : id_pairs_t} (h : get_pairs_temporary K u false w = .ret ps w1) :
    w1 = w ∧ ps.uids.length = ID_PAIR_COLLECTION_SIZE ∧
      ps.gids.length = ID_PAIR_COLLECTION_SIZE ∧
      (∀ c ∈ ps.uids, c.e = u.uid ∧ (c.r = K.geteuid w.os.os ∨ c.s = K.geteuid w.os.os)) ∧
      (∀ c ∈ ps.gids, c.e = u.gid ∧ (c.r = K.getegid w.os.os ∨ c.s = K.getegid w.os.os)) := by
  unfold get_pairs_temporary at h
  obtain ⟨prev, wa, h1, h2⟩ := bind_ret_inv h
  obtain ⟨ea, he, hg⟩ := new_pair_false_ret K h1
  subst ea
  rw [pure_apply] at h2
  cases h2
  refine ⟨rfl, rfl, rfl, ?_, ?_⟩
  · intro c hc
    simp only [List.mem_cons, List.mem_singleton, List.not_mem_nil, or_false] at hc
    rcases hc with hc | hc | hc | hc | hc <;> subst hc <;> simp [he]
  · intro c hc
    simp only [List.mem_cons, List.mem_singleton, List.not_mem_nil, or_false] at hc
    rcases hc with hc | hc | hc | hc | hc <;> subst hc <;> simp [hg]

theorem assert_ret_inv {σ : Type} {b : Bool} {w w1 : World σ} {u : Unit}
    (h : assert b w = .ret u w1) : b = true ∧ w1 = w := by
  unfold assert at h
  cases b with
  | false =>
    simp only [Bool.false_eq_true, if_false] at h
    cases h
  | true =>
    simp only [if_true, pure_apply] at h
    cases h
    exact ⟨rfl, rfl⟩

theorem fill_pair_permanent_ret {σ : Type} (K : OS2 σ) (T : Tables) (u : ucred_t) (f : Bool)
    {w w1 : World (Mem σ)} {st : ci_status_e} {p : pcred_pair_t}
    (h : fill_pair_permanent K T u f w = .ret (st, p) w1) :
    ∃ w0, get_pair_permanent K u f w = .ret p w0 := by
  unfold fill_pair_permanent at h
  obtain ⟨p0, wa, h1, h2⟩ := bind_ret_inv h
  obtain ⟨np, wb, _, h3⟩ := bind_ret_inv h2
  obtain ⟨bad, wc, _, h4⟩ := bind_ret_inv h3
  obtain ⟨can, wd, _, h5⟩ := bind_ret_inv h4
  refine ⟨wa, ?_⟩
  cases bad <;> cases can <;> simp [pure_apply] at h5 <;> obtain ⟨⟨_, e2⟩, _⟩ := h5 <;>
    subst e2 <;> exact h1

theorem fill_pair_temporary_ret {σ : Type} (K : OS2 σ) (T : Tables) (u : ucred_t) (f : Bool)
    {w w1 : World (Mem σ)} {st : ci_status_e} {p : pcred_pair_t}
    (h : fill_pair_temporary K T u f w = .ret (st, p) w1) :
    ∃ ps w0, get_pairs_temporary K u f w = .ret ps w0 ∧ p.prev = ps.prev ∧
      p.next.uids ∈ ps.uids ∧ p.next.gids ∈ ps.gids ∧ p.next.sups = ps.sups := by
  unfold fill_pair_temporary at h
  obtain ⟨ps, wa, h1, h2⟩ := bind_ret_inv h
  obtain ⟨s, wb, _, h3⟩ := bind_ret_inv h2
  obtain ⟨_, wc, _, h4⟩ := bind_ret_inv h3
  refine ⟨ps, wa, h1, ?_⟩
  cases hu : ps.uids[s.uid_idx.toNat]? with
  | none =>
    simp only [hu] at h4
    cases h4
  | some us =>
    cases hg : ps.gids[s.gid_idx.toNat]? with
    | none =>
      simp only [hu, hg] at h4
      cases h4
    | some gs =>
      simp only [hu, hg, pure_apply] at h4
      cases h4
      exact ⟨rfl, List.getElem?_mem hu, List.getElem?_mem hg, rfl⟩

/-- With `force_privileged` false the permanent target built by `get_pair_permanent` has uids
`(u, u, u)` and gids `(g, g, g)`; each of the five candidates of `get_pairs_temporary` has
effective uid `u` and the current effective uid as its real or saved uid, likewise for gids;
and the target `fill_pair` hands to the rest of `change_identity` is that permanent target, or
one of these candidates. -/
theorem targets_keep_effective_ids {σ : Type} (K : OS2 σ) (T : Tables) (u : ucred_t)
    (w : World (Mem σ)) :
    (∀ p w1, get_pair_permanent K u false w = .ret p w1 →
      p.next.uids = ⟨u.uid, u.uid, u.uid⟩ ∧ p.next.gids = ⟨u.gid, u.gid, u.gid⟩) ∧
    (∀ ps w1, get_pairs_temporary K u false w = .ret ps w1 →
      ps.uids.length = ID_PAIR_COLLECTION_SIZE ∧ ps.gids.length = ID_PAIR_COLLECTION_SIZE ∧
      (∀ c ∈ ps.uids, c.e = u.uid ∧ (c.r = K.geteuid w.os.os ∨ c.s = K.geteuid w.os.os)) ∧
      (∀ c ∈ ps.gids, c.e = u.gid ∧ (c.r = K.getegid w.os.os ∨ c.s = K.getegid w.os.os))) ∧
    (∀ st p w1, fill_pair K T u true false w = .ret (st, p) w1 →
      p.next.uids = ⟨u.uid, u.uid, u.uid⟩ ∧ p.next.gids = ⟨u.gid, u.gid, u.gid⟩) ∧
    (∀ st p w1, fill_pair K T u false false w = .ret (st, p) w1 →
      (p.next.uids.e = u.uid ∧
        (p.next.uids.r = K.geteuid w.os.os ∨ p.next.uids.s = K.geteuid w.os.os)) ∧
      (p.next.gids.e = u.gid ∧
        (p.next.gids.r = K.getegid w.os.os ∨ p.next.gids.s = K.getegid w.os.os))) := by
  refine ⟨?_, ?_, ?_, ?_⟩
  · intro p w1 h
    exact ⟨(get_pair_permanent_ret K u false h).1, (get_pair_permanent_ret K u false h).2.1⟩
  · intro ps w1 h
    exact (get_pairs_temporary_ret K u h).2
  · intro st p w1 h
    obtain ⟨w0, h0⟩ := fill_pair_permanent_ret K T u false h
    exact ⟨(get_pair_permanent_ret K u false h0).1, (get_pair_permanent_ret K u false h0).2.1⟩
  · intro st p w1 h
    obtain ⟨ps, w0, h0, _, hu, hg, _⟩ := fill_pair_temporary_ret K T u false h
    obtain ⟨_, _, _, hus, hgs⟩ := get_pairs_temporary_ret K u h0
    exact ⟨hus _ hu, hgs _ hg⟩

theorem targets_keep_effective_ids_witness :
    get_pair_permanent ref_os2 ex_user false ex2_suid =
        .ret ⟨⟨⟨1000, 1000, 0⟩, ⟨100, 100, 100⟩, ⟨[4, 24], 2⟩⟩,
          ⟨⟨1000, 1000, 1000⟩, ⟨100, 100, 100⟩, ⟨[4, 24], 2⟩⟩⟩ ex2_suid ∧
      ((⟨1000, 1000, 1000⟩ : uids_t) = ⟨ex_user.uid, ex_user.uid, ex_user.uid⟩ ∧
        (⟨100, 100, 100⟩ : gids_t) = ⟨ex_user.gid, ex_user.gid, ex_user.gid⟩) ∧
      fill_pair ref_os2 ref_tables ⟨2000, 100, ⟨[4, 24], 2⟩⟩ false false ex2_suid =
        .ret (.ci_success, ⟨⟨⟨1000, 1000, 0⟩, ⟨100, 100, 100⟩, ⟨[4, 24], 2⟩⟩,
          ⟨⟨1000, 2000, 1000⟩, ⟨100, 100, 100⟩, ⟨[4, 24], 2⟩⟩⟩)
          ⟨⟨ex2_suid.os.os, ⟨true, ⟨1, 1, 0⟩, ⟨1, 1, 0⟩, true⟩⟩, 0, []⟩ ∧
      (((2000 : Nat) = 2000 ∧
        ((1000 : Nat) = ref_os2.geteuid ex2_suid.os.os ∨
          (1000 : Nat) = ref_os2.geteuid ex2_suid.os.os)) ∧
      ((100 : Nat) = 100 ∧
        ((100 : Nat) = ref_os2.getegid ex2_suid.os.os ∨
          (100 : Nat) = ref_os2.getegid ex2_suid.os.os))) :=
  ⟨by decide,
    (targets_keep_effective_ids ref_os2 ref_tables ex_user ex2_suid).1
      ⟨⟨⟨1000, 1000, 0⟩, ⟨100, 100, 100⟩, ⟨[4, 24], 2⟩⟩,
        ⟨⟨1000, 1000, 1000⟩, ⟨100, 100, 100⟩, ⟨[4, 24], 2⟩⟩⟩ ex2_suid (by decide),
    by decide,
    (targets_keep_effective_ids ref_os2 ref_tables ⟨2000, 100, ⟨[4, 24], 2⟩⟩ ex2_suid).2.2.2
      .ci_success ⟨⟨⟨1000, 1000, 0⟩, ⟨100, 100, 100⟩, ⟨[4, 24], 2⟩⟩,
        ⟨⟨1000, 2000, 1000⟩, ⟨100, 100, 100⟩, ⟨[4, 24], 2⟩⟩⟩
      ⟨⟨ex2_suid.os.os, ⟨true, ⟨1, 1, 0⟩, ⟨1, 1, 0⟩, true⟩⟩, 0, []⟩ (by decide)⟩

/-! ## `priv2`: runs on the reference kernel -/

/-- C11 (code defect): for a process whose groups are 0, 3 and 2147483653,
`change_uid_temporarily(1000)` returns -1 with `errno` EINVAL, not EPERM: `get_sups` sorts with
`cmp_gid`, which puts 2147483653 first, its loop then keeps 2147483653 and 3, and
`sups_are_sane` rejects this list, which `fill_ucred` passes on as the target. -/
theorem change_uid_temporarily_einval :
    get_sups ref_os2.toOS.mem ex2_wide = .ret (0, ⟨[2147483653, 3], 2⟩) ex2_wide ∧
      fill_ucred ref_os2 1000 ex2_wide = .ret ⟨1000, 0, ⟨[2147483653, 3], 2⟩⟩ ex2_wide ∧
      change_uid_temporarily ref_os2 ref_tables 1000 ex2_wide =
        .ret (-1) ⟨ex2_wide.os, EINVAL, []⟩ := by
  decide!

/-- C13 (code defect): when a root process changes permanently to uid 1000, gid 100 and the
groups 4 and 24 (the `groups_first` timing), `change_identity_permanently` changes the gids
first and the supplementary groups after them. -/
theorem groups_first_sets_gids_before_sups :
    change_identity_permanently ref_os2 ref_tables ex_user ex2_root =
      .ret 0 ⟨⟨⟨⟨1000, 1000, 1000⟩, ⟨100, 100, 100⟩, 1000, 100, [4, 24]⟩,
          ⟨true, ⟨0, 0, 0⟩, ⟨1, 1, 1⟩, true⟩⟩, 0,
        [.setgid 100, .setgroups 2 [4, 24], .setuid 1000]⟩ := by
  decide!

/-- C14 (code defect): a process with real and effective uid 1000, saved uid 0 and the groups
4 and 24 asks for uid 1000 permanently with the "leave unchanged" marker for the groups (the
`groups_elevate` timing): `change_identity_permanently` calls `setgroups(0, NULL)` and the
process ends without supplementary groups. -/
theorem elevate_ignores_dont_change_marker :
    sups_is_dont_change ex_keep.sups = true ∧
      change_identity_permanently ref_os2 ref_tables ex_keep ex2_suid =
        .ret 0 ⟨⟨⟨⟨1000, 1000, 1000⟩, ⟨100, 100, 100⟩, 1000, 100, []⟩,
            ⟨true, ⟨0, 0, 0⟩, ⟨0, 0, 0⟩, true⟩⟩, 0,
          [.setresuid 0 0 0, .setgroups 0 [], .setgid 100, .setuid 1000]⟩ := by
  decide!

/-- C20 (code defect): for a root process with real gid 100 and effective and saved gid 200,
`change_uid_permanently(1000)` asks for the gids 200, 200, 200, and the real gid is changed;
for one with saved gid 100 and real and effective gid 200, `change_uid_temporarily(1000)`
changes the saved gid. -/
theorem change_uid_changes_gids :
    change_uid_permanently ref_os2 ref_tables 1000 ex2_setgid =
        .ret 0 ⟨⟨⟨⟨1000, 1000, 1000⟩, ⟨200, 200, 200⟩, 1000, 200, [4, 24]⟩,
            ⟨true, ⟨0, 0, 0⟩, ⟨1, 1, 1⟩, true⟩⟩, 0,
          [.setgid 200, .setuid 1000]⟩ ∧
      change_uid_temporarily ref_os2 ref_tables 1000 (ref_mem ⟨0, 0, 0⟩ ⟨200, 200, 100⟩ [4, 24]) =
        .ret 0 ⟨⟨⟨⟨0, 1000, 0⟩, ⟨200, 200, 200⟩, 1000, 200, [4, 24]⟩,
            ⟨true, ⟨0, 0, 0⟩, ⟨0, 1, 0⟩, true⟩⟩, 0,
          [.setgid 200, .seteuid 1000]⟩ := by
  decide!

/-! ## AIX: `aix_set_uids` and `aix_set_gids` -/

theorem int_of_uid_of_lt (v : Nat) (h : v < 2147483648) : int_of_uid v = (v : Int) := by
  unfold int_of_uid
  have h1 : v % 4294967296 = v := Nat.mod_eq_of_lt (by omega)
  rw [h1, if_pos h]

theorem pred_of_lt (pl : List Nat) (v : Nat) (h : v < pl.length) :
    pred_of pl v = pl[v] ∧ idx pl (v : Int) = some pl[v] := by
  refine ⟨?_, ?_⟩
  · unfold pred_of
    exact List.getD_eq_getElem pl v h
  · rw [idx_natCast]
    exact List.getElem?_eq_getElem h

theorem pred_of_lt_length (pl : List Nat) (hin : ∀ v ∈ pl, v < pl.length) (v : Nat)
    (h : v < pl.length) : pred_of pl v < pl.length := by
  rw [(pred_of_lt pl v h).1]
  exact hin _ (List.getElem_mem h)

theorem iterate_pred_of_lt_length (pl : List Nat) (hin : ∀ v ∈ pl, v < pl.length) (v : Nat)
    (h : v < pl.length) (k : Nat) : (pred_of pl)^[k] v < pl.length := by
  induction k with
  | zero => simpa using h
  | succ k ih =>
    rw [Function.iterate_succ_apply']
    exact pred_of_lt_length pl hin _ ih

theorem can_set_recursive_step (pl : List Nat) (first : Int) (fuel v : Nat)
    (hlen : pl.length ≤ 2147483648) (hin : ∀ x ∈ pl, x < pl.length) (hv : v < pl.length) :
    can_set_uids_from_graph_recursive pl first (fuel + 1) (v : Int) =
      if (v : Int) = first then .ok true
      else if pred_of pl v = v then .ok false
      else can_set_uids_from_graph_recursive pl first fuel ((pred_of pl v : Nat) : Int) := by
  have hp := pred_of_lt pl v hv
  have hlt := pred_of_lt_length pl hin v hv
  rw [can_set_uids_from_graph_recursive]
  have h0 : ¬ ((v : Int) < 0) := by omega
  rw [if_neg h0, hp.2]
  simp only []
  rw [← hp.1, int_of_uid_of_lt _ (by omega)]
  by_cases h1 : (v : Int) = first
  · rw [if_pos h1, if_pos h1]
  · rw [if_neg h1, if_neg h1]
    by_cases h2 : pred_of pl v = v
    · rw [if_pos h2, if_pos (by rw [h2])]
    · rw [if_neg h2, if_neg (by exact_mod_cast h2)]

theorem can_set_recursive_of_iterate (pl : List Nat) (first : Nat)
    (hlen : pl.length ≤ 2147483648) (hin : ∀ x ∈ pl, x < pl.length) :
    ∀ k v, v < pl.length → (pred_of pl)^[k] v = first → ∀ fuel, k + 1 ≤ fuel →
      can_set_uids_from_graph_recursive pl (first : Int) fuel (v : Int) = .ok true := by
  intro k
  induction k with
  | zero =>
    intro v hv hk fuel hf
    obtain ⟨f, rfl⟩ : ∃ f, fuel = f + 1 := ⟨fuel - 1, by omega⟩
    rw [can_set_recursive_step pl _ f v hlen hin hv]
    simp only [Function.iterate_zero, id_eq] at hk
    rw [if_pos (by rw [hk])]
  | succ k ih =>
    intro v hv hk fuel hf
    obtain ⟨f, rfl⟩ : ∃ f, fuel = f + 1 := ⟨fuel - 1, by omega⟩
    rw [can_set_recursive_step pl _ f v hlen hin hv]
    by_cases h1 : (v : Int) = (first : Int)
    · rw [if_pos h1]
    · rw [if_neg h1]
      by_cases h2 : pred_of pl v = v
      · exfalso
        have hfix : (pred_of pl)^[k + 1] v = v := Function.iterate_fixed h2 _
        rw [hfix] at hk
        exact h1 (by rw [hk])
      · rw [if_neg h2]
        rw [Function.iterate_succ_apply] at hk
        exact ih _ (pred_of_lt_length pl hin v hv) hk f (by omega)

theorem reaches_within (pl : List Nat) (first dest : Nat)
    (hin : ∀ x ∈ pl, x < pl.length) (hdest : dest < pl.length) (h : Reaches pl first dest) :
    ∃ k, k ≤ pl.length ∧ (pred_of pl)^[k] dest = first := by
  classical
  refine ⟨Nat.find h, ?_, Nat.find_spec h⟩
  by_contra hgt
  have hgt : pl.length < Nat.find h := by omega
  let g : Fin (pl.length + 1) → Fin pl.length := fun i =>
    ⟨(pred_of pl)^[i.val] dest, iterate_pred_of_lt_length pl hin dest hdest _⟩
  obtain ⟨i, j, hij, hg⟩ := Fintype.exists_ne_map_eq_of_card_lt g (by simp)
  have hval : (pred_of pl)^[i.val] dest = (pred_of pl)^[j.val] dest := by
    simpa [g] using congrArg Fin.val hg
  have key : ∀ a b : Nat, a < b → b ≤ pl.length →
      (pred_of pl)^[a] dest = (pred_of pl)^[b] dest → False := by
    intro a b hab hb he
    have h1 : (pred_of pl)^[Nat.find h - b + a] dest = first := by
      rw [Function.iterate_add_apply, he, ← Function.iterate_add_apply]
      have : Nat.find h - b + b = Nat.find h := by omega
      rw [this]
      exact Nat.find_spec h
    exact Nat.find_min h (by omega) h1
  have hi := i.isLt
  have hj := j.isLt
  rcases Nat.lt_or_gt_of_ne (fun e => hij (Fin.ext e)) with hlt | hlt
  · exact key _ _ hlt (by omega) hval
  · exact key _ _ hlt (by omega) hval.symm

theorem can_set_recursive_reaches (pl : List Nat) (first dest : Nat)
    (hlen : pl.length ≤ 2147483648) (hin : ∀ v ∈ pl, v < pl.length) (hdest : dest < pl.length)
    (htree : ∀ v, v < pl.length → pred_of pl v = v ∨ Reaches pl first v)
    (fuel : Nat) (hf : pl.length + 1 ≤ fuel) :
    ∃ b, can_set_uids_from_graph_recursive pl (first : Int) fuel (dest : Int) = .ok b ∧
      (b = true ↔ Reaches pl first dest) := by
  by_cases hr : Reaches pl first dest
  · obtain ⟨k, hk, hit⟩ := reaches_within pl first dest hin hdest hr
    exact ⟨true, can_set_recursive_of_iterate pl first hlen hin k dest hdest hit fuel (by omega),
      by simp [hr]⟩
  · refine ⟨false, ?_, by simp [hr]⟩
    obtain ⟨f, rfl⟩ : ∃ f, fuel = f + 1 := ⟨fuel - 1, by omega⟩
    rw [can_set_recursive_step pl _ f dest hlen hin hdest]
    have h1 : ¬ ((dest : Int) = (first : Int)) := by
      intro h
      exact hr ⟨0, by simpa using (by exact_mod_cast h : dest = first)⟩
    rw [if_neg h1]
    rcases htree dest hdest with h2 | h2
    · rw [if_pos h2]
    · exact absurd h2 hr

theorem can_set_from_graph_no_index (T : Tables) (a b : uids_t) (i j : Int)
    (ha : get_ids_idx T a = .ok i) (hb : get_ids_idx T b = .ok j) (h : i < 0 ∨ j < 0) :
    can_set_uids_from_graph_ T a b = .ok false ∧ can_set_gids_from_graph_ T a b = .ok false := by
  have h1 : can_set_uids_from_graph_ T a b = .ok false := by
    unfold can_set_uids_from_graph_
    rw [ha, hb]
    show (if i < 0 ∨ j < 0 then (pure false : Res Bool) else _) = _
    rw [if_pos h]
    rfl
  exact ⟨h1, h1⟩

/-- C15: for a predecessor list whose entries are indices of the list and in which every
vertex is its own predecessor or has a predecessor chain that reaches `first`, the function
`can_set_uids_from_graph_recursive` returns (with one call more than the list has entries,
which is what `can_set_uids_from_graph_` allows, or with more), and returns true exactly when
following predecessors from `dest` reaches `first`; it returns false at a vertex other than
`first` that is its own predecessor; and `can_set_uids_from_graph_` and
`can_set_gids_from_graph_` return false when one of the two states has a negative index. -/
theorem can_set_recursive_iff_reaches (pl : List Nat) (first dest : Nat)
    (hlen : pl.length ≤ 2147483648) (hin : ∀ v ∈ pl, v < pl.length) (hdest : dest < pl.length)
    (htree : ∀ v, v < pl.length → pred_of pl v = v ∨ Reaches pl first v) :
    (∀ fuel, pl.length + 1 ≤ fuel →
      ∃ b, can_set_uids_from_graph_recursive pl (first : Int) fuel (dest : Int) = .ok b ∧
        (b = true ↔ Reaches pl first dest)) ∧
    (∀ fuel v, v < pl.length → v ≠ first → pred_of pl v = v →
      can_set_uids_from_graph_recursive pl (first : Int) (fuel + 1) (v : Int) = .ok false) ∧
    (∀ (T : Tables) (a b : uids_t) (i j : Int), get_ids_idx T a = .ok i →
      get_ids_idx T b = .ok j → i < 0 ∨ j < 0 →
      can_set_uids_from_graph_ T a b = .ok false ∧
        can_set_gids_from_graph_ T a b = .ok false) := by
  refine ⟨fun fuel hf => can_set_recursive_reaches pl first dest hlen hin hdest htree fuel hf,
    ?_, fun T a b i j ha hb h => can_set_from_graph_no_index T a b i j ha hb h⟩
  intro fuel v hv hne hself
  rw [can_set_recursive_step pl _ fuel v hlen hin hv]
  rw [if_neg (by exact_mod_cast hne), if_pos hself]

theorem can_set_recursive_iff_reaches_witness :
    ([0, 0, 1, 3] : List Nat).length ≤ 2147483648 ∧
      (∀ v ∈ ([0, 0, 1, 3] : List Nat), v < ([0, 0, 1, 3] : List Nat).length) ∧
      2 < ([0, 0, 1, 3] : List Nat).length ∧
      (∀ v, v < ([0, 0, 1, 3] : List Nat).length →
        pred_of [0, 0, 1, 3] v = v ∨ Reaches [0, 0, 1, 3] 0 v) ∧
      can_set_uids_from_graph_recursive [0, 0, 1, 3] 0 5 2 = .ok true ∧
      Reaches [0, 0, 1, 3] 0 2 ∧
      (∀ fuel, ([0, 0, 1, 3] : List Nat).length + 1 ≤ fuel →
        ∃ b, can_set_uids_from_graph_recursive [0, 0, 1, 3] ((0 : Nat) : Int) fuel
            ((2 : Nat) : Int) = .ok b ∧
          (b = true ↔ Reaches [0, 0, 1, 3] 0 2)) := by
  have h1 : ([0, 0, 1, 3] : List Nat).length ≤ 2147483648 := by decide
  have h2 : ∀ v ∈ ([0, 0, 1, 3] : List Nat), v < ([0, 0, 1, 3] : List Nat).length := by decide
  have h3 : 2 < ([0, 0, 1, 3] : List Nat).length := by decide
  have h4 : ∀ v, v < ([0, 0, 1, 3] : List Nat).length →
      pred_of [0, 0, 1, 3] v = v ∨ Reaches [0, 0, 1, 3] 0 v := by
    intro v hv
    simp only [List.length_cons, List.length_nil] at hv
    interval_cases v
    · exact Or.inl rfl
    · exact Or.inr ⟨1, rfl⟩
    · exact Or.inr ⟨2, rfl⟩
    · exact Or.inl rfl
  exact ⟨h1, h2, h3, h4, by decide, ⟨2, rfl⟩,
    (can_set_recursive_iff_reaches [0, 0, 1, 3] 0 2 h1 h2 h3 h4).1⟩

/-! ## The cache of `suid_privilege_is_attainable` -/

theorem attainable_step {σ : Type} (T : Tables) (cu nu : uids_t) (w : World (Mem σ))
    (hc : CacheOK T w.os.cache) :
    match can_set_suid_for_identity_change T cu nu with
    | .ok b => ∃ c, suid_privilege_is_attainable T cu nu w =
        .ret b ⟨⟨w.os.os, c⟩, w.errno, w.log⟩ ∧ CacheOK T c
    | .abort => ∃ w1, suid_privilege_is_attainable T cu nu w = .abort w1
    | .undef => ∃ w1, suid_privilege_is_attainable T cu nu w = .undef w1 := by
  unfold suid_privilege_is_attainable
  by_cases hit : w.os.cache.cached = true ∧ cu = w.os.cache.cached_cu ∧
      nu = w.os.cache.cached_nu
  · simp only [hit, and_self, if_true]
    obtain ⟨h1, h2, h3⟩ := hit
    rw [hc h1]
    exact ⟨w.os.cache, rfl, hc⟩
  · simp only [if_neg hit]
    cases h : can_set_suid_for_identity_change T cu nu with
    | ok b => exact ⟨_, rfl, fun _ => h⟩
    | abort => exact ⟨_, rfl⟩
    | undef => exact ⟨_, rfl⟩

theorem attainable_all_agrees {σ : Type} (T : Tables) (qs : List (uids_t × uids_t)) :
    ∀ (w : World (Mem σ)), CacheOK T w.os.cache →
      match can_set_suid_all T qs with
      | .ok bs => ∃ c, attainable_all T qs w = .ret bs ⟨⟨w.os.os, c⟩, w.errno, w.log⟩ ∧
          CacheOK T c
      | .abort => ∃ w1, attainable_all T qs w = .abort w1
      | .undef => ∃ w1, attainable_all T qs w = .undef w1 := by
  induction qs with
  | nil =>
    intro w hc
    exact ⟨w.os.cache, rfl, hc⟩
  | cons q qs ih =>
    intro w hc
    have hs := attainable_step T q.1 q.2 w hc
    simp only [can_set_suid_all, attainable_all, bind_apply]
    cases h : can_set_suid_for_identity_change T q.1 q.2 with
    | abort =>
      rw [h] at hs
      obtain ⟨w1, h1⟩ := hs
      rw [h1]
      exact ⟨w1, rfl⟩
    | undef =>
      rw [h] at hs
      obtain ⟨w1, h1⟩ := hs
      rw [h1]
      exact ⟨w1, rfl⟩
    | ok b =>
      rw [h] at hs
      obtain ⟨c, h1, hc1⟩ := hs
      rw [h1]
      have ih1 := ih ⟨⟨w.os.os, c⟩, w.errno, w.log⟩ hc1
      show match (can_set_suid_all T qs >>= fun bs => pure (b :: bs)) with
        | .ok bs => _
        | .abort => _
        | .undef => _
      cases h2 : can_set_suid_all T qs with
      | abort =>
        rw [h2] at ih1
        obtain ⟨w1, h3⟩ := ih1
        simp only [h3]
        exact ⟨w1, rfl⟩
      | undef =>
        rw [h2] at ih1
        obtain ⟨w1, h3⟩ := ih1
        simp only [h3]
        exact ⟨w1, rfl⟩
      | ok bs =>
        rw [h2] at ih1
        obtain ⟨c2, h3, hc2⟩ := ih1
        simp only [h3]
        exact ⟨c2, rfl, hc2⟩

theorem can_set_suid_loop_spec (T : Tables) (cur new : uids_t) (eps : List uids_t)
    (hok : ∀ p ∈ eps, (∃ v, can_set_uids_from_graph_ T cur p = .ok v) ∧
      (∃ v, can_set_uids_from_graph_ T p new = .ok v)) :
    ∃ b, can_set_suid_for_identity_change_loop T cur new eps = .ok b ∧
      (b = true ↔ ∃ p ∈ eps, can_set_uids_from_graph_ T cur p = .ok true ∧
        can_set_uids_from_graph_ T p new = .ok true) := by
  induction eps with
  | nil => exact ⟨false, rfl, by simp⟩
  | cons p eps ih =>
    obtain ⟨⟨v1, h1⟩, ⟨v2, h2⟩⟩ := hok p (List.mem_cons_self _ _)
    obtain ⟨b, hb, hiff⟩ := ih (fun q hq => hok q (List.mem_cons_of_mem _ hq))
    have hrun : can_set_suid_for_identity_change_loop T cur new (p :: eps) =
        if v1 = true then
          (if v2 = true then .ok true
            else can_set_suid_for_identity_change_loop T cur new eps)
        else can_set_suid_for_identity_change_loop T cur new eps := by
      rw [can_set_suid_for_identity_change_loop, h1]
      cases v1 with
      | false => rfl
      | true =>
        show (can_set_uids_from_graph_ T p new >>= fun b =>
          if b = true then pure true
          else can_set_suid_for_identity_change_loop T cur new eps) = _
        rw [h2]
        cases v2 <;> rfl
    rw [hrun]
    by_cases c1 : v1 = true
    · by_cases c2 : v2 = true
      · subst c1 c2
        refine ⟨true, by simp, ?_⟩
        simp only [true_iff]
        exact ⟨p, List.mem_cons_self _ _, h1, h2⟩
      · rw [if_pos c1, if_neg c2]
        refine ⟨b, hb, ?_⟩
        rw [hiff]
        constructor
        · rintro ⟨q, hq, hq1, hq2⟩
          exact ⟨q, List.mem_cons_of_mem _ hq, hq1, hq2⟩
        · rintro ⟨q, hq, hq1, hq2⟩
          rcases List.mem_cons.mp hq with e | hq
          · subst e
            rw [h2] at hq2
            cases hq2
            exact absurd rfl c2
          · exact ⟨q, hq, hq1, hq2⟩
    · rw [if_neg c1]
      refine ⟨b, hb, ?_⟩
      rw [hiff]
      constructor
      · rintro ⟨q, hq, hq1, hq2⟩
        exact ⟨q, List.mem_cons_of_mem _ hq, hq1, hq2⟩
      · rintro ⟨q, hq, hq1, hq2⟩
        rcases List.mem_cons.mp hq with e | hq
        · subst e
          rw [h1] at hq1
          cases hq1
          exact absurd rfl c1
        · exact ⟨q, hq, hq1, hq2⟩

/-- C18: from program start, whatever sequence of pairs `suid_privilege_is_attainable` is
called with, each call gives the value `can_set_suid_for_identity_change` gives for its pair
(and aborts when that function does), while kernel state, `errno` and log stay as they are;
and `can_set_suid_for_identity_change(cur, new)` is true exactly when some entry `p` of
`effective_privileged_states` has `can_set_uids_from_graph_(cur, p)` and
`can_set_uids_from_graph_(p, new)`, when these lookups fail no assertion. -/
theorem suid_privilege_is_attainable_memo {σ : Type} (T : Tables) :
    (∀ (qs : List (uids_t × uids_t)) (os : σ) (errno : Int) (log : List Call),
      Agrees (can_set_suid_all T qs)
        (attainable_all T qs ⟨⟨os, Cache.init⟩, errno, log⟩) ⟨⟨os, Cache.init⟩, errno, log⟩) ∧
    (∀ cur new : uids_t,
      (∀ p ∈ T.effective_privileged_states,
        (∃ v, can_set_uids_from_graph_ T cur p = .ok v) ∧
          (∃ v, can_set_uids_from_graph_ T p new = .ok v)) →
      ∃ b, can_set_suid_for_identity_change T cur new = .ok b ∧
        (b = true ↔ ∃ p ∈ T.effective_privileged_states,
          can_set_uids_from_graph_ T cur p = .ok true ∧
            can_set_uids_from_graph_ T p new = .ok true)) := by
  refine ⟨?_, fun cur new hok => can_set_suid_loop_spec T cur new _ hok⟩
  intro qs os errno log
  have h := attainable_all_agrees T qs (⟨⟨os, Cache.init⟩, errno, log⟩ : World (Mem σ))
    (fun hc => absurd hc Bool.false_ne_true)
  unfold Agrees
  cases hq : can_set_suid_all T qs with
  | ok bs =>
    rw [hq] at h
    obtain ⟨c, h1, _⟩ := h
    exact ⟨c, h1⟩
  | abort =>
    rw [hq] at h
    exact h
  | undef =>
    rw [hq] at h
    exact h

theorem suid_privilege_is_attainable_memo_witness :
    (∀ p ∈ ref_tables.effective_privileged_states,
        (∃ v, can_set_uids_from_graph_ ref_tables ⟨1, 1, 0⟩ p = .ok v) ∧
          (∃ v, can_set_uids_from_graph_ ref_tables p ⟨1, 1, 1⟩ = .ok v)) ∧
      can_set_suid_for_identity_change ref_tables ⟨1, 1, 0⟩ ⟨1, 1, 1⟩ = .ok true ∧
      attainable_all ref_tables [(⟨1, 1, 0⟩, ⟨1, 1, 1⟩), (⟨1, 1, 1⟩, ⟨1, 1, 0⟩),
          (⟨1, 1, 1⟩, ⟨1, 1, 0⟩), (⟨1, 1, 0⟩, ⟨1, 1, 1⟩)] ex2_suid =
        .ret [true, false, false, true]
          ⟨⟨ex2_suid.os.os, ⟨true, ⟨1, 1, 0⟩, ⟨1, 1, 1⟩, true⟩⟩, 0, []⟩ ∧
      ∃ b, can_set_suid_for_identity_change ref_tables ⟨1, 1, 0⟩ ⟨1, 1, 1⟩ = .ok b ∧
        (b = true ↔ ∃ p ∈ ref_tables.effective_privileged_states,
          can_set_uids_from_graph_ ref_tables ⟨1, 1, 0⟩ p = .ok true ∧
            can_set_uids_from_graph_ ref_tables p ⟨1, 1, 1⟩ = .ok true) :=
  ⟨by decide!, by decide!, by decide!,
    (@suid_privilege_is_attainable_memo KState ref_tables).2 ⟨1, 1, 0⟩ ⟨1, 1, 1⟩ (by decide!)⟩

/-! ## `set_uids_from_graph` executes the predecessor path -/

theorem run_uids_edges_append {σ : Type} (K : OS2 σ) (T : Tables) (p : norm_pcred_pair_t)
    (l1 l2 : List (Int × Int)) (w : World (Mem σ)) :
    run_uids_edges K T p (l1 ++ l2) w =
      (run_uids_edges K T p l1 >>= fun _ => run_uids_edges K T p l2) w := by
  induction l1 generalizing w with
  | nil => rfl
  | cons e es ih =>
    simp only [List.cons_append, run_uids_edges, bind_apply]
    cases h1 : set_uids_from_idx K T p e.1 e.2 w with
    | abort w1 => rfl
    | undef w1 => rfl
    | ret r w1 =>
      simp only []
      cases h2 : assert (decide (r = 0)) w1 with
      | abort w2 => rfl
      | undef w2 => rfl
      | ret u w2 =>
        have h3 := ih w2
        rw [bind_apply] at h3
        exact h3

theorem assert_true {σ : Type} (w : World σ) : assert true w = .ret () w := rfl

theorem set_recursive_eq_run {σ : Type} (K : OS2 σ) (T : Tables) (p : norm_pcred_pair_t)
    (pl : List Nat) (first : Int) :
    ∀ (fuel : Nat) (next : Int) (w : World (Mem σ)),
      can_set_uids_from_graph_recursive pl first fuel next = .ok true →
      set_uids_from_graph_recursive K T p pl first fuel next w =
        (run_uids_edges K T p (path_edges pl first fuel next) >>= fun _ => pure 0) w := by
  intro fuel
  induction fuel with
  | zero =>
    intro next w h
    simp [can_set_uids_from_graph_recursive] at h
  | succ fuel ih =>
    intro next w h
    rw [can_set_uids_from_graph_recursive] at h
    by_cases h0 : next < 0
    · rw [if_pos h0] at h
      cases h
    rw [if_neg h0] at h
    have h0' : decide (next ≥ 0) = true := by simpa using h0
    by_cases h1 : next = first
    · simp only [set_uids_from_graph_recursive, path_edges, bind_apply, h0', assert_true,
        if_pos h1, run_uids_edges, pure_apply]
    rw [if_neg h1] at h
    cases hv : idx pl next with
    | none =>
      rw [hv] at h
      cases h
    | some v =>
      rw [hv] at h
      simp only [] at h
      by_cases h2 : int_of_uid v = next
      · rw [if_pos h2] at h
        cases h
      rw [if_neg h2] at h
      have h2' : decide (int_of_uid v ≠ next) = true := by simpa using h2
      simp only [set_uids_from_graph_recursive, path_edges, bind_apply, h0', assert_true,
        if_neg h1, hv, h2']
      rw [ih _ w h, run_uids_edges_append, bind_apply, bind_apply]
      cases h3 : run_uids_edges K T p (path_edges pl first fuel (int_of_uid v)) w with
      | abort w1 => rfl
      | undef w1 => rfl
      | ret u w1 =>
        simp only [pure_apply, decide_True, assert_true, run_uids_edges, bind_apply]
        cases h4 : set_uids_from_idx K T p (int_of_uid v) next w1 with
        | abort w2 => rfl
        | undef w2 => rfl
        | ret r w2 =>
          simp only []
          cases h5 : assert (decide (r = 0)) w2 with
          | abort w3 => rfl
          | undef w3 => rfl
          | ret u3 w3 => rfl

theorem res_bind_ok {α β : Type} (a : α) (f : α → Res β) : (Res.ok a >>= f) = f a := rfl

theorem res_bind_abort {α β : Type} (f : α → Res β) : ((Res.abort : Res α) >>= f) = .abort := rfl

theorem res_bind_undef {α β : Type} (f : α → Res β) : ((Res.undef : Res α) >>= f) = .undef := rfl

theorem path_edges_spec (pl : List Nat) (first : Int) :
    ∀ (fuel : Nat) (next : Int),
      can_set_uids_from_graph_recursive pl first fuel next = .ok true →
      (first :: (path_edges pl first fuel next).map Prod.snd).getLast? = some next ∧
        (path_edges pl first fuel next).map Prod.fst =
          (first :: (path_edges pl first fuel next).map Prod.snd).dropLast ∧
        ∀ e ∈ path_edges pl first fuel next,
          e.1 ≠ e.2 ∧ ∃ v, idx pl e.2 = some v ∧ int_of_uid v = e.1 := by
  intro fuel
  induction fuel with
  | zero =>
    intro next h
    simp [can_set_uids_from_graph_recursive] at h
  | succ fuel ih =>
    intro next h
    rw [can_set_uids_from_graph_recursive] at h
    by_cases h0 : next < 0
    · rw [if_pos h0] at h
      cases h
    rw [if_neg h0] at h
    by_cases h1 : next = first
    · simp [path_edges, h1]
    rw [if_neg h1] at h
    cases hv : idx pl next with
    | none =>
      rw [hv] at h
      cases h
    | some v =>
      rw [hv] at h
      simp only [] at h
      by_cases h2 : int_of_uid v = next
      · rw [if_pos h2] at h
        cases h
      rw [if_neg h2] at h
      obtain ⟨i1, i2, i3⟩ := ih _ h
      simp only [path_edges, if_neg h1, hv, List.map_append, List.map_cons, List.map_nil]
      refine ⟨?_, ?_, ?_⟩
      · rw [← List.cons_append, List.getLast?_append]
        simp
      · rw [← List.cons_append, List.dropLast_concat, i2]
        exact List.dropLast_append_getLast? _ i1
      · intro e he
        rcases List.mem_append.mp he with he | he
        · exact i3 e he
        · simp only [List.mem_singleton] at he
          subst he
          exact ⟨h2, v, hv, rfl⟩

theorem set_uids_from_graph_eq_run {σ : Type} (K : OS2 σ) (T : Tables) (np : norm_pcred_pair_t)
    (h : can_set_uids_from_graph T np = .ok true) :
    ∃ (current_idx new_idx : Int) (pl : List Nat),
      get_ids_idx T np.prev.normalized.uids = .ok current_idx ∧
      get_ids_idx T np.next.normalized.uids = .ok new_idx ∧
      T.predecessor_matrix[current_idx.toNat]? = some pl ∧
      can_set_uids_from_graph_recursive pl current_idx (pl.length + 1) new_idx = .ok true ∧
      ∀ w : World (Mem σ), set_uids_from_graph K T np w =
        (run_uids_edges K T np (path_edges pl current_idx (pl.length + 1) new_idx) >>=
          fun _ => pure 0) w := by
  unfold can_set_uids_from_graph can_set_uids_from_graph_ at h
  cases hc : get_ids_idx T np.prev.normalized.uids with
  | abort =>
    rw [hc, res_bind_abort] at h
    cases h
  | undef =>
    rw [hc, res_bind_undef] at h
    cases h
  | ok ci =>
    rw [hc, res_bind_ok] at h
    cases hn : get_ids_idx T np.next.normalized.uids with
    | abort =>
      rw [hn, res_bind_abort] at h
      cases h
    | undef =>
      rw [hn, res_bind_undef] at h
      cases h
    | ok ni =>
      rw [hn, res_bind_ok] at h
      by_cases hneg : ci < 0 ∨ ni < 0
      · rw [if_pos hneg] at h
        cases h
      rw [if_neg hneg] at h
      cases hp : T.predecessor_matrix[ci.toNat]? with
      | none =>
        rw [hp] at h
        cases h
      | some pl =>
        rw [hp] at h
        simp only [] at h
        refine ⟨ci, ni, pl, rfl, rfl, hp, h, fun w => ?_⟩
        have hge : (decide (ci ≥ 0) && decide (ni ≥ 0)) = true := by
          simp only [not_or, not_lt] at hneg
          simp [hneg.1, hneg.2]
        simp only [set_uids_from_graph, bind_apply, hc, hn, Res.run, hge, assert_true, hp]
        rw [set_recursive_eq_run K T np pl ci _ ni w h, bind_apply]
        cases h3 : run_uids_edges K T np (path_edges pl ci (pl.length + 1) ni) w with
        | abort w1 => rfl
        | undef w1 => rfl
        | ret u w1 => rfl

/-- C16: when `can_set_uids_from_graph` is true for a pair, `set_uids_from_graph` is the run of
one `set_uids_from_idx` per edge of the predecessor path from the current state to the target,
first edge first, each asserted to return 0, followed by `return 0`: no assertion on the shape
of the path fails. The edges form a path from the index of the current state to that of the
target, each edge leading from the predecessor of a vertex to the vertex; for an edge whose
cell of `adjacency_matrix` holds calls, `set_uids_from_idx` executes the first of them; and
when the two states have the same index nothing is executed and 0 is returned. -/
theorem set_uids_from_graph_runs_path {σ : Type} (K : OS2 σ) (T : Tables)
    (np : norm_pcred_pair_t) (h : can_set_uids_from_graph T np = .ok true) :
    ∃ (current_idx new_idx : Int) (pl : List Nat) (es : List (Int × Int)),
      get_ids_idx T np.prev.normalized.uids = .ok current_idx ∧
      get_ids_idx T np.next.normalized.uids = .ok new_idx ∧
      T.predecessor_matrix[current_idx.toNat]? = some pl ∧
      es = path_edges pl current_idx (pl.length + 1) new_idx ∧
      (∀ w : World (Mem σ), set_uids_from_graph K T np w =
        (run_uids_edges K T np es >>= fun _ => pure 0) w) ∧
      (current_idx :: es.map Prod.snd).getLast? = some new_idx ∧
      es.map Prod.fst = (current_idx :: es.map Prod.snd).dropLast ∧
      (∀ e ∈ es, e.1 ≠ e.2 ∧ ∃ v, idx pl e.2 = some v ∧ int_of_uid v = e.1) ∧
      (∀ e ∈ es, ∀ c rest, adjacency_cell T e.1 e.2 = some (some (c :: rest)) →
        set_uids_from_idx K T np e.1 e.2 = execute_uids_function_from_array K np c) ∧
      (current_idx = new_idx → es = [] ∧
        ∀ w : World (Mem σ), set_uids_from_graph K T np w = .ret 0 w) := by
  obtain ⟨ci, ni, pl, hc, hn, hp, hrec, hrun⟩ := set_uids_from_graph_eq_run K T np h
  obtain ⟨p1, p2, p3⟩ := path_edges_spec pl ci _ ni hrec
  refine ⟨ci, ni, pl, _, hc, hn, hp, rfl, hrun, p1, p2, p3, ?_, ?_⟩
  · intro e _ c rest hcell
    unfold set_uids_from_idx
    rw [hcell]
  · intro heq
    have hnil : path_edges pl ci (pl.length + 1) ni = [] := by
      simp [path_edges, heq]
    refine ⟨hnil, fun w => ?_⟩
    rw [hrun w, hnil]
    rfl

theorem set_uids_from_graph_runs_path_witness :
    can_set_uids_from_graph ref_tables ex_np = .ok true ∧
      set_uids_from_graph ref_os2 ref_tables ex_np ex2_suid =
        .ret 0 ⟨⟨⟨⟨2000, 2000, 2000⟩, ⟨100, 100, 100⟩, 2000, 100, [4, 24]⟩, Cache.init⟩, 0,
          [.setuid 0, .setuid 2000]⟩ ∧
      path_edges [12, 12, 9, 12, 12, 9, 9, 9, 9, 12, 12, 9, 12, 12, 9, 9, 9, 9, 9, 9, 9, 9, 9, 9,
          9, 9, 9] 12 28 26 = [(12, 9), (9, 26)] ∧
      ∃ (current_idx new_idx : Int) (pl : List Nat) (es : List (Int × Int)),
        get_ids_idx ref_tables ex_np.prev.normalized.uids = .ok current_idx ∧
        get_ids_idx ref_tables ex_np.next.normalized.uids = .ok new_idx ∧
        ref_tables.predecessor_matrix[current_idx.toNat]? = some pl ∧
        es = path_edges pl current_idx (pl.length + 1) new_idx ∧
        ∀ w : World (Mem KState), set_uids_from_graph ref_os2 ref_tables ex_np w =
          (run_uids_edges ref_os2 ref_tables ex_np es >>= fun _ => pure 0) w :=
  ⟨by decide!, by decide!, by decide!, by
    obtain ⟨ci, ni, pl, es, h1, h2, h3, h4, h5, _⟩ :=
      set_uids_from_graph_runs_path ref_os2 ref_tables ex_np (by decide!)
    exact ⟨ci, ni, pl, es, h1, h2, h3, h4, h5⟩⟩

/-! ## `normalize_uids` and `map_uids_params` -/

theorem normalize_lookup_spec (ids : List (Option Nat)) (seen : List Nat) (id : Nat)
    (hids : ∀ i, i < seen.length → ids[i]? = some seen[i]?) :
    ∀ k i, i + k = seen.length →
      normalize_lookup ids id k i =
        .ok (if id ∈ seen.drop i then some (i + (seen.drop i).indexOf id + 1) else none) := by
  intro k
  induction k with
  | zero =>
    intro i hi
    have : seen.drop i = [] := List.drop_eq_nil_of_le (by omega)
    simp [normalize_lookup, this]
  | succ k ih =>
    intro i hi
    have hlt : i < seen.length := by omega
    have hd : seen.drop i = seen[i] :: seen.drop (i + 1) := List.drop_eq_getElem_cons hlt
    rw [normalize_lookup, hids i hlt, List.getElem?_eq_getElem hlt, hd]
    simp only []
    by_cases hv : seen[i] = id
    · rw [if_pos hv]
      simp [hv]
    · rw [if_neg hv, ih (i + 1) (by omega)]
      have hne : id ≠ seen[i] := fun e => hv e.symm
      by_cases hm : id ∈ seen.drop (i + 1)
      · simp only [hm, if_true, List.mem_cons, or_true, List.indexOf_cons_ne _ hv]
        congr 2
        omega
      · rw [if_neg hm, if_neg]
        rw [List.mem_cons]
        exact fun h => h.elim hne hm

theorem mapHolds_new : MapHolds new_uids_map [] := by
  refine ⟨rfl, rfl, List.nodup_nil, ?_, ?_⟩
  · intro v hv
    cases hv
  · intro i hi
    cases hi

theorem seen_after_prefix (seen : List Nat) (id : Nat) :
    ∃ t, seen_after seen id = seen ++ t := by
  unfold seen_after
  split_ifs
  · exact ⟨[], by simp⟩
  · exact ⟨[id], rfl⟩

theorem seen_all_prefix (vals : List Nat) : ∀ seen, ∃ t, seen_all seen vals = seen ++ t := by
  induction vals with
  | nil => exact fun seen => ⟨[], by simp [seen_all]⟩
  | cons v vs ih =>
    intro seen
    obtain ⟨t1, h1⟩ := seen_after_prefix seen v
    obtain ⟨t2, h2⟩ := ih (seen_after seen v)
    refine ⟨t1 ++ t2, ?_⟩
    have : seen_all seen (v :: vs) = seen_all (seen_after seen v) vs := rfl
    rw [this, h2, h1, List.append_assoc]

theorem mem_seen_after (seen : List Nat) (id x : Nat) :
    x ∈ seen_after seen id ↔ x ∈ seen ∨ (x = id ∧ x ≠ 0 ∧ x ≠ NEG1) := by
  unfold seen_after
  split_ifs with h
  · constructor
    · exact Or.inl
    · rintro (h1 | ⟨h1, h2, h3⟩)
      · exact h1
      · subst h1
        rcases h with h | h | h
        · exact absurd h h3
        · exact absurd h h2
        · exact h
  · simp only [not_or] at h
    simp only [List.mem_append, List.mem_singleton]
    constructor
    · rintro (h1 | h1)
      · exact Or.inl h1
      · subst h1
        exact Or.inr ⟨rfl, h.2.1, h.1⟩
    · rintro (h1 | ⟨h1, _, _⟩)
      · exact Or.inl h1
      · exact Or.inr h1

theorem mem_seen_all (vals : List Nat) : ∀ (seen : List Nat) (x : Nat),
    x ∈ seen_all seen vals ↔ x ∈ seen ∨ (x ∈ vals ∧ x ≠ 0 ∧ x ≠ NEG1) := by
  induction vals with
  | nil => intro seen x; simp [seen_all]
  | cons v vs ih =>
    intro seen x
    have : seen_all seen (v :: vs) = seen_all (seen_after seen v) vs := rfl
    rw [this, ih, mem_seen_after]
    simp only [List.mem_cons]
    tauto

theorem nodup_seen_after (seen : List Nat) (id : Nat) (h : seen.Nodup) :
    (seen_after seen id).Nodup := by
  unfold seen_after
  split_ifs with hc
  · exact h
  · simp only [not_or] at hc
    exact List.Nodup.append h (List.nodup_singleton _) (by
      intro a ha hb
      simp only [List.mem_singleton] at hb
      subst hb
      exact hc.2.2 ha)

theorem nodup_seen_all (vals : List Nat) : ∀ seen : List Nat, seen.Nodup →
    (seen_all seen vals).Nodup := by
  induction vals with
  | nil => exact fun seen h => h
  | cons v vs ih => exact fun seen h => ih _ (nodup_seen_after seen v h)

theorem seen_all_length (vals : List Nat) :
    (seen_all [] vals).length =
      ((vals.filter fun v => decide (v ≠ 0 ∧ v ≠ NEG1)).dedup).length := by
  rw [← List.toFinset_card_of_nodup (nodup_seen_all vals [] List.nodup_nil),
    ← List.card_toFinset]
  congr 1
  ext x
  simp only [List.mem_toFinset, mem_seen_all, List.not_mem_nil, false_or, List.mem_filter,
    decide_eq_true_eq]

theorem norm_code_append (seen t : List Nat) (id : Nat)
    (h : id = NEG1 ∨ id = 0 ∨ id ∈ seen) : norm_code (seen ++ t) id = norm_code seen id := by
  unfold norm_code
  rcases h with h | h | h
  · rw [if_pos h, if_pos h]
  · by_cases h1 : id = NEG1
    · rw [if_pos h1, if_pos h1]
    · rw [if_neg h1, if_neg h1, if_pos h, if_pos h]
  · rw [List.indexOf_append_of_mem h]

theorem normalize_single_uids_spec (map : uids_map_t) (seen : List Nat) (id : Nat)
    (hm : MapHolds map seen) (hlen : (seen_after seen id).length < ID_MAP_SIZE) :
    ∃ map1, normalize_single_uids map id = .ok (norm_code (seen_after seen id) id, map1) ∧
      MapHolds map1 (seen_after seen id) := by
  obtain ⟨hc, hl, hnd, hne, hids⟩ := hm
  unfold normalize_single_uids
  by_cases h1 : id = NEG1
  · rw [if_pos h1]
    refine ⟨map, ?_, ?_⟩
    · simp [norm_code, h1]
    · simpa [seen_after, h1] using ⟨hc, hl, hnd, hne, hids⟩
  rw [if_neg h1]
  by_cases h0 : id = 0
  · rw [if_pos h0]
    refine ⟨map, ?_, ?_⟩
    · simp [norm_code, h0, h1, NEG1]
    · simpa [seen_after, h0] using ⟨hc, hl, hnd, hne, hids⟩
  rw [if_neg h0]
  have hlook := normalize_lookup_spec map.ids seen id hids map.counter 0 (by omega)
  simp only [List.drop_zero, Nat.zero_add] at hlook
  rw [hlook]
  by_cases hmem : id ∈ seen
  · simp only [if_pos hmem]
    refine ⟨map, ?_, ?_⟩
    · simp [norm_code, seen_after, h0, h1, hmem]
    · simpa [seen_after, hmem] using ⟨hc, hl, hnd, hne, hids⟩
  · simp only [if_neg hmem]
    have hsa : seen_after seen id = seen ++ [id] := by
      simp [seen_after, h0, h1, hmem]
    rw [hsa] at hlen ⊢
    simp only [List.length_append, List.length_singleton] at hlen
    have hcl : map.counter < map.ids.length := by
      rw [hc, hl]
      omega
    have hc1 : map.counter + 1 < ID_MAP_SIZE := by
      rw [hc]
      exact hlen
    rw [if_pos hcl, if_pos hc1]
    refine ⟨⟨map.counter + 1, map.ids.set map.counter (some id)⟩, ?_, ?_⟩
    · simp [norm_code, h0, h1, List.indexOf_append_of_not_mem hmem, hc]
    unfold MapHolds
    refine ⟨?_, ?_, ?_, ?_, ?_⟩
    · simp [hc]
    · simp [hl]
    · exact List.Nodup.append hnd (List.nodup_singleton _) (by
        intro a ha hb
        simp only [List.mem_singleton] at hb
        subst hb
        exact hmem ha)
    · intro v hv
      rcases List.mem_append.mp hv with hv | hv
      · exact hne v hv
      · simp only [List.mem_singleton] at hv
        subst hv
        exact ⟨h0, h1⟩
    · intro i hi
      simp only [List.length_append, List.length_singleton] at hi
      by_cases hie : i = seen.length
      · subst hie
        rw [hc, List.getElem?_set_self (by rw [← hc]; exact hcl),
          List.getElem?_concat_length]
      · have hil : i < seen.length := by omega
        rw [List.getElem?_set_ne (by rw [hc]; exact fun e => hie e.symm), hids i hil,
          List.getElem?_append_left hil]

theorem normalize_list_spec (vals : List Nat) :
    ∀ (map : uids_map_t) (seen : List Nat), MapHolds map seen →
      (seen_all seen vals).length < ID_MAP_SIZE →
      ∃ map1, normalize_list map vals =
          .ok (vals.map (norm_code (seen_all seen vals)), map1) ∧
        MapHolds map1 (seen_all seen vals) := by
  induction vals with
  | nil =>
    intro map seen hm _
    exact ⟨map, rfl, hm⟩
  | cons v vs ih =>
    intro map seen hm hlen
    have hsa : seen_all seen (v :: vs) = seen_all (seen_after seen v) vs := rfl
    rw [hsa] at hlen ⊢
    obtain ⟨t, ht⟩ := seen_all_prefix vs (seen_after seen v)
    have hlen1 : (seen_after seen v).length < ID_MAP_SIZE := by
      have := congrArg List.length ht
      simp only [List.length_append] at this
      omega
    obtain ⟨map1, h1, hm1⟩ := normalize_single_uids_spec map seen v hm hlen1
    obtain ⟨map2, h2, hm2⟩ := ih map1 _ hm1 hlen
    refine ⟨map2, ?_, hm2⟩
    rw [normalize_list, h1, res_bind_ok, h2, res_bind_ok]
    have hv : v = NEG1 ∨ v = 0 ∨ v ∈ seen_after seen v := by
      by_cases c1 : v = NEG1
      · exact Or.inl c1
      by_cases c0 : v = 0
      · exact Or.inr (Or.inl c0)
      exact Or.inr (Or.inr ((mem_seen_after seen v v).mpr (Or.inr ⟨rfl, c0, c1⟩)))
    have hcode : norm_code (seen_after seen v) v =
        norm_code (seen_all (seen_after seen v) vs) v := by
      rw [ht, norm_code_append _ _ _ hv]
    simp only [List.map_cons, hcode]
    rfl

theorem res_bind_ok_inv {α β : Type} {m : Res α} {f : α → Res β} {b : β}
    (h : (m >>= f) = .ok b) : ∃ a, m = .ok a ∧ f a = .ok b := by
  cases m with
  | ok a => exact ⟨a, rfl, h⟩
  | abort => cases h
  | undef => cases h

theorem normalize_list_cons_inv {map map1 : uids_map_t} {v : Nat} {vs ns : List Nat}
    (h : normalize_list map (v :: vs) = .ok (ns, map1)) :
    ∃ n map0 ns0, normalize_single_uids map v = .ok (n, map0) ∧
      normalize_list map0 vs = .ok (ns0, map1) ∧ ns = n :: ns0 := by
  rw [normalize_list] at h
  obtain ⟨a, h1, h2⟩ := res_bind_ok_inv h
  obtain ⟨r, h3, h4⟩ := res_bind_ok_inv h2
  cases h4
  exact ⟨a.1, a.2, r.1, h1, h3, rfl⟩

theorem normalize_uids_of_list (p : pcred_pair_t) (ns : List Nat) (map : uids_map_t)
    (h : normalize_list new_uids_map (uids_of_pair p) = .ok (ns, map)) :
    ∃ d, normalize_uids p = .ok d ∧ uids_of_norm d = ns ∧ d.map = map := by
  unfold uids_of_pair at h
  obtain ⟨n1, m1, l1, h1, g1, e1⟩ := normalize_list_cons_inv h
  obtain ⟨n2, m2, l2, h2, g2, e2⟩ := normalize_list_cons_inv g1
  obtain ⟨n3, m3, l3, h3, g3, e3⟩ := normalize_list_cons_inv g2
  obtain ⟨n4, m4, l4, h4, g4, e4⟩ := normalize_list_cons_inv g3
  obtain ⟨n5, m5, l5, h5, g5, e5⟩ := normalize_list_cons_inv g4
  obtain ⟨n6, m6, l6, h6, g6, e6⟩ := normalize_list_cons_inv g5
  rw [normalize_list] at g6
  cases g6
  subst e6 e5 e4 e3 e2 e1
  refine ⟨⟨⟨⟨n1, n2, n3⟩, ⟨n4, n5, n6⟩⟩, _⟩, ?_, rfl, rfl⟩
  unfold normalize_uids
  simp only [h1, res_bind_ok, h2, h3, h4, h5, h6]
  rfl

theorem norm_code_range (seen : List Nat) (v : Nat) (hv : v ≠ 0) (hn : v ≠ NEG1)
    (hm : v ∈ seen) : 1 ≤ norm_code seen v ∧ norm_code seen v ≤ seen.length := by
  unfold norm_code
  rw [if_neg hn, if_neg hv]
  have := List.indexOf_lt_length.mpr hm
  omega

theorem norm_code_inj (seen : List Nat) (hlen : seen.length < ID_MAP_SIZE) (a b : Nat)
    (ha : a = NEG1 ∨ a = 0 ∨ a ∈ seen) (hb : b = NEG1 ∨ b = 0 ∨ b ∈ seen)
    (hs : ∀ v ∈ seen, v ≠ 0 ∧ v ≠ NEG1)
    (h : norm_code seen a = norm_code seen b) : a = b := by
  have hsz : seen.length < 6 := hlen
  have key : ∀ v, v ≠ NEG1 → v ≠ 0 → v ∈ seen →
      norm_code seen v = seen.indexOf v + 1 ∧ seen.indexOf v < 6 := by
    intro v h1 h2 h3
    refine ⟨by simp [norm_code, h1, h2], ?_⟩
    have := List.indexOf_lt_length.mpr h3
    omega
  have c1 : norm_code seen NEG1 = NEG1 := by simp [norm_code]
  have c0 : norm_code seen 0 = 0 := by simp [norm_code, NEG1]
  have hN : NEG1 = 4294967295 := rfl
  rcases ha with ha | ha | ha <;> rcases hb with hb | hb | hb
  · rw [ha, hb]
  · rw [ha, hb, c1, c0] at h
    rw [hN] at h
    omega
  · obtain ⟨k1, k2⟩ := key b (hs b hb).2 (hs b hb).1 hb
    rw [ha, c1, k1, hN] at h
    omega
  · rw [ha, hb, c1, c0] at h
    rw [hN] at h
    omega
  · rw [ha, hb]
  · obtain ⟨k1, k2⟩ := key b (hs b hb).2 (hs b hb).1 hb
    rw [ha, c0, k1] at h
    omega
  · obtain ⟨k1, k2⟩ := key a (hs a ha).2 (hs a ha).1 ha
    rw [hb, c1, k1, hN] at h
    omega
  · obtain ⟨k1, k2⟩ := key a (hs a ha).2 (hs a ha).1 ha
    rw [hb, c0, k1] at h
    omega
  · obtain ⟨k1, _⟩ := key a (hs a ha).2 (hs a ha).1 ha
    obtain ⟨k3, _⟩ := key b (hs b hb).2 (hs b hb).1 hb
    rw [k1, k3] at h
    exact (List.indexOf_inj ha hb).mp (by omega)

theorem map_uids_param_norm_code (map : uids_map_t) (seen : List Nat) (hm : MapHolds map seen)
    (hlen : seen.length < ID_MAP_SIZE) (v : Nat) (hv : v = NEG1 ∨ v = 0 ∨ v ∈ seen) :
    map_uids_param map (norm_code seen v) = .ok v := by
  obtain ⟨hc, hl, hnd, hne, hids⟩ := hm
  have hsz : seen.length < 6 := hlen
  have hN : NEG1 = 4294967295 := rfl
  by_cases h1 : v = NEG1
  · subst h1
    simp [norm_code, map_uids_param, NEG1]
  by_cases h0 : v = 0
  · subst h0
    simp [norm_code, map_uids_param, NEG1]
  have hmem : v ∈ seen := by
    rcases hv with h | h | h
    · exact absurd h h1
    · exact absurd h h0
    · exact h
  have hi := List.indexOf_lt_length.mpr hmem
  have hcode : norm_code seen v = seen.indexOf v + 1 := by simp [norm_code, h1, h0]
  rw [hcode]
  unfold map_uids_param
  have e1 : ¬ (seen.indexOf v + 1 = 0) := by omega
  have e2 : ¬ (seen.indexOf v + 1 = NEG1) := by
    rw [hN]
    omega
  rw [if_neg e1, if_neg e2]
  simp only [Nat.add_sub_cancel]
  rw [int_of_uid_of_lt _ (by omega)]
  have e3 : ((seen.indexOf v : Nat) : Int) < (ID_MAP_SIZE : Int) := by
    have : ID_MAP_SIZE = 6 := rfl
    rw [this]
    omega
  have e4 : ¬ (((seen.indexOf v : Nat) : Int) < 0) := by omega
  rw [if_pos e3, if_neg e4, Int.toNat_ofNat, hids _ hi, List.getElem?_eq_getElem hi,
    List.getElem_indexOf hi]
  simp only []
  rw [if_pos (by omega)]

theorem mem_vals_seen (vals : List Nat) (v : Nat) (hv : v ∈ vals) :
    v = NEG1 ∨ v = 0 ∨ v ∈ seen_all [] vals := by
  by_cases h1 : v = NEG1
  · exact Or.inl h1
  by_cases h0 : v = 0
  · exact Or.inr (Or.inl h0)
  exact Or.inr (Or.inr ((mem_seen_all vals [] v).mpr (Or.inr ⟨hv, h0, h1⟩)))

theorem map_uids_params_three (map : uids_map_t) (a b c x y z : Nat)
    (ha : map_uids_param map a = .ok x) (hb : map_uids_param map b = .ok y)
    (hc : map_uids_param map c = .ok z) :
    map_uids_params map 3 [a, b, c] = .ok [x, y, z] := by
  simp only [map_uids_params, map_uids_params_loop, List.getElem?_cons_zero,
    List.getElem?_cons_succ, ha, hb, hc, res_bind_ok]
  rfl

/-- C17: for a pair with fewer than `ID_MAP_SIZE` distinct uids other than 0 and `-1`,
`normalize_uids` returns, and the six normalized uids are the images of the six uids under one
function `f` with `f 0 = 0` and `f (-1) = -1` that sends every other uid of the pair to a
value from 1 up to the number of distinct such uids and is injective on the uids of the
pair; with the map `normalize_uids` returns, `map_uids_params` sends each normalized value
back to the uid (for the triple of the current state and for that of the target). -/
theorem normalize_uids_roundtrip (p : pcred_pair_t) (h : distinct_uids p < ID_MAP_SIZE) :
    ∃ (d : uids_norm_data_t) (f : Nat → Nat),
      normalize_uids p = .ok d ∧
      uids_of_norm d = (uids_of_pair p).map f ∧
      f 0 = 0 ∧ f NEG1 = NEG1 ∧
      (∀ v ∈ uids_of_pair p, v ≠ 0 → v ≠ NEG1 → 1 ≤ f v ∧ f v ≤ distinct_uids p) ∧
      (∀ a ∈ uids_of_pair p, ∀ b ∈ uids_of_pair p, f a = f b → a = b) ∧
      (∀ v ∈ uids_of_pair p, map_uids_param d.map (f v) = .ok v) ∧
      map_uids_params d.map 3 [d.pair.prev.r, d.pair.prev.e, d.pair.prev.s] =
        .ok [p.prev.uids.r, p.prev.uids.e, p.prev.uids.s] ∧
      map_uids_params d.map 3 [d.pair.next.r, d.pair.next.e, d.pair.next.s] =
        .ok [p.next.uids.r, p.next.uids.e, p.next.uids.s] := by
  have hlen : (seen_all [] (uids_of_pair p)).length = distinct_uids p :=
    seen_all_length (uids_of_pair p)
  have hlt : (seen_all [] (uids_of_pair p)).length < ID_MAP_SIZE := by
    rw [hlen]
    exact h
  obtain ⟨map1, hlist, hm1⟩ :=
    normalize_list_spec (uids_of_pair p) new_uids_map [] mapHolds_new hlt
  obtain ⟨d, hd, hnorm, hmap⟩ := normalize_uids_of_list p _ map1 hlist
  subst hmap
  have hinv : ∀ v ∈ uids_of_pair p,
      map_uids_param d.map (norm_code (seen_all [] (uids_of_pair p)) v) = .ok v :=
    fun v hv => map_uids_param_norm_code d.map _ hm1 hlt v (mem_vals_seen _ v hv)
  have hvals : uids_of_norm d =
      (uids_of_pair p).map (norm_code (seen_all [] (uids_of_pair p))) := hnorm
  refine ⟨d, norm_code (seen_all [] (uids_of_pair p)), hd, hvals, ?_, ?_, ?_, ?_, hinv, ?_, ?_⟩
  · simp [norm_code, NEG1]
  · simp [norm_code]
  · intro v hv h0 h1
    rw [← hlen]
    exact norm_code_range _ v h0 h1 ((mem_seen_all _ [] v).mpr (Or.inr ⟨hv, h0, h1⟩))
  · intro a ha b hb hab
    exact norm_code_inj _ hlt a b (mem_vals_seen _ a ha) (mem_vals_seen _ b hb) hm1.2.2.2.1 hab
  · simp only [uids_of_norm, uids_of_pair, List.map_cons, List.map_nil, List.cons.injEq,
      and_true] at hvals
    obtain ⟨e1, e2, e3, _, _, _⟩ := hvals
    rw [e1, e2, e3]
    exact map_uids_params_three d.map _ _ _ _ _ _
      (hinv _ (by simp [uids_of_pair])) (hinv _ (by simp [uids_of_pair]))
      (hinv _ (by simp [uids_of_pair]))
  · simp only [uids_of_norm, uids_of_pair, List.map_cons, List.map_nil, List.cons.injEq,
      and_true] at hvals
    obtain ⟨_, _, _, e4, e5, e6⟩ := hvals
    rw [e4, e5, e6]
    exact map_uids_params_three d.map _ _ _ _ _ _
      (hinv _ (by simp [uids_of_pair])) (hinv _ (by simp [uids_of_pair]))
      (hinv _ (by simp [uids_of_pair]))

theorem normalize_uids_roundtrip_witness :
    distinct_uids ⟨⟨⟨1000, 0, 2000⟩, ⟨100, 100, 100⟩, ⟨[], 0⟩⟩,
        ⟨⟨3000, NEG1, 1000⟩, ⟨100, 100, 100⟩, ⟨[], 0⟩⟩⟩ < ID_MAP_SIZE ∧
      normalize_uids ⟨⟨⟨1000, 0, 2000⟩, ⟨100, 100, 100⟩, ⟨[], 0⟩⟩,
          ⟨⟨3000, NEG1, 1000⟩, ⟨100, 100, 100⟩, ⟨[], 0⟩⟩⟩ =
        .ok ⟨⟨⟨1, 0, 2⟩, ⟨3, NEG1, 1⟩⟩,
          ⟨3, [some 1000, some 2000, some 3000, none, none, none]⟩⟩ ∧
      map_uids_params ⟨3, [some 1000, some 2000, some 3000, none, none, none]⟩ 3 [3, NEG1, 1] =
        .ok [3000, NEG1, 1000] ∧
      ∃ (d : uids_norm_data_t) (f : Nat → Nat),
        normalize_uids ⟨⟨⟨1000, 0, 2000⟩, ⟨100, 100, 100⟩, ⟨[], 0⟩⟩,
          ⟨⟨3000, NEG1, 1000⟩, ⟨100, 100, 100⟩, ⟨[], 0⟩⟩⟩ = .ok d ∧
        uids_of_norm d = (uids_of_pair ⟨⟨⟨1000, 0, 2000⟩, ⟨100, 100, 100⟩, ⟨[], 0⟩⟩,
          ⟨⟨3000, NEG1, 1000⟩, ⟨100, 100, 100⟩, ⟨[], 0⟩⟩⟩).map f ∧
        f 0 = 0 ∧ f NEG1 = NEG1 :=
  ⟨by decide, by decide, by decide, by
    obtain ⟨d, f, h1, h2, h3, h4, _⟩ := normalize_uids_roundtrip
      ⟨⟨⟨1000, 0, 2000⟩, ⟨100, 100, 100⟩, ⟨[], 0⟩⟩,
        ⟨⟨3000, NEG1, 1000⟩, ⟨100, 100, 100⟩, ⟨[], 0⟩⟩⟩ (by decide)
    exact ⟨d, f, h1, h2, h3, h4⟩⟩

/-! ## `cmp_gid`, `eql_sups` and the lookups of `priv2_graph.c` at concrete inputs -/

/-- C21 (code defect): for the strictly ascending lists 5, 7 (current) and 7, 9 (target), of
equal size, and the effective gid 5, `eql_sups` skips the effective gid at `j = 0`, finds
`cursups->list[1]` equal to `targetsups->list[0]`, and in the next iteration, at `i = 1` and
`j = 2`, reads `cursups->list[2]` although `cursups->size` is 2. -/
theorem eql_sups_reads_past_end :
    List.Pairwise (fun a b : Nat => a < b) [5, 7] ∧
      List.Pairwise (fun a b : Nat => a < b) [7, 9] ∧
      (∀ fuel, eql_sups_loop [5, 7] [7, 9] 2 5 (fuel + 3) 0 0 =
        eql_sups_loop [5, 7] [7, 9] 2 5 (fuel + 1) 1 2) ∧
      idx [5, 7] 2 = none ∧
      (∀ fuel, eql_sups_loop [5, 7] [7, 9] 2 5 (fuel + 1) 1 2 = none) ∧
      eql_sups_pure 5 ⟨[5, 7], 2⟩ ⟨[7, 9], 2⟩ = none ∧
      eql_sups ref_os ⟨[5, 7], 2⟩ ⟨[7, 9], 2⟩ (ref_world 1000 1000 1000 5 [5, 7]) =
        .undef (ref_world 1000 1000 1000 5 [5, 7]) := by
  refine ⟨by decide, by decide, ?_, by decide, ?_, by decide, by decide⟩
  · intro fuel
    rw [eql_sups_loop, eql_sups_loop]
    simp [idx]
  · intro fuel
    rw [eql_sups_loop]
    simp [idx]

/-- C22 (code defect): `normalize_single_gids` fails its assertion at the third distinct gid,
with three of the `ID_MAP_SIZE` entries of the map still free, where `normalize_single_uids`
returns 3; so `change_identity_permanently` to gid 300 aborts for a process with real gid 100
and effective and saved gid 200. -/
theorem normalize_gids_aborts_at_third_gid :
    2 + 1 < ID_MAP_SIZE ∧
      normalize_single_gids ⟨2, [some 100, some 200, some NEG1, none, none, none]⟩ 300 =
        .abort ∧
      normalize_single_uids ⟨2, [some 100, some 200, some NEG1, none, none, none]⟩ 300 =
        .ok (3, ⟨3, [some 100, some 200, some 300, none, none, none]⟩) ∧
      get_normalized_pcred_pair ref_tables
          ⟨⟨⟨0, 0, 0⟩, ⟨100, 200, 200⟩, ⟨[4, 24], 2⟩⟩,
            ⟨⟨1000, 1000, 1000⟩, ⟨300, 300, 300⟩, ⟨[4, 24], 2⟩⟩⟩ ex2_three =
        .abort ⟨⟨ex2_three.os.os, ⟨true, ⟨0, 0, 0⟩, ⟨0, 0, 0⟩, true⟩⟩, 0, []⟩ ∧
      change_identity_permanently ref_os2 ref_tables ex_third ex2_three =
        .abort ⟨⟨ex2_three.os.os, ⟨true, ⟨0, 0, 0⟩, ⟨0, 0, 0⟩, true⟩⟩, 0, []⟩ := by
  decide!

/-- C23 (code defect): `get_normalized_pcred_pair` asks `suid_privilege_is_attainable` about
the normalized current uids twice, not about the current and the target uids. With tables in
which no state leads to the target `(2, 2, 2)` (index 26), the answer for current and target,
`(1, 1, 0)` and `(2, 2, 2)`, is false, the answer for `(1, 1, 0)` and `(1, 1, 0)` is true, and
the previous effective gid is normalized to 0. -/
theorem normalized_pair_asks_about_current_twice :
    can_set_suid_for_identity_change (cut_tables 26) ⟨1, 1, 0⟩ ⟨2, 2, 2⟩ = .ok false ∧
      can_set_suid_for_identity_change (cut_tables 26) ⟨1, 1, 0⟩ ⟨1, 1, 0⟩ = .ok true ∧
      normalize_uids ex_cut_pair =
        .ok ⟨⟨⟨1, 1, 0⟩, ⟨2, 2, 2⟩⟩, ⟨2, [some 1000, some 2000, some NEG1, none, none, none]⟩⟩ ∧
      get_normalized_pcred_pair (cut_tables 26) ex_cut_pair ex2_suid =
        .ret ⟨⟨⟨⟨1000, 1000, 0⟩, ⟨100, 100, 100⟩⟩, ⟨⟨1, 1, 0⟩, ⟨1, 0, 1⟩⟩, ⟨[4, 24], 2⟩⟩,
            ⟨⟨⟨2000, 2000, 2000⟩, ⟨100, 100, 100⟩⟩, ⟨⟨2, 2, 2⟩, ⟨1, 1, 1⟩⟩, ⟨[4, 24], 2⟩⟩,
            ⟨2, [some 1000, some 2000, some NEG1, none, none, none]⟩,
            ⟨1, [some 100, some NEG1, some NEG1, none, none, none]⟩⟩
          ⟨⟨ex2_suid.os.os, ⟨true, ⟨1, 1, 0⟩, ⟨1, 1, 0⟩, true⟩⟩, 0, []⟩ := by
  decide!

/-- C24 (code defect): `get_ids_idx` returns -1 without a lookup only for the triple whose
three components are all `-1`; for every other triple, such as `(-1, 0, 0)`, it calls
`state_idx_lookup`, which for the reference tables fails its assertion. -/
theorem get_ids_idx_looks_up_neg_one :
    NEG_ONE_IS_SUPPORTED = false ∧
      (∀ T : Tables, get_ids_idx T ⟨NEG1, NEG1, NEG1⟩ = .ok (-1)) ∧
      (∀ (T : Tables) (u : uids_t),
        get_ids_idx T u =
          if u.r = NEG1 ∧ u.e = NEG1 ∧ u.s = NEG1 then .ok (-1)
          else
            match T.state_idx_lookup u.r u.e u.s with
            | none => .abort
            | some state_idx => .ok state_idx) ∧
      (∀ T : Tables, get_ids_idx T ⟨NEG1, 0, 0⟩ =
        match T.state_idx_lookup NEG1 0 0 with
        | none => .abort
        | some state_idx => .ok state_idx) ∧
      get_ids_idx ref_tables ⟨NEG1, 0, 0⟩ = .abort ∧
      can_set_uids_from_graph_ ref_tables ⟨NEG1, 0, 0⟩ ⟨0, 0, 0⟩ = .abort := by
  refine ⟨rfl, fun T => rfl, ?_, fun T => rfl, by decide, by decide⟩
  intro T u
  unfold get_ids_idx
  by_cases h1 : u.r = NEG1 <;> by_cases h2 : u.e = NEG1 <;> by_cases h3 : u.s = NEG1 <;>
    simp [h1, h2, h3, NEG_ONE_IS_SUPPORTED]

/-- The sign of `cmp_gid` is that of the order of the gids when they are less than `2^31`
apart. -/
theorem cmp_gid_sign_of_close (x y : Nat) (hx : x < 4294967296) (hy : y < 4294967296)
    (hxy : x < y + 2147483648) (hyx : y < x + 2147483648) :
    (cmp_gid x y < 0 ↔ x < y) ∧ (cmp_gid x y = 0 ↔ x = y) ∧ (0 < cmp_gid x y ↔ y < x) := by
  unfold cmp_gid
  simp only [Nat.mod_eq_of_lt hx, Nat.mod_eq_of_lt hy]
  by_cases h : y ≤ x
  · have e : (x + 4294967296 - y) % 4294967296 = x - y := by
      have : x + 4294967296 - y = (x - y) + 4294967296 := by omega
      rw [this, Nat.add_mod_right, Nat.mod_eq_of_lt (by omega)]
    rw [e, if_pos (by omega)]
    omega
  · have e : (x + 4294967296 - y) % 4294967296 = x + 4294967296 - y :=
      Nat.mod_eq_of_lt (by omega)
    rw [e, if_neg (by omega)]
    omega

/-- C28 (code defect): `cmp_gid` reports the wrong sign for gids `2^31` or more apart: it puts
2147483649 before 0, it puts each of 0 and 2147483648 before the other, and it orders 0,
1500000000 and 3000000000 in a cycle, so it is no total order. -/
theorem cmp_gid_wrong_sign :
    cmp_gid 2147483649 0 = -2147483647 ∧ cmp_gid 0 2147483649 = 2147483647 ∧
      cmp_gid 0 2147483648 < 0 ∧ cmp_gid 2147483648 0 < 0 ∧
      cmp_gid 0 1500000000 < 0 ∧ cmp_gid 1500000000 3000000000 < 0 ∧
      cmp_gid 3000000000 0 < 0 := by
  decide

/-! ## Solaris: `solaris_set_uids` and `solaris_set_gids` -/

theorem size_t_of_neg_one (bits : Nat) : size_t_of bits (-1) = 2 ^ bits - 1 := by
  unfold size_t_of
  have hpos : (0 : Int) < (2 : Int) ^ bits := by positivity
  have h1 : (-1 : Int) % (2 : Int) ^ bits = (2 : Int) ^ bits - 1 := by
    have h2 := @Int.add_mul_emod_self (-1) 1 ((2 : Int) ^ bits)
    rw [one_mul] at h2
    rw [← h2, Int.emod_eq_of_lt (by omega) (by omega)]
    ring
  rw [h1]
  have h3 : ((2 : Int) ^ bits - 1) = (((2 : Nat) ^ bits - 1 : Nat) : Int) := by
    have : 1 ≤ (2 : Nat) ^ bits := Nat.one_le_two_pow
    push_cast [Nat.cast_sub this]
    rfl
  rw [h3, Int.toNat_ofNat]

/-- C25 (code defect): on the root path, when the `open` of `/proc/self/ctl` returns -1 and the
`writev` on the file descriptor -1 returns -1, `solaris_set_uids` aborts, in `DO_CHK` after the
`writev`, and `solaris_set_gids` returns 0: its `DO_CHK` asks that the count written differ from
`sizeof(cmd) + sizeof(cmd)`, which -1 does. In neither function does the `DO_SYS` around `open`
abort, the value it tests being that of the comparison with -1. -/
theorem solaris_set_ids_after_failure {σ : Type} (S : Solaris σ) (a b c : Nat) (w : World σ)
    (prc0 : prcred_t) (hroot : S.geteuid w.os = 0)
    (hcred : solaris_get_prcred S w = .ret (0, prc0) w)
    (hopen : (S.open_ctl w.os).rc = -1)
    (hwu : (S.writev_ctl (-1) S.PCSCRED ⟨b, a, c, prc0.pr_egid, prc0.pr_rgid, prc0.pr_sgid, 0⟩
      (S.open_ctl w.os).os).rc = -1)
    (hwg : (S.writev_ctl (-1) S.PCSCRED ⟨prc0.pr_euid, prc0.pr_ruid, prc0.pr_suid, b, a, c, 0⟩
      (S.open_ctl w.os).os).rc = -1)
    (hu : (S.sizeof_cmd + S.sizeof_prc) % 2 ^ S.size_bits ≠ 2 ^ S.size_bits - 1)
    (hg : (S.sizeof_cmd + S.sizeof_cmd) % 2 ^ S.size_bits ≠ 2 ^ S.size_bits - 1) :
    solaris_set_uids S a b c w =
        .abort ⟨(S.writev_ctl (-1) S.PCSCRED
            ⟨b, a, c, prc0.pr_egid, prc0.pr_rgid, prc0.pr_sgid, 0⟩ (S.open_ctl w.os).os).os,
          (S.writev_ctl (-1) S.PCSCRED
            ⟨b, a, c, prc0.pr_egid, prc0.pr_rgid, prc0.pr_sgid, 0⟩ (S.open_ctl w.os).os).err,
          w.log ++ [.open_ctl] ++
            [.writev_ctl (-1) S.PCSCRED
              ⟨b, a, c, prc0.pr_egid, prc0.pr_rgid, prc0.pr_sgid, 0⟩]⟩ ∧
      solaris_set_gids S a b c w =
        .ret 0 ⟨(S.writev_ctl (-1) S.PCSCRED
            ⟨prc0.pr_euid, prc0.pr_ruid, prc0.pr_suid, b, a, c, 0⟩ (S.open_ctl w.os).os).os,
          (S.writev_ctl (-1) S.PCSCRED
            ⟨prc0.pr_euid, prc0.pr_ruid, prc0.pr_suid, b, a, c, 0⟩ (S.open_ctl w.os).os).err,
          w.log ++ [.open_ctl] ++
            [.writev_ctl (-1) S.PCSCRED
              ⟨prc0.pr_euid, prc0.pr_ruid, prc0.pr_suid, b, a, c, 0⟩]⟩ := by
  constructor
  · simp [solaris_set_uids, bind_apply, rd, pure_apply, hroot, DO_SYS_get, hcred, sys, hopen,
      DO_SYS, DO_CHK, hwu, size_t_of_neg_one, Ne.symm hu, abort]
  · simp [solaris_set_gids, bind_apply, rd, pure_apply, hroot, DO_SYS_get, hcred, sys, hopen,
      DO_SYS, DO_CHK, hwg, size_t_of_neg_one, Ne.symm hg, abort]

theorem solaris_set_ids_after_failure_witness :
    ref_solaris.geteuid ex_sol_closed.os = 0 ∧
      solaris_get_prcred ref_solaris ex_sol_closed =
        .ret (0, ⟨0, 0, 0, 100, 100, 100, 0⟩) ex_sol_closed ∧
      (ref_solaris.open_ctl ex_sol_closed.os).rc = -1 ∧
      solaris_set_uids ref_solaris 1000 1000 1000 ex_sol_closed =
        .abort ⟨ex_sol_closed.os, EBADF,
          [.open_ctl, .writev_ctl (-1) 27 ⟨1000, 1000, 1000, 100, 100, 100, 0⟩]⟩ ∧
      solaris_set_gids ref_solaris 1000 1000 1000 ex_sol_closed =
        .ret 0 ⟨ex_sol_closed.os, EBADF,
          [.open_ctl, .writev_ctl (-1) 27 ⟨0, 0, 0, 1000, 1000, 1000, 0⟩]⟩ ∧
      solaris_set_gids ref_solaris 200 200 200 ex_sol_open =
        .ret 0 ⟨⟨⟨⟨0, 0, 0⟩, ⟨200, 200, 200⟩, 0, 200, []⟩, true⟩, 0,
          [.open_ctl, .writev_ctl 4 27 ⟨0, 0, 0, 200, 200, 200, 0⟩]⟩ :=
  ⟨by decide, by decide, by decide,
    (solaris_set_ids_after_failure ref_solaris 1000 1000 1000 ex_sol_closed
      ⟨0, 0, 0, 100, 100, 100, 0⟩ (by decide) (by decide) (by decide) (by decide) (by decide)
      (by decide) (by decide)).1,
    (solaris_set_ids_after_failure ref_solaris 1000 1000 1000 ex_sol_closed
      ⟨0, 0, 0, 100, 100, 100, 0⟩ (by decide) (by decide) (by decide) (by decide) (by decide)
      (by decide) (by decide)).2,
    by decide⟩

/-! ## `priv2`: the targets built with `force_privileged` -/

theorem new_pair_true_ret {σ : Type} (K : OS2 σ) {w w1 : World (Mem σ)} {prev : pcred_t}
    (h : new_pair K true w = .ret prev w1) :
    w1 = w ∧ prev.uids = ⟨K.getuid w.os.os, 0, (K.getresuid w.os.os).2.s⟩ := by
  unfold new_pair at h
  obtain ⟨r, wa, h1, h2⟩ := bind_ret_inv h
  have ea := (reads_get_pcred K.toOS.mem).ret_eq h1
  subst ea
  simp only [if_true, pure_apply] at h2
  cases h2
  obtain ⟨rc, pc⟩ := r
  obtain ⟨_, hr, _, hs, _, _, _⟩ := get_pcred_ret K.toOS.mem h1
  refine ⟨rfl, ?_⟩
  show (⟨pc.uids.r, 0, pc.uids.s⟩ : uids_t) = _
  rw [hr, hs]
  rfl

/-- C27 (code defect): with `force_privileged` true `new_pair` replaces the effective uid by 0
before the candidates are built, so the candidates of `get_pairs_temporary` are `(r, u, 0)`,
`(0, u, 0)`, `(s, u, 0)`, `(0, u, r)` and `(0, u, s)` for the real uid `r` and the saved uid `s`
of the process: when the effective uid that `geteuid` reports is none of `r`, `s` and 0, no
candidate has it as real or saved uid, and so the target that `fill_pair` stores has not. -/
theorem forced_candidates_drop_effective_uid {σ : Type} (K : OS2 σ) (T : Tables) (u : ucred_t)
    (w : World (Mem σ)) (h0 : K.geteuid w.os.os ≠ 0) (hr : K.geteuid w.os.os ≠ K.getuid w.os.os)
    (hs : K.geteuid w.os.os ≠ (K.getresuid w.os.os).2.s) :
    (∀ ps w1, get_pairs_temporary K u true w = .ret ps w1 →
      ps.uids = [⟨K.getuid w.os.os, u.uid, 0⟩, ⟨0, u.uid, 0⟩,
          ⟨(K.getresuid w.os.os).2.s, u.uid, 0⟩, ⟨0, u.uid, K.getuid w.os.os⟩,
          ⟨0, u.uid, (K.getresuid w.os.os).2.s⟩] ∧
        ∀ c ∈ ps.uids, c.r ≠ K.geteuid w.os.os ∧ c.s ≠ K.geteuid w.os.os) ∧
    (∀ st p w1, fill_pair K T u false true w = .ret (st, p) w1 →
      p.next.uids.r ≠ K.geteuid w.os.os ∧ p.next.uids.s ≠ K.geteuid w.os.os) := by
  have key : ∀ ps w1, get_pairs_temporary K u true w = .ret ps w1 →
      ps.uids = [⟨K.getuid w.os.os, u.uid, 0⟩, ⟨0, u.uid, 0⟩,
          ⟨(K.getresuid w.os.os).2.s, u.uid, 0⟩, ⟨0, u.uid, K.getuid w.os.os⟩,
          ⟨0, u.uid, (K.getresuid w.os.os).2.s⟩] ∧
        ∀ c ∈ ps.uids, c.r ≠ K.geteuid w.os.os ∧ c.s ≠ K.geteuid w.os.os := by
    intro ps w1 h
    unfold get_pairs_temporary at h
    obtain ⟨prev, wa, h1, h2⟩ := bind_ret_inv h
    obtain ⟨ea, hp⟩ := new_pair_true_ret K h1
    subst ea
    rw [pure_apply] at h2
    cases h2
    refine ⟨?_, ?_⟩
    · simp only [hp]
    · intro c hc
      simp only [hp, List.mem_cons, List.mem_singleton, List.not_mem_nil, or_false] at hc
      rcases hc with hc | hc | hc | hc | hc <;> subst hc <;>
        exact ⟨fun x => by simp_all, fun x => by simp_all⟩
  refine ⟨key, ?_⟩
  intro st p w1 h
  have h2 : fill_pair_temporary K T u true w = .ret (st, p) w1 := h
  obtain ⟨ps, w0, hps, _, hu, _, _⟩ := fill_pair_temporary_ret K T u true h2
  exact (key ps w0 hps).2 _ hu

theorem forced_candidates_drop_effective_uid_witness :
    ref_os2.geteuid ex2_eff.os.os = 1000 ∧ ref_os2.getuid ex2_eff.os.os = 500 ∧
      (ref_os2.getresuid ex2_eff.os.os).2.s = 500 ∧
      fill_pair ref_os2 ref_tables ⟨2000, 100, ⟨[4, 24], 2⟩⟩ false true ex2_eff =
        .ret (.ci_success, ⟨⟨⟨500, 0, 500⟩, ⟨100, 100, 100⟩, ⟨[4, 24], 2⟩⟩,
          ⟨⟨500, 2000, 0⟩, ⟨100, 100, 100⟩, ⟨[4, 24], 2⟩⟩⟩)
          ⟨⟨ex2_eff.os.os, ⟨true, ⟨1, 0, 1⟩, ⟨1, 0, 1⟩, true⟩⟩, 0, []⟩ ∧
      ((500 : Nat) ≠ ref_os2.geteuid ex2_eff.os.os ∧ (0 : Nat) ≠ ref_os2.geteuid ex2_eff.os.os) :=
  ⟨by decide, by decide, by decide, by decide!,
    (forced_candidates_drop_effective_uid ref_os2 ref_tables ⟨2000, 100, ⟨[4, 24], 2⟩⟩ ex2_eff
      (by decide) (by decide) (by decide)).2 .ci_success
      ⟨⟨⟨500, 0, 500⟩, ⟨100, 100, 100⟩, ⟨[4, 24], 2⟩⟩,
        ⟨⟨500, 2000, 0⟩, ⟨100, 100, 100⟩, ⟨[4, 24], 2⟩⟩⟩
      ⟨⟨ex2_eff.os.os, ⟨true, ⟨1, 0, 1⟩, ⟨1, 0, 1⟩, true⟩⟩, 0, []⟩ (by decide!)⟩

/-! ## `priv2` with and without assertions -/

theorem reads_run {σ α : Type} (r : Res α) : Reads (r.run : Proc σ α) := by
  intro w
  cases r <;> rfl

theorem reads_set_uids_from_graph_ndebug {σ : Type} (T : Tables) (p : norm_pcred_pair_t) :
    Reads (set_uids_from_graph_ndebug T p : Proc (Mem σ) Int) :=
  reads_bind (reads_run _) fun _ => reads_bind (reads_run _) fun _ => reads_pure _

theorem reads_set_gids_from_graph_ndebug {σ : Type} (T : Tables) (p : norm_pcred_pair_t) :
    Reads (set_gids_from_graph_ndebug T p : Proc (Mem σ) Int) :=
  reads_bind (reads_run _) fun _ => reads_bind (reads_run _) fun _ => reads_pure _

theorem reads_change_identity_in_order_ndebug {σ : Type} (T : Tables) (np : norm_pcred_pair_t)
    (gt : groups_timing_e) (g : Bool) :
    Reads (change_identity_in_order_ndebug T np gt g : Proc (Mem σ) ci_status_e) := by
  unfold change_identity_in_order_ndebug
  refine reads_bind ?_ fun failed => ?_
  · refine reads_ite _ ?_ (reads_pure _)
    refine reads_bind ?_ fun r => reads_ite _ (reads_pure _) (reads_pure _)
    cases g
    · exact reads_pure _
    · exact reads_set_gids_from_graph_ndebug T np
  · cases failed
    · exact reads_pure _
    · exact reads_pure _

/-- C29 (code defect): with `NDEBUG` the calls inside `assert` are not compiled.
`set_uids_from_graph`, `set_gids_from_graph` and the `groups_first` and `groups_last` statements
of `change_identity_basic` then leave kernel state, `errno` and log as they are on every input;
for the permanent change of a root process to uid 1000, gid 100 and the groups 4 and 24 the
build with assertions issues `setgid`, `setgroups` and `setuid` and returns `ci_success`, and
the `NDEBUG` build returns `ci_success` with no call issued and the uids still 0. -/
theorem ndebug_skips_the_calls :
    (∀ (T : Tables) (p : norm_pcred_pair_t),
      Reads (set_uids_from_graph_ndebug T p : Proc (Mem KState) Int) ∧
        Reads (set_gids_from_graph_ndebug T p : Proc (Mem KState) Int)) ∧
    (∀ (T : Tables) (np : norm_pcred_pair_t) (gt : groups_timing_e) (g : Bool),
      Reads (change_identity_in_order_ndebug T np gt g : Proc (Mem KState) ci_status_e)) ∧
    set_uids_from_graph ref_os2 ref_tables ex_np ex2_suid =
      .ret 0 ⟨⟨⟨⟨2000, 2000, 2000⟩, ⟨100, 100, 100⟩, 2000, 100, [4, 24]⟩, Cache.init⟩, 0,
        [.setuid 0, .setuid 2000]⟩ ∧
    set_uids_from_graph_ndebug ref_tables ex_np ex2_suid = .ret 0 ex2_suid ∧
    change_identity_basic ref_os2 ref_tables ex_user true ex2_root =
      .ret .ci_success ⟨⟨⟨⟨1000, 1000, 1000⟩, ⟨100, 100, 100⟩, 1000, 100, [4, 24]⟩,
          ⟨true, ⟨0, 0, 0⟩, ⟨1, 1, 1⟩, true⟩⟩, 0,
        [.setgid 100, .setgroups 2 [4, 24], .setuid 1000]⟩ ∧
    change_identity_basic_ndebug ref_os2 ref_tables ex_user true ex2_root =
      .ret .ci_success ⟨⟨ex2_root.os.os, ⟨true, ⟨0, 0, 0⟩, ⟨1, 1, 1⟩, true⟩⟩, 0, []⟩ ∧
    change_identity_basic_ndebug ref_os2 ref_tables ex_user true ex2_suid =
      .ret .ci_success ⟨⟨ex2_suid.os.os, ⟨true, ⟨1, 1, 0⟩, ⟨1, 1, 0⟩, true⟩⟩, 0, []⟩ := by
  refine ⟨fun T p => ⟨reads_set_uids_from_graph_ndebug T p,
    reads_set_gids_from_graph_ndebug T p⟩,
    fun T np gt g => reads_change_identity_in_order_ndebug T np gt g, ?_, ?_, ?_, ?_, ?_⟩ <;>
  decide!

/-! ## `GeneralSanityVisitor::visitEdge` rejects a gain of privilege -/

theorem E_CONFIRM_bind_ok (c : Bool) (d : String) (f : Unit → Except String Unit) :
    (E_CONFIRM c d >>= f) = .ok () ↔ c = true ∧ f () = .ok () := by
  cases c
  · simp [E_CONFIRM, bind, Except.bind]
  · simp [E_CONFIRM, bind, Except.bind]

theorem E_CONFIRM_ok (c : Bool) (d : String) : E_CONFIRM c d = .ok () ↔ c = true := by
  cases c <;> simp [E_CONFIRM]

theorem except_bind_ok (m : Except String Unit) (f : Unit → Except String Unit) :
    (m >>= f) = .ok () ↔ m = .ok () ∧ f () = .ok () := by
  cases m with
  | error d => simp [bind, Except.bind]
  | ok u => simp [bind, Except.bind]

theorem somewhat_privileged_iff (s : SetuidState) :
    SOMEWHAT_PRIVILEGED s = true ↔ somewhat_privileged s := by
  simp [SOMEWHAT_PRIVILEGED, somewhat_privileged, or_assoc]

theorem wholly_unprivileged_iff (s : SetuidState) :
    wholly_unprivileged s ↔ ¬ somewhat_privileged s := by
  simp [wholly_unprivileged, somewhat_privileged, not_or]

theorem visitEdge_ok_inv (e : SetuidFunctionCall) (v1 v2 : SetuidState)
    (h : GeneralSanityVisitor.visitEdge e v1 v2 = .ok ()) :
    (SOMEWHAT_PRIVILEGED v1 || !(SOMEWHAT_PRIVILEGED v2)) = true := by
  unfold GeneralSanityVisitor.visitEdge at h
  rw [except_bind_ok] at h
  obtain ⟨_, h⟩ := h
  rw [E_CONFIRM_bind_ok] at h
  obtain ⟨_, h⟩ := h
  rw [E_CONFIRM_bind_ok] at h
  obtain ⟨_, h⟩ := h
  rw [E_CONFIRM_bind_ok] at h
  obtain ⟨_, h⟩ := h
  rw [E_CONFIRM_bind_ok] at h
  obtain ⟨_, h⟩ := h
  rw [E_CONFIRM_bind_ok] at h
  exact h.1

theorem visitEdge_error_of_gain (e : SetuidFunctionCall) (v1 v2 : SetuidState)
    (h1 : wholly_unprivileged v1) (h2 : somewhat_privileged v2) :
    ∃ desc, GeneralSanityVisitor.visitEdge e v1 v2 = .error desc := by
  cases h : GeneralSanityVisitor.visitEdge e v1 v2 with
  | error d => exact ⟨d, rfl⟩
  | ok u =>
    have h3 := visitEdge_ok_inv e v1 v2 h
    rw [Bool.or_eq_true, Bool.not_eq_true', somewhat_privileged_iff] at h3
    rcases h3 with h3 | h3
    · exact absurd h3 ((wholly_unprivileged_iff v1).mp h1)
    · rw [← Bool.not_eq_true, somewhat_privileged_iff] at h3
      exact absurd h2 h3

theorem examine_edge_nil_iff (edge : SetuidFunctionCall × SetuidState × SetuidState) :
    GeneralSanityVisitor.examine_edge edge = [] ↔
      GeneralSanityVisitor.visitEdge edge.1 edge.2.1 edge.2.2 = .ok () := by
  unfold GeneralSanityVisitor.examine_edge
  cases GeneralSanityVisitor.visitEdge edge.1 edge.2.1 edge.2.2 with
  | error d => simp
  | ok u => simp

/-- C30: `GeneralSanityVisitor::visitEdge` throws for every edge from a wholly unprivileged
state (ruid, euid and svuid all non-zero) to a somewhat privileged state (one of them zero),
whatever the call of the edge; when it throws nothing, the source is somewhat privileged or the
destination is not; and when the run of the visitor over the examined edges writes nothing to
`std::cerr`, none of these edges leads from a wholly unprivileged to a somewhat privileged
state. -/
theorem visitEdge_rejects_gain_of_privilege :
    (∀ (e : SetuidFunctionCall) (v1 v2 : SetuidState),
      wholly_unprivileged v1 → somewhat_privileged v2 →
        ∃ desc, GeneralSanityVisitor.visitEdge e v1 v2 = .error desc ∧
          GeneralSanityVisitor.examine_edge (e, v1, v2) = ["Graph visitor error:", desc]) ∧
    (∀ (e : SetuidFunctionCall) (v1 v2 : SetuidState),
      GeneralSanityVisitor.visitEdge e v1 v2 = .ok () →
        somewhat_privileged v1 ∨ ¬ somewhat_privileged v2) ∧
    (∀ edges : List (SetuidFunctionCall × SetuidState × SetuidState),
      GeneralSanityVisitor.visitGraph edges = [] →
        ∀ edge ∈ edges, ¬ (wholly_unprivileged edge.2.1 ∧ somewhat_privileged edge.2.2)) := by
  refine ⟨?_, ?_, ?_⟩
  · intro e v1 v2 h1 h2
    obtain ⟨d, hd⟩ := visitEdge_error_of_gain e v1 v2 h1 h2
    refine ⟨d, hd, ?_⟩
    unfold GeneralSanityVisitor.examine_edge
    simp only [hd]
  · intro e v1 v2 h
    have h3 := visitEdge_ok_inv e v1 v2 h
    rw [Bool.or_eq_true, Bool.not_eq_true', somewhat_privileged_iff] at h3
    rcases h3 with h3 | h3
    · exact Or.inl h3
    · rw [← Bool.not_eq_true, somewhat_privileged_iff] at h3
      exact Or.inr h3
  · intro edges h edge hmem hbad
    unfold GeneralSanityVisitor.visitGraph at h
    rw [List.flatMap_eq_nil_iff] at h
    have h4 := (examine_edge_nil_iff edge).mp (h edge hmem)
    obtain ⟨d, hd⟩ := visitEdge_error_of_gain edge.1 edge.2.1 edge.2.2 hbad.1 hbad.2
    rw [hd] at h4
    cases h4

theorem visitEdge_rejects_gain_of_privilege_witness :
    wholly_unprivileged ⟨1, 1, 1⟩ ∧ somewhat_privileged ⟨1, 0, 1⟩ ∧
      GeneralSanityVisitor.visitEdge ⟨.Seteuid, [0], ⟨0, 0⟩⟩ ⟨1, 1, 1⟩ ⟨1, 0, 1⟩ =
        .error "Expected no transitions from unprivileged states to somewhat privileged states" ∧
      GeneralSanityVisitor.visitEdge ⟨.Seteuid, [1], ⟨0, 0⟩⟩ ⟨1, 0, 1⟩ ⟨1, 1, 1⟩ = .ok () ∧
      (∃ desc, GeneralSanityVisitor.visitEdge ⟨.Seteuid, [0], ⟨0, 0⟩⟩ ⟨1, 1, 1⟩ ⟨1, 0, 1⟩ =
          .error desc ∧
        GeneralSanityVisitor.examine_edge (⟨.Seteuid, [0], ⟨0, 0⟩⟩, ⟨1, 1, 1⟩, ⟨1, 0, 1⟩) =
          ["Graph visitor error:", desc]) ∧
      (somewhat_privileged ⟨1, 0, 1⟩ ∨ ¬ somewhat_privileged ⟨1, 1, 1⟩) :=
  ⟨by simp [wholly_unprivileged], by simp [somewhat_privileged], rfl, rfl,
    visitEdge_rejects_gain_of_privilege.1 ⟨.Seteuid, [0], ⟨0, 0⟩⟩ ⟨1, 1, 1⟩ ⟨1, 0, 1⟩
      (by simp [wholly_unprivileged]) (by simp [somewhat_privileged]),
    visitEdge_rejects_gain_of_privilege.2.1 ⟨.Seteuid, [1], ⟨0, 0⟩⟩ ⟨1, 0, 1⟩ ⟨1, 1, 1⟩ rfl⟩

/-! ## `fill_pair` returns the best candidate -/

theorem run_ok {σ α : Type} {r : Res α} {a : α} (h : r = .ok a) (w : World σ) :
    (r.run : Proc σ α) w = .ret a w := by
  subst h
  rfl

theorem cachePure_attainable {σ : Type} (T : Tables) (cu nu : uids_t) :
    CachePure T (suid_privilege_is_attainable T cu nu : Proc (Mem σ) Bool)
      (fun _ => can_set_suid_for_identity_change T cu nu) := by
  intro w a hc h
  have hs := attainable_step T cu nu w hc
  simp only at h
  rw [h] at hs
  exact hs

theorem cachePure_run {σ α : Type} (T : Tables) (r : Res α) :
    CachePure T (r.run : Proc (Mem σ) α) (fun _ => r) := by
  intro w a hc h
  exact ⟨w.os.cache, run_ok h w, hc⟩

theorem cachePure_pure {σ α : Type} (T : Tables) (a : α) :
    CachePure T (pure a : Proc (Mem σ) α) (fun _ => .ok a) := by
  intro w b hc h
  cases h
  exact ⟨w.os.cache, rfl, hc⟩

theorem cachePure_bind {σ α β : Type} {T : Tables} {m : Proc (Mem σ) α} {f : σ → Res α}
    {g : α → Proc (Mem σ) β} {h : α → σ → Res β} (hm : CachePure T m f)
    (hg : ∀ a, CachePure T (g a) (h a)) :
    CachePure T (m >>= g) (fun os => f os >>= fun a => h a os) := by
  intro w b hc hb
  obtain ⟨a, ha, hb2⟩ := res_bind_ok_inv hb
  obtain ⟨c, hm1, hc1⟩ := hm w a hc ha
  rw [bind_apply, hm1]
  exact hg a ⟨⟨w.os.os, c⟩, w.errno, w.log⟩ b hc1 hb2

theorem cachePure_congr {σ α : Type} {T : Tables} {m : Proc (Mem σ) α} {f g : σ → Res α}
    (hm : CachePure T m f) (hfg : ∀ os a, g os = .ok a → f os = .ok a) : CachePure T m g :=
  fun w a hc h => hm w a hc (hfg _ _ h)

theorem cachePure_normalize_gids {σ : Type} (T : Tables) (cu nu : uids_t) (p : pcred_pair_t) :
    CachePure T (normalize_gids T cu nu p : Proc (Mem σ) gids_norm_data_t)
      (fun _ => normalize_gids_value T cu nu p) := by
  unfold normalize_gids normalize_gids_value
  refine cachePure_bind (cachePure_attainable T cu nu) fun fp => ?_
  refine cachePure_bind (cachePure_run T _) fun a => ?_
  refine cachePure_bind ?_ fun b => ?_
  · cases fp
    · exact cachePure_run T _
    · exact cachePure_pure T _
  refine cachePure_bind (cachePure_run T _) fun c => ?_
  refine cachePure_bind (cachePure_run T _) fun d => ?_
  refine cachePure_bind (cachePure_run T _) fun e => ?_
  refine cachePure_bind (cachePure_run T _) fun f => ?_
  exact cachePure_pure T _

theorem cachePure_get_normalized_pcred_pair {σ : Type} (T : Tables) (p : pcred_pair_t) :
    CachePure T (get_normalized_pcred_pair T p : Proc (Mem σ) norm_pcred_pair_t)
      (fun _ => get_normalized_pcred_pair_value T p) := by
  unfold get_normalized_pcred_pair get_normalized_pcred_pair_value
  refine cachePure_bind (cachePure_run T _) fun u => ?_
  refine cachePure_bind (cachePure_normalize_gids T _ _ p) fun g => ?_
  exact cachePure_pure T _

theorem cachePure_sups_change_needed {σ : Type} (K : OS2 σ) (T : Tables)
    (p : norm_pcred_pair_t) :
    CachePure T (sups_change_needed K.toOS.mem p)
      (fun os => sups_change_needed_value K.toOS os p) := by
  intro w a hc h
  refine ⟨w.os.cache, ?_, hc⟩
  unfold sups_change_needed_value at h
  beta_reduce at h
  unfold sups_change_needed
  by_cases hd : sups_is_dont_change p.next.sups = true
  · rw [if_pos hd] at h ⊢
    cases h
    rfl
  · rw [if_neg hd] at h ⊢
    rw [bind_apply]
    unfold eql_sups
    have e : K.toOS.mem.getegid w.os = K.getegid w.os.os := rfl
    rw [e]
    cases he : eql_sups_pure (K.getegid w.os.os) p.prev.sups p.next.sups with
    | none =>
      rw [he] at h
      cases h
    | some b =>
      rw [he] at h
      cases h
      rfl

theorem cachePure_sups_are_possible {σ : Type} (K : OS2 σ) (T : Tables)
    (p : norm_pcred_pair_t) :
    CachePure T (sups_are_possible K T p) (fun os => sups_are_possible_value K T os p) := by
  unfold sups_are_possible sups_are_possible_value
  refine cachePure_bind (cachePure_sups_change_needed K T p) fun needed => ?_
  cases needed
  · exact cachePure_pure T _
  · by_cases he : suid_privilege_is_effective p.prev.normalized.uids = true
    · simp only [Bool.not_true, Bool.false_eq_true, if_false, he, if_true]
      exact cachePure_pure T _
    · simp only [Bool.not_true, Bool.false_eq_true, if_false, he]
      exact cachePure_attainable T _ _

theorem cachePure_groups_are_possible {σ : Type} (T : Tables) (p : norm_pcred_pair_t) :
    CachePure T (groups_are_possible T p : Proc (Mem σ) Bool)
      (fun _ => groups_are_possible_value T p) := by
  unfold groups_are_possible groups_are_possible_value
  by_cases hn : (!groups_change_needed p) = true
  · simp only [hn, if_true]
    exact cachePure_pure T _
  · by_cases he : suid_privilege_is_effective p.prev.normalized.uids = true
    · simp only [hn, Bool.false_eq_true, if_false, he, if_true]
      exact cachePure_pure T _
    · simp only [hn, Bool.false_eq_true, if_false, he]
      refine cachePure_bind (cachePure_run T _) fun can => ?_
      cases can
      · exact cachePure_attainable T _ _
      · exact cachePure_pure T _

theorem cachePure_sups_or_groups_impossible {σ : Type} (K : OS2 σ) (T : Tables)
    (np : norm_pcred_pair_t) :
    CachePure T (sups_or_groups_impossible K T np)
      (fun os => sups_or_groups_impossible_value K T os np) := by
  unfold sups_or_groups_impossible sups_or_groups_impossible_value
  refine cachePure_bind (cachePure_sups_are_possible K T np) fun sp => ?_
  cases sp
  · exact cachePure_pure T _
  · exact cachePure_bind (cachePure_groups_are_possible T np) fun gp => cachePure_pure T _

theorem fill_pair_body_pure {σ : Type} (K : OS2 σ) (T : Tables) (pairs : id_pairs_t)
    (i j : Nat) (st : fill_state) (hst : st.status ≠ .ci_invalid_values) :
    CachePure T (fill_pair_body K T pairs i j st)
      (fun os => candidate_status K T os pairs i j >>= fun s => pure (fill_update st i j s)) := by
  unfold fill_pair_body candidate_status
  cases hu : pairs.uids[i]? with
  | none =>
    intro w a _ h
    cases h
  | some us =>
    cases hg : pairs.gids[j]? with
    | none =>
      intro w a _ h
      cases h
    | some gs =>
      simp only []
      have key : CachePure T
          (do
            let np ← get_normalized_pcred_pair T ⟨pairs.prev, ⟨us, gs, pairs.sups⟩⟩
            let can ← (can_set_uids_from_graph T np).run
            if !can then do
              let bad ← sups_or_groups_impossible K T np
              if bad then
                (if st.status = .ci_invalid then
                  pure (⟨.ci_setuid_setgid_failed, i, j⟩, false)
                else pure (st, false))
              else
                (if st.status = .ci_invalid ∨ st.status = .ci_setuid_setgid_failed then
                  pure (⟨.ci_setuid_failed, i, j⟩, false)
                else pure (st, false))
            else do
              let bad ← sups_or_groups_impossible K T np
              if bad then
                (if st.status = .ci_invalid ∨ st.status = .ci_setuid_setgid_failed ∨
                    st.status = .ci_setuid_failed then
                  pure (⟨.ci_setgid_failed, i, j⟩, false)
                else pure (st, false))
              else pure (⟨.ci_success, i, j⟩, true) : Proc (Mem σ) (fill_state × Bool))
          (fun os => get_normalized_pcred_pair_value T ⟨pairs.prev, ⟨us, gs, pairs.sups⟩⟩ >>=
            fun np => can_set_uids_from_graph T np >>= fun can =>
              sups_or_groups_impossible_value K T os np >>= fun bad =>
                Res.ok (fill_update st i j (fill_status can bad))) := by
        refine cachePure_bind (cachePure_get_normalized_pcred_pair T _) fun np => ?_
        refine cachePure_bind (cachePure_run T _) fun can => ?_
        obtain ⟨status, ui, gi⟩ := st
        cases can
        · simp only [Bool.not_false, if_true]
          refine cachePure_bind (cachePure_sups_or_groups_impossible K T np) fun bad => ?_
          cases bad
          · cases status <;> first | exact absurd rfl hst | exact cachePure_pure T _
          · cases status <;> first | exact absurd rfl hst | exact cachePure_pure T _
        · simp only [Bool.not_true, Bool.false_eq_true, if_false]
          refine cachePure_bind (cachePure_sups_or_groups_impossible K T np) fun bad => ?_
          cases bad
          · cases status <;> first | exact absurd rfl hst | exact cachePure_pure T _
          · cases status <;> first | exact absurd rfl hst | exact cachePure_pure T _
      refine cachePure_congr key ?_
      intro os a h
      unfold pair_status at h
      obtain ⟨s, h1, h2⟩ := res_bind_ok_inv h
      obtain ⟨np, h3, h4⟩ := res_bind_ok_inv h1
      obtain ⟨can, h5, h6⟩ := res_bind_ok_inv h4
      obtain ⟨bad, h7, h8⟩ := res_bind_ok_inv h6
      cases h8
      cases h2
      rw [h3, res_bind_ok, h5, res_bind_ok, h7, res_bind_ok]

theorem status_rank_le_four (s : ci_status_e) : status_rank s ≤ 4 := by
  cases s <;> decide

theorem status_rank_eq_four (s : ci_status_e) : status_rank s = 4 ↔ s = .ci_success := by
  cases s <;> decide

theorem fill_status_rank (can bad : Bool) : 1 ≤ status_rank (fill_status can bad) := by
  cases can <;> cases bad <;> decide

theorem candidate_status_ok {σ : Type} {K : OS2 σ} {T : Tables} {os : σ} {pairs : id_pairs_t}
    {i j : Nat} {s : ci_status_e} (h : candidate_status K T os pairs i j = .ok s) :
    1 ≤ status_rank s ∧ ∃ us gs, pairs.uids[i]? = some us ∧ pairs.gids[j]? = some gs := by
  unfold candidate_status at h
  cases hu : pairs.uids[i]? with
  | none =>
    rw [hu] at h
    cases h
  | some us =>
    cases hg : pairs.gids[j]? with
    | none =>
      rw [hu, hg] at h
      cases h
    | some gs =>
      rw [hu, hg] at h
      refine ⟨?_, us, gs, rfl, rfl⟩
      unfold pair_status at h
      obtain ⟨np, _, h4⟩ := res_bind_ok_inv h
      obtain ⟨can, _, h6⟩ := res_bind_ok_inv h4
      obtain ⟨bad, _, h8⟩ := res_bind_ok_inv h6
      cases h8
      exact fill_status_rank can bad

theorem fill_pair_body_step {σ : Type} (K : OS2 σ) (T : Tables) (pairs : id_pairs_t)
    (cls : Nat → Nat → ci_status_e) (os : σ) (errno : Int) (log : List Call) (i j : Nat)
    (hij : candidate_status K T os pairs i j = .ok (cls i j))
    (st : fill_state) (hst : st.status ≠ .ci_invalid_values) (c : Cache) (hc : CacheOK T c) :
    ∃ c1, fill_pair_body K T pairs i j st ⟨⟨os, c⟩, errno, log⟩ =
        .ret (fill_update st i j (cls i j)) ⟨⟨os, c1⟩, errno, log⟩ ∧ CacheOK T c1 := by
  refine fill_pair_body_pure K T pairs i j st hst ⟨⟨os, c⟩, errno, log⟩ _ hc ?_
  show (candidate_status K T os pairs i j >>= fun s => pure (fill_update st i j s)) = _
  rw [hij]
  rfl

theorem comes_before_succ (x y i j : Nat) :
    comes_before x y i (j + 1) ↔ comes_before x y i j ∨ (x = i ∧ y = j) := by
  unfold comes_before
  omega

theorem bestBefore_status {cls : Nat → Nat → ci_status_e} {st : fill_state} {i j : Nat}
    (hr : ∀ x y, x < ID_PAIR_COLLECTION_SIZE → y < ID_PAIR_COLLECTION_SIZE →
      1 ≤ status_rank (cls x y))
    (h : BestBefore cls st i j) : st.status ≠ .ci_invalid_values := by
  rcases h with ⟨h, _, _⟩ | ⟨a, b, ha, hb, _, h, _, _⟩
  · rw [h]
    decide
  · rw [h]
    intro e
    have h1 := hr a b ha hb
    simp only [] at e
    rw [e] at h1
    exact absurd h1 (by decide)

theorem fill_update_inv (cls : Nat → Nat → ci_status_e)
    (hr : ∀ x y, x < ID_PAIR_COLLECTION_SIZE → y < ID_PAIR_COLLECTION_SIZE →
      1 ≤ status_rank (cls x y))
    (i j : Nat) (hi : i < ID_PAIR_COLLECTION_SIZE) (hj : j < ID_PAIR_COLLECTION_SIZE)
    (st : fill_state) (hI : BestBefore cls st i j) (hns : st.status ≠ .ci_success) :
    ((fill_update st i j (cls i j)).2 = true →
      (fill_update st i j (cls i j)).1.status = .ci_success ∧
        BestBefore cls (fill_update st i j (cls i j)).1 ID_PAIR_COLLECTION_SIZE 0) ∧
    ((fill_update st i j (cls i j)).2 = false →
      (fill_update st i j (cls i j)).1.status ≠ .ci_success ∧
        BestBefore cls (fill_update st i j (cls i j)).1 i (j + 1)) := by
  have hbound : ∀ x y, x < ID_PAIR_COLLECTION_SIZE → y < ID_PAIR_COLLECTION_SIZE →
      comes_before x y i j → status_rank (cls x y) ≤ status_rank st.status ∧
        st.status ≠ .ci_invalid := by
    intro x y hx hy hxy
    rcases hI with ⟨_, h0, h1⟩ | ⟨a, b, _, _, _, h, hmax, _⟩
    · subst h0 h1
      unfold comes_before at hxy
      omega
    · rw [h]
      refine ⟨hmax x y hx hy hxy, ?_⟩
      intro e
      have h1 := hr a b (by assumption) (by assumption)
      simp only [] at e
      rw [e] at h1
      exact absurd h1 (by decide)
  unfold fill_update
  by_cases hs : cls i j = .ci_success
  · rw [if_pos hs]
    refine ⟨fun _ => ⟨hs, ?_⟩, fun h => absurd h (by simp)⟩
    refine Or.inr ⟨i, j, hi, hj, Or.inl hi, rfl, ?_, ?_⟩
    · intro x y _ _ _
      rw [(status_rank_eq_four _).mpr hs]
      exact status_rank_le_four _
    · intro x y hx hy hxy
      have h1 := (hbound x y hx hy hxy).1
      have h2 := status_rank_le_four st.status
      have h3 : status_rank st.status ≠ 4 := fun e => hns ((status_rank_eq_four _).mp e)
      rw [(status_rank_eq_four _).mpr hs]
      omega
  · rw [if_neg hs]
    by_cases hlt : status_rank st.status < status_rank (cls i j)
    · rw [if_pos hlt]
      refine ⟨fun h => absurd h (by simp), fun _ => ⟨hs, ?_⟩⟩
      refine Or.inr ⟨i, j, hi, hj, Or.inr ⟨rfl, Nat.lt_succ_self j⟩, rfl, ?_, ?_⟩
      · intro x y hx hy hxy
        rcases (comes_before_succ x y i j).mp hxy with h | ⟨h1, h2⟩
        · have := (hbound x y hx hy h).1
          omega
        · subst h1 h2
          exact le_refl _
      · intro x y hx hy hxy
        have := (hbound x y hx hy hxy).1
        omega
    · rw [if_neg hlt]
      refine ⟨fun h => absurd h (by simp), fun _ => ⟨hns, ?_⟩⟩
      rcases hI with ⟨h, _, _⟩ | ⟨a, b, ha, hb, hab, h, hmax, hfirst⟩
      · exfalso
        have h1 := hr i j hi hj
        rw [h] at hlt
        have h2 : status_rank (⟨.ci_invalid, -1, -1⟩ : fill_state).status = 0 := rfl
        omega
      · refine Or.inr ⟨a, b, ha, hb, (comes_before_succ a b i j).mpr (Or.inl hab), h, ?_, hfirst⟩
        intro x y hx hy hxy
        rcases (comes_before_succ x y i j).mp hxy with h3 | ⟨h1, h2⟩
        · exact hmax x y hx hy h3
        · subst h1 h2
          rw [h] at hlt
          simp only [] at hlt
          omega

theorem bestBefore_row_end {cls : Nat → Nat → ci_status_e} {st : fill_state} {i : Nat}
    (h : BestBefore cls st i ID_PAIR_COLLECTION_SIZE) : BestBefore cls st (i + 1) 0 := by
  rcases h with ⟨_, _, h⟩ | ⟨a, b, ha, hb, hab, h, hmax, hfirst⟩
  · exact absurd h (by decide)
  · refine Or.inr ⟨a, b, ha, hb, ?_, h, ?_, hfirst⟩
    · unfold comes_before at hab ⊢
      omega
    · intro x y hx hy hxy
      refine hmax x y hx hy ?_
      unfold comes_before at hxy ⊢
      omega

theorem fill_pair_inner_spec {σ : Type} (K : OS2 σ) (T : Tables) (pairs : id_pairs_t)
    (cls : Nat → Nat → ci_status_e) (os : σ) (errno : Int) (log : List Call)
    (hall : ∀ x y, x < ID_PAIR_COLLECTION_SIZE → y < ID_PAIR_COLLECTION_SIZE →
      candidate_status K T os pairs x y = .ok (cls x y))
    (i : Nat) (hi : i < ID_PAIR_COLLECTION_SIZE) :
    ∀ (k j : Nat) (st : fill_state) (c : Cache), j + k = ID_PAIR_COLLECTION_SIZE →
      BestBefore cls st i j → st.status ≠ .ci_success → CacheOK T c →
      ∃ st1 c1, fill_pair_inner K T pairs i k j st ⟨⟨os, c⟩, errno, log⟩ =
          .ret st1 ⟨⟨os, c1⟩, errno, log⟩ ∧ CacheOK T c1 ∧
        ((st1.status = .ci_success ∧ BestBefore cls st1 ID_PAIR_COLLECTION_SIZE 0) ∨
          (st1.status ≠ .ci_success ∧ BestBefore cls st1 (i + 1) 0)) := by
  have hr : ∀ x y, x < ID_PAIR_COLLECTION_SIZE → y < ID_PAIR_COLLECTION_SIZE →
      1 ≤ status_rank (cls x y) := fun x y hx hy => (candidate_status_ok (hall x y hx hy)).1
  intro k
  induction k with
  | zero =>
    intro j st c hjk hI hns hc
    have hj : j = ID_PAIR_COLLECTION_SIZE := by omega
    subst hj
    exact ⟨st, c, rfl, hc, Or.inr ⟨hns, bestBefore_row_end hI⟩⟩
  | succ k ih =>
    intro j st c hjk hI hns hc
    have hj : j < ID_PAIR_COLLECTION_SIZE := by omega
    obtain ⟨c1, hb, hc1⟩ := fill_pair_body_step K T pairs cls os errno log i j
      (hall i j hi hj) st (bestBefore_status hr hI) c hc
    have hinv := fill_update_inv cls hr i j hi hj st hI hns
    rw [fill_pair_inner, bind_apply, hb]
    show ∃ st1 c2, (if (fill_update st i j (cls i j)).2 = true then
          pure (fill_update st i j (cls i j)).1
        else fill_pair_inner K T pairs i k (j + 1) (fill_update st i j (cls i j)).1)
          ⟨⟨os, c1⟩, errno, log⟩ = .ret st1 ⟨⟨os, c2⟩, errno, log⟩ ∧ _
    by_cases hbr : (fill_update st i j (cls i j)).2 = true
    · rw [if_pos hbr, pure_apply]
      exact ⟨_, c1, rfl, hc1, Or.inl (hinv.1 hbr)⟩
    · rw [if_neg hbr]
      obtain ⟨h1, h2⟩ := hinv.2 (Bool.eq_false_iff.mpr hbr)
      exact ih (j + 1) _ c1 (by omega) h2 h1 hc1

theorem fill_pair_outer_spec {σ : Type} (K : OS2 σ) (T : Tables) (pairs : id_pairs_t)
    (cls : Nat → Nat → ci_status_e) (os : σ) (errno : Int) (log : List Call)
    (hall : ∀ x y, x < ID_PAIR_COLLECTION_SIZE → y < ID_PAIR_COLLECTION_SIZE →
      candidate_status K T os pairs x y = .ok (cls x y)) :
    ∀ (k i : Nat) (st : fill_state) (c : Cache), i + k = ID_PAIR_COLLECTION_SIZE →
      BestBefore cls st i 0 → st.status ≠ .ci_success → CacheOK T c →
      ∃ st1 c1, fill_pair_outer K T pairs k i st ⟨⟨os, c⟩, errno, log⟩ =
          .ret st1 ⟨⟨os, c1⟩, errno, log⟩ ∧ CacheOK T c1 ∧
        BestBefore cls st1 ID_PAIR_COLLECTION_SIZE 0 := by
  intro k
  induction k with
  | zero =>
    intro i st c hik hI _ hc
    have hi : i = ID_PAIR_COLLECTION_SIZE := by omega
    subst hi
    exact ⟨st, c, rfl, hc, hI⟩
  | succ k ih =>
    intro i st c hik hI hns hc
    have hi : i < ID_PAIR_COLLECTION_SIZE := by omega
    obtain ⟨st1, c1, h1, hc1, hcase⟩ := fill_pair_inner_spec K T pairs cls os errno log hall i hi
      ID_PAIR_COLLECTION_SIZE 0 st c (by omega) hI hns hc
    rw [fill_pair_outer, bind_apply, h1]
    rcases hcase with ⟨hs, hB⟩ | ⟨hs, hB⟩
    · simp only [hs, if_true, pure_apply]
      exact ⟨st1, c1, rfl, hc1, hB⟩
    · simp only [hs, if_false]
      exact ih (i + 1) st1 c1 (by omega) hB hs hc1

theorem fill_pair_temporary_spec {σ : Type} (K : OS2 σ) (T : Tables) (u : ucred_t)
    (fp : Bool) (w : World (Mem σ)) (pairs : id_pairs_t) (cls : Nat → Nat → ci_status_e)
    (hc : CacheOK T w.os.cache) (hp : get_pairs_temporary K u fp w = .ret pairs w)
    (hall : ∀ x y, x < ID_PAIR_COLLECTION_SIZE → y < ID_PAIR_COLLECTION_SIZE →
      candidate_status K T w.os.os pairs x y = .ok (cls x y)) :
    ∃ i j c us gs, i < ID_PAIR_COLLECTION_SIZE ∧ j < ID_PAIR_COLLECTION_SIZE ∧
      pairs.uids[i]? = some us ∧ pairs.gids[j]? = some gs ∧
      fill_pair K T u false fp w =
        .ret (cls i j, ⟨pairs.prev, ⟨us, gs, pairs.sups⟩⟩) ⟨⟨w.os.os, c⟩, w.errno, w.log⟩ ∧
      cls i j ≠ .ci_invalid ∧
      (∀ x y, x < ID_PAIR_COLLECTION_SIZE → y < ID_PAIR_COLLECTION_SIZE →
        status_rank (cls x y) ≤ status_rank (cls i j)) ∧
      (∀ x y, x < ID_PAIR_COLLECTION_SIZE → y < ID_PAIR_COLLECTION_SIZE → comes_before x y i j →
        status_rank (cls x y) < status_rank (cls i j)) := by
  obtain ⟨⟨os, c⟩, errno, log⟩ := w
  obtain ⟨st1, c1, h1, _, hB⟩ := fill_pair_outer_spec K T pairs cls os errno log hall
    ID_PAIR_COLLECTION_SIZE 0 ⟨.ci_invalid, -1, -1⟩ c (by omega) (Or.inl ⟨rfl, rfl, rfl⟩)
    (by decide) hc
  rcases hB with ⟨_, h, _⟩ | ⟨a, b, ha, hb, _, hst, hmax, hfirst⟩
  · exact absurd h (by decide)
  · obtain ⟨hrk, us, gs, hus, hgs⟩ := candidate_status_ok (hall a b ha hb)
    refine ⟨a, b, c1, us, gs, ha, hb, hus, hgs, ?_, ?_, ?_, hfirst⟩
    · subst hst
      have e : fill_pair K T u false fp = fill_pair_temporary K T u fp := rfl
      rw [e, fill_pair_temporary, bind_apply, hp]
      simp only [bind_apply, h1]
      have e1 : (decide ((a : Int) ≥ 0) && decide ((b : Int) ≥ 0)) = true := by
        simp
      rw [e1]
      simp only [assert, if_true, pure_apply, Int.toNat_ofNat, hus, hgs]
    · intro e
      rw [e] at hrk
      exact absurd hrk (by decide)
    · intro x y hx hy
      refine hmax x y hx hy ?_
      unfold comes_before
      exact Or.inl hx

theorem fill_pair_permanent_spec {σ : Type} (K : OS2 σ) (T : Tables) (u : ucred_t)
    (fp : Bool) (w : World (Mem σ)) (p : pcred_pair_t) (np : norm_pcred_pair_t)
    (can bad : Bool) (hc : CacheOK T w.os.cache)
    (hp : get_pair_permanent K u fp w = .ret p w)
    (h1 : get_normalized_pcred_pair_value T p = .ok np)
    (h2 : can_set_uids_from_graph T np = .ok can)
    (h3 : sups_or_groups_impossible_value K T w.os.os np = .ok bad) :
    ∃ c, fill_pair K T u true fp w =
      .ret (fill_status can bad, p) ⟨⟨w.os.os, c⟩, w.errno, w.log⟩ := by
  obtain ⟨c1, e1, hc1⟩ := cachePure_get_normalized_pcred_pair T p w np hc h1
  obtain ⟨c2, e2, _⟩ := cachePure_sups_or_groups_impossible K T np
    ⟨⟨w.os.os, c1⟩, w.errno, w.log⟩ bad hc1 h3
  refine ⟨c2, ?_⟩
  have e : fill_pair K T u true fp = fill_pair_permanent K T u fp := rfl
  rw [e, fill_pair_permanent, bind_apply, hp]
  simp only [bind_apply, e1, e2, run_ok h2]
  cases can <;> cases bad <;> rfl

theorem sups_or_groups_impossible_value_eq {σ : Type} (K : OS2 σ) (T : Tables) (os : σ)
    (np : norm_pcred_pair_t) (bad : Bool)
    (h : sups_or_groups_impossible_value K T os np = .ok bad) :
    (sups_are_possible_value K T os np = .ok false ∧ bad = true) ∨
      (sups_are_possible_value K T os np = .ok true ∧
        groups_are_possible_value T np = .ok (!bad)) := by
  unfold sups_or_groups_impossible_value at h
  obtain ⟨sp, h1, h2⟩ := res_bind_ok_inv h
  cases sp
  · cases h2
    exact Or.inl ⟨h1, rfl⟩
  · obtain ⟨gp, h3, h4⟩ := res_bind_ok_inv h2
    cases h4
    refine Or.inr ⟨h1, ?_⟩
    rw [h3, Bool.not_not]

/-- C26: for a temporary change, when the tests on each of the 25 pairs of candidates end
without a failed assertion, `fill_pair` returns: its status is that of a pair of candidates
`(i, j)` which it stores in `p->next`, no pair has a status of higher rank (success, then
`ci_setgid_failed`, then `ci_setuid_failed`, then `ci_setuid_setgid_failed`), every pair before
`(i, j)` in the order of the loops has a status of lower rank, the status is not `ci_invalid`,
and the assertion on the indices holds. For a permanent change `fill_pair` returns the status
`fill_status can bad` of the one target, which is `ci_success` exactly when the uids can be set
and the supplementary groups and the gids are possible, and otherwise the failure code for the
part or parts that are not. -/
theorem fill_pair_returns_best {σ : Type} (K : OS2 σ) (T : Tables) (u : ucred_t) (fp : Bool)
    (w : World (Mem σ)) (hc : CacheOK T w.os.cache) :
    (∀ (pairs : id_pairs_t) (cls : Nat → Nat → ci_status_e),
      get_pairs_temporary K u fp w = .ret pairs w →
      (∀ x y, x < ID_PAIR_COLLECTION_SIZE → y < ID_PAIR_COLLECTION_SIZE →
        candidate_status K T w.os.os pairs x y = .ok (cls x y)) →
      ∃ i j c us gs, i < ID_PAIR_COLLECTION_SIZE ∧ j < ID_PAIR_COLLECTION_SIZE ∧
        pairs.uids[i]? = some us ∧ pairs.gids[j]? = some gs ∧
        fill_pair K T u false fp w =
          .ret (cls i j, ⟨pairs.prev, ⟨us, gs, pairs.sups⟩⟩) ⟨⟨w.os.os, c⟩, w.errno, w.log⟩ ∧
        cls i j ≠ .ci_invalid ∧
        (∀ x y, x < ID_PAIR_COLLECTION_SIZE → y < ID_PAIR_COLLECTION_SIZE →
          status_rank (cls x y) ≤ status_rank (cls i j)) ∧
        (∀ x y, x < ID_PAIR_COLLECTION_SIZE → y < ID_PAIR_COLLECTION_SIZE →
          comes_before x y i j → status_rank (cls x y) < status_rank (cls i j))) ∧
    (∀ (p : pcred_pair_t) (np : norm_pcred_pair_t) (can bad : Bool),
      get_pair_permanent K u fp w = .ret p w →
      get_normalized_pcred_pair_value T p = .ok np →
      can_set_uids_from_graph T np = .ok can →
      sups_or_groups_impossible_value K T w.os.os np = .ok bad →
      (∃ c, fill_pair K T u true fp w =
        .ret (fill_status can bad, p) ⟨⟨w.os.os, c⟩, w.errno, w.log⟩) ∧
      ((sups_are_possible_value K T w.os.os np = .ok false ∧ bad = true) ∨
        (sups_are_possible_value K T w.os.os np = .ok true ∧
          groups_are_possible_value T np = .ok (!bad)))) ∧
    (∀ can bad : Bool,
      (fill_status can bad = .ci_success ↔ can = true ∧ bad = false) ∧
      (fill_status can bad = .ci_setuid_failed ↔ can = false ∧ bad = false) ∧
      (fill_status can bad = .ci_setgid_failed ↔ can = true ∧ bad = true) ∧
      (fill_status can bad = .ci_setuid_setgid_failed ↔ can = false ∧ bad = true)) := by
  refine ⟨fun pairs cls hp hall => fill_pair_temporary_spec K T u fp w pairs cls hc hp hall,
    fun p np can bad hp h1 h2 h3 =>
      ⟨fill_pair_permanent_spec K T u fp w p np can bad hc hp h1 h2 h3,
        sups_or_groups_impossible_value_eq K T w.os.os np bad h3⟩, ?_⟩
  decide

theorem ex_cls_spec (x y : Nat) (hx : x < ID_PAIR_COLLECTION_SIZE)
    (hy : y < ID_PAIR_COLLECTION_SIZE) :
    candidate_status ref_os2 (cut_tables 13) ex2_saved.os.os ex_pairs x y = .ok (ex_cls x y) := by
  have h : ∀ a, a < ID_PAIR_COLLECTION_SIZE → ∀ b, b < ID_PAIR_COLLECTION_SIZE →
      candidate_status ref_os2 (cut_tables 13) ex2_saved.os.os ex_pairs a b =
        .ok (ex_cls a b) := by
    decide!
  exact h x hx y hy

theorem fill_pair_returns_best_witness :
    CacheOK (cut_tables 13) ex2_saved.os.cache ∧
      get_pairs_temporary ref_os2 ex_back false ex2_saved = .ret ex_pairs ex2_saved ∧
      (∀ x y, x < ID_PAIR_COLLECTION_SIZE → y < ID_PAIR_COLLECTION_SIZE →
        candidate_status ref_os2 (cut_tables 13) ex2_saved.os.os ex_pairs x y =
          .ok (ex_cls x y)) ∧
      fill_pair ref_os2 (cut_tables 13) ex_back false false ex2_saved =
        .ret (.ci_setgid_failed, ⟨ex_pairs.prev,
            ⟨⟨1000, 500, 500⟩, ⟨100, 100, 100⟩, ⟨[5], 1⟩⟩⟩)
          ⟨⟨ex2_saved.os.os, ⟨true, ⟨1, 1, 2⟩, ⟨1, 1, 2⟩, false⟩⟩, 0, []⟩ ∧
      (∃ i j c us gs, i < ID_PAIR_COLLECTION_SIZE ∧ j < ID_PAIR_COLLECTION_SIZE ∧
        ex_pairs.uids[i]? = some us ∧ ex_pairs.gids[j]? = some gs ∧
        fill_pair ref_os2 (cut_tables 13) ex_back false false ex2_saved =
          .ret (ex_cls i j, ⟨ex_pairs.prev, ⟨us, gs, ex_pairs.sups⟩⟩)
            ⟨⟨ex2_saved.os.os, c⟩, ex2_saved.errno, ex2_saved.log⟩ ∧
        ex_cls i j ≠ .ci_invalid ∧
        (∀ x y, x < ID_PAIR_COLLECTION_SIZE → y < ID_PAIR_COLLECTION_SIZE →
          status_rank (ex_cls x y) ≤ status_rank (ex_cls i j)) ∧
        (∀ x y, x < ID_PAIR_COLLECTION_SIZE → y < ID_PAIR_COLLECTION_SIZE →
          comes_before x y i j → status_rank (ex_cls x y) < status_rank (ex_cls i j))) ∧
      get_pair_permanent ref_os2 ex_back false ex2_saved =
        .ret ⟨ex_pairs.prev, ⟨⟨500, 500, 500⟩, ⟨100, 100, 100⟩, ⟨[5], 1⟩⟩⟩ ex2_saved ∧
      ((∃ c, fill_pair ref_os2 (cut_tables 13) ex_back true false ex2_saved =
        .ret (fill_status false true,
            ⟨ex_pairs.prev, ⟨⟨500, 500, 500⟩, ⟨100, 100, 100⟩, ⟨[5], 1⟩⟩⟩)
          ⟨⟨ex2_saved.os.os, c⟩, ex2_saved.errno, ex2_saved.log⟩) ∧
        ((sups_are_possible_value ref_os2 (cut_tables 13) ex2_saved.os.os ex_np_back =
            .ok false ∧ true = true) ∨
          (sups_are_possible_value ref_os2 (cut_tables 13) ex2_saved.os.os ex_np_back =
            .ok true ∧ groups_are_possible_value (cut_tables 13) ex_np_back = .ok (!true)))) :=
  ⟨fun h => absurd h (by decide), by decide!, ex_cls_spec, by decide!,
    (fill_pair_returns_best ref_os2 (cut_tables 13) ex_back false ex2_saved
      (fun h => absurd h (by decide))).1 ex_pairs ex_cls (by decide!) ex_cls_spec,
    by decide!,
    (fill_pair_returns_best ref_os2 (cut_tables 13) ex_back false ex2_saved
      (fun h => absurd h (by decide))).2.1
      ⟨ex_pairs.prev, ⟨⟨500, 500, 500⟩, ⟨100, 100, 100⟩, ⟨[5], 1⟩⟩⟩ ex_np_back false true
      (by decide!) (by decide!) (by decide!) (by decide!)⟩

/-! ## The mutating calls of a run that returns -/

theorem sys_ret {σ : Type} {c : Call} {f : σ → SysRet σ} {w w1 : World σ} {rc : Int}
    (h : sys c f w = .ret rc w1) (hrc : rc ≠ -1) :
    (f w.os).rc ≠ -1 ∧ w1 = ⟨(f w.os).os, w.errno, w.log ++ [c]⟩ := by
  unfold sys at h
  simp only [Outcome.ret.injEq] at h
  obtain ⟨h1, h2⟩ := h
  subst h1
  refine ⟨hrc, ?_⟩
  rw [← h2, if_neg hrc]

theorem DO_SYS_sys_ret {σ : Type} {c : Call} {f : σ → SysRet σ} {w w1 : World σ} {u : Unit}
    (h : DO_SYS (sys c f) w = .ret u w1) :
    (f w.os).rc ≠ -1 ∧ w1 = ⟨(f w.os).os, w.errno, w.log ++ [c]⟩ := by
  obtain ⟨rc, h1, hrc⟩ := DO_SYS_ret_inv h
  exact sys_ret h1 hrc

theorem eql_sups_ret {σ : Type} (K : OS σ) (c t : sups_t) {w w1 : World σ} {b : Bool}
    (h : eql_sups K c t w = .ret b w1) : eql_sups_pure (K.getegid w.os) c t = some b := by
  unfold eql_sups at h
  cases hp : eql_sups_pure (K.getegid w.os) c t with
  | none =>
    rw [hp] at h
    cases h
  | some b1 =>
    rw [hp] at h
    cases h
    rfl

theorem set_sups_ret {σ : Type} (K : OS σ) (t : sups_t) {w w1 : World σ} {rc : Int}
    (h : set_sups K t w = .ret rc w1) :
    rc = 0 ∧ ∃ sl os1, SupsStep K t w sl os1 ∧ w1 = ⟨os1, w.errno, w.log ++ sl⟩ := by
  unfold set_sups at h
  obtain ⟨euid, wa, h1, h2⟩ := bind_ret_inv h
  simp only [rd, Outcome.ret.injEq] at h1
  obtain ⟨he, hw⟩ := h1
  subst he
  subst hw
  obtain ⟨_, wb, h3, h4⟩ := bind_ret_inv h2
  rw [pure_apply] at h4
  cases h4
  refine ⟨rfl, ?_⟩
  by_cases h0 : K.geteuid w.os = 0
  · rw [if_pos h0] at h3
    obtain ⟨hrc, e⟩ := DO_SYS_sys_ret h3
    exact ⟨_, _, Or.inl ⟨rfl, rfl, hrc, Or.inl h0⟩, e⟩
  · rw [if_neg h0] at h3
    obtain ⟨cur, wc, h5, h6⟩ := bind_ret_inv h3
    obtain ⟨rcg, h5, _⟩ := DO_SYS_get_ret_inv h5
    have ec := (reads_get_sups K).ret_eq h5
    rw [ec] at h5 h6
    obtain ⟨eq, wd, h7, h8⟩ := bind_ret_inv h6
    have ed := (reads_eql_sups K _ _).ret_eq h7
    rw [ed] at h7 h8
    have hp := eql_sups_ret K cur t h7
    cases eq with
    | false =>
      simp only [Bool.not_false, if_true] at h8
      obtain ⟨hrc, e⟩ := DO_SYS_sys_ret h8
      exact ⟨_, _, Or.inl ⟨rfl, rfl, hrc, Or.inr ⟨rcg, cur, h5, hp⟩⟩, e⟩
    | true =>
      simp only [Bool.not_true, Bool.false_eq_true, if_false, pure_apply,
        Outcome.ret.injEq, true_and] at h8
      refine ⟨[], w.os, Or.inr ⟨rfl, rfl, h0, rcg, cur, h5, hp⟩, ?_⟩
      rw [← h8, List.append_nil]

theorem set_gids_ret {σ : Type} (K : OS σ) (r e s : Nat) {w w1 : World σ} {rc : Int}
    (h : set_gids K r e s w = .ret rc w1) :
    (K.setresgid r e s w.os).rc ≠ -1 ∧
      w1 = ⟨(K.setresgid r e s w.os).os, w.errno, w.log ++ [.setresgid r e s]⟩ := by
  unfold set_gids at h
  obtain ⟨_, wa, h1, h2⟩ := bind_ret_inv h
  rw [pure_apply] at h2
  cases h2
  exact DO_SYS_sys_ret h1

theorem set_uids_ret {σ : Type} (K : OS σ) (r e s : Nat) {w w1 : World σ} {rc : Int}
    (h : set_uids K r e s w = .ret rc w1) :
    (K.setresuid r e s w.os).rc ≠ -1 ∧
      w1 = ⟨(K.setresuid r e s w.os).os, w.errno, w.log ++ [.setresuid r e s]⟩ := by
  unfold set_uids at h
  obtain ⟨_, wa, h1, h2⟩ := bind_ret_inv h
  rw [pure_apply] at h2
  cases h2
  exact DO_SYS_sys_ret h1

theorem drop_privileges_permanently_calls {σ : Type} (K : OS σ) (uc : ucred_t)
    (w w2 : World σ) (rc : Int) (h : drop_privileges_permanently K uc w = .ret rc w2) :
    ∃ sl os1, SupsStep K uc.sups w sl os1 ∧
      w2.log = w.log ++ sl ++
        [.setresgid uc.gid uc.gid uc.gid, .setresuid uc.uid uc.uid uc.uid] := by
  unfold drop_privileges_permanently at h
  obtain ⟨_, w1, hs, k1⟩ := bind_ret_inv h
  have e1 := (ucred_is_sane_true K uc (DO_CHK_ret_inv hs)).2
  rw [e1] at k1
  obtain ⟨_, w3, hsup, k2⟩ := bind_ret_inv k1
  obtain ⟨rc1, hsup1, _⟩ := DO_SYS_ret_inv hsup
  obtain ⟨_, sl, os1, hstep, e3⟩ := set_sups_ret K _ hsup1
  obtain ⟨_, w4, hg, k3⟩ := bind_ret_inv k2
  obtain ⟨rc2, hg1, _⟩ := DO_SYS_ret_inv hg
  obtain ⟨_, e4⟩ := set_gids_ret K _ _ _ hg1
  obtain ⟨_, w5, hu, k4⟩ := bind_ret_inv k3
  obtain ⟨rc3, hu1, _⟩ := DO_SYS_ret_inv hu
  obtain ⟨_, e5⟩ := set_uids_ret K _ _ _ hu1
  have e6 := (reads_verify_permanent K uc).ret_eq k4
  refine ⟨sl, os1, hstep, ?_⟩
  rw [e6, e5, e4, e3]
  simp only [List.append_assoc, List.singleton_append]

theorem drop_privileges_temporarily_calls {σ : Type} (K : OS σ) (uc : ucred_t)
    (w w2 : World σ) (rc : Int) (h : drop_privileges_temporarily K uc w = .ret rc w2) :
    ∃ sl os1, SupsStep K uc.sups w sl os1 ∧
      w2.log = w.log ++ sl ++
        [.setresgid (K.getgid w.os) uc.gid
            (new_saved (K.getgid w.os) (K.getegid w.os) (K.getresgid w.os).2.s uc.gid),
          .setresuid (K.getuid w.os) uc.uid
            (new_saved (K.getuid w.os) (K.geteuid w.os) (K.getresuid w.os).2.s uc.uid)] := by
  unfold drop_privileges_temporarily at h
  obtain ⟨_, w1, hs, k1⟩ := bind_ret_inv h
  have e1 := (ucred_is_sane_true K uc (DO_CHK_ret_inv hs)).2
  rw [e1] at k1
  obtain ⟨old, wa, hold0, k2⟩ := bind_ret_inv k1
  obtain ⟨rco, hold, _⟩ := DO_SYS_get_ret_inv hold0
  have ea := (reads_get_pcred K).ret_eq hold
  rw [ea] at k2
  obtain ⟨_, hur, hue, hus, hgr, hge, hgs⟩ := get_pcred_ret K hold
  obtain ⟨_, w3, hsup, k3⟩ := bind_ret_inv k2
  obtain ⟨rc1, hsup1, _⟩ := DO_SYS_ret_inv hsup
  obtain ⟨_, sl, os1, hstep, e3⟩ := set_sups_ret K _ hsup1
  obtain ⟨_, w4, hg, k4⟩ := bind_ret_inv k3
  obtain ⟨rc2, hg1, _⟩ := DO_SYS_ret_inv hg
  obtain ⟨_, e4⟩ := set_gids_ret K _ _ _ hg1
  obtain ⟨_, w5, hu, k5⟩ := bind_ret_inv k4
  obtain ⟨rc3, hu1, _⟩ := DO_SYS_ret_inv hu
  obtain ⟨_, e5⟩ := set_uids_ret K _ _ _ hu1
  have e6 := (reads_verify_temporary K uc old _ _).ret_eq k5
  refine ⟨sl, os1, hstep, ?_⟩
  rw [e6, e5, e4, e3]
  simp only [List.append_assoc, List.singleton_append, hur, hue, hus, hgr, hge, hgs]

theorem restore_privileges_calls {σ : Type} (K : OS σ) (uc : ucred_t)
    (w w2 : World σ) (rc : Int) (h : restore_privileges K uc w = .ret rc w2) :
    ∃ ul sl gl w3 os4, w2.log = w.log ++ ul ++ sl ++ gl ∧
      ((uc.uid ≠ K.geteuid w.os ∧ ul = [.seteuid uc.uid] ∧
          w3 = ⟨(K.seteuid uc.uid w.os).os, w.errno, w.log ++ [.seteuid uc.uid]⟩) ∨
        (uc.uid = K.geteuid w.os ∧ ul = [] ∧ w3 = w)) ∧
      SupsStep K uc.sups w3 sl os4 ∧
      ((uc.gid ≠ K.getegid os4 ∧ gl = [.setegid uc.gid]) ∨
        (uc.gid = K.getegid os4 ∧ gl = [])) := by
  unfold restore_privileges at h
  obtain ⟨_, w1, hs, k1⟩ := bind_ret_inv h
  have e1 := (ucred_is_sane_true K uc (DO_CHK_ret_inv hs)).2
  rw [e1] at k1
  obtain ⟨euid, wa, hrd, k2⟩ := bind_ret_inv k1
  simp only [rd, Outcome.ret.injEq] at hrd
  obtain ⟨he, hwa⟩ := hrd
  subst he
  subst hwa
  obtain ⟨_, w3, hu, k3⟩ := bind_ret_inv k2
  obtain ⟨_, w4, hsup, k4⟩ := bind_ret_inv k3
  obtain ⟨rc1, hsup1, _⟩ := DO_SYS_ret_inv hsup
  obtain ⟨_, sl, os4, hstep, e4⟩ := set_sups_ret K _ hsup1
  obtain ⟨egid, wb, hrd2, k5⟩ := bind_ret_inv k4
  simp only [rd, Outcome.ret.injEq] at hrd2
  obtain ⟨hg0, hwb⟩ := hrd2
  subst hg0
  subst hwb
  obtain ⟨_, w6, hg, k6⟩ := bind_ret_inv k5
  have e7 := (reads_verify_restore K uc).ret_eq k6
  have hos4 : w4.os = os4 := by rw [e4]
  rw [hos4] at hg
  by_cases hu0 : uc.uid ≠ K.geteuid w.os
  · rw [if_pos hu0] at hu
    obtain ⟨_, e3⟩ := DO_SYS_sys_ret hu
    by_cases hg1 : uc.gid ≠ K.getegid os4
    · rw [if_pos hg1] at hg
      obtain ⟨_, e6⟩ := DO_SYS_sys_ret hg
      refine ⟨[.seteuid uc.uid], sl, [.setegid uc.gid], w3, os4, ?_,
        Or.inl ⟨hu0, rfl, e3⟩, hstep, Or.inl ⟨hg1, rfl⟩⟩
      rw [e7, e6, e4, e3]
    · rw [if_neg hg1, pure_apply] at hg
      cases hg
      refine ⟨[.seteuid uc.uid], sl, [], w3, os4, ?_,
        Or.inl ⟨hu0, rfl, e3⟩, hstep, Or.inr ⟨not_not.mp hg1, rfl⟩⟩
      rw [e7, e4, e3, List.append_nil]
  · rw [if_neg hu0, pure_apply] at hu
    cases hu
    by_cases hg1 : uc.gid ≠ K.getegid os4
    · rw [if_pos hg1] at hg
      obtain ⟨_, e6⟩ := DO_SYS_sys_ret hg
      refine ⟨[], sl, [.setegid uc.gid], w, os4, ?_,
        Or.inr ⟨not_not.mp hu0, rfl, rfl⟩, hstep, Or.inl ⟨hg1, rfl⟩⟩
      rw [e7, e6, e4, List.append_nil]
    · rw [if_neg hg1, pure_apply] at hg
      cases hg
      refine ⟨[], sl, [], w, os4, ?_,
        Or.inr ⟨not_not.mp hu0, rfl, rfl⟩, hstep, Or.inr ⟨not_not.mp hg1, rfl⟩⟩
      rw [e7, e4, List.append_nil, List.append_nil]

/-- C10: `drop_privileges_permanently` and `drop_privileges_temporarily` issue their mutating
calls in the order supplementary groups, gid triple, uid triple, and `restore_privileges` in
the order effective uid, supplementary groups, effective gid. In every run, however it ends,
the calls issued are some of these calls in this order, each at most once. In every run that
returns, the calls of the two drop functions are exactly those of `set_sups` (the call
`setgroups`, always issued for effective uid 0, or no call), then `setresgid`, then
`setresuid`; and those of `restore_privileges` are exactly `seteuid` when the target uid is not
the effective uid, then those of `set_sups`, then `setegid` when the target gid is not the
effective gid at that point. -/
theorem mutating_steps_order {σ : Type} (K : OS σ) (uc : ucred_t) (w : World σ) :
    (∃ l, (drop_privileges_permanently K uc w).world.log = w.log ++ l ∧
      List.Sublist l [.setgroups uc.sups.size uc.sups.list,
        .setresgid uc.gid uc.gid uc.gid, .setresuid uc.uid uc.uid uc.uid]) ∧
    (∃ l, (drop_privileges_temporarily K uc w).world.log = w.log ++ l ∧
      List.Sublist l [.setgroups uc.sups.size uc.sups.list,
        .setresgid (K.getgid w.os) uc.gid
          (new_saved (K.getgid w.os) (K.getegid w.os) (K.getresgid w.os).2.s uc.gid),
        .setresuid (K.getuid w.os) uc.uid
          (new_saved (K.getuid w.os) (K.geteuid w.os) (K.getresuid w.os).2.s uc.uid)]) ∧
    (∃ l, (restore_privileges K uc w).world.log = w.log ++ l ∧
      List.Sublist l [.seteuid uc.uid, .setgroups uc.sups.size uc.sups.list,
        .setegid uc.gid]) ∧
    (∀ rc w2, drop_privileges_permanently K uc w = .ret rc w2 →
      ∃ sl os1, SupsStep K uc.sups w sl os1 ∧
        w2.log = w.log ++ sl ++
          [.setresgid uc.gid uc.gid uc.gid, .setresuid uc.uid uc.uid uc.uid]) ∧
    (∀ rc w2, drop_privileges_temporarily K uc w = .ret rc w2 →
      ∃ sl os1, SupsStep K uc.sups w sl os1 ∧
        w2.log = w.log ++ sl ++
          [.setresgid (K.getgid w.os) uc.gid
              (new_saved (K.getgid w.os) (K.getegid w.os) (K.getresgid w.os).2.s uc.gid),
            .setresuid (K.getuid w.os) uc.uid
              (new_saved (K.getuid w.os) (K.geteuid w.os) (K.getresuid w.os).2.s uc.uid)]) ∧
    (∀ rc w2, restore_privileges K uc w = .ret rc w2 →
      ∃ ul sl gl w3 os4, w2.log = w.log ++ ul ++ sl ++ gl ∧
        ((uc.uid ≠ K.geteuid w.os ∧ ul = [.seteuid uc.uid] ∧
            w3 = ⟨(K.seteuid uc.uid w.os).os, w.errno, w.log ++ [.seteuid uc.uid]⟩) ∨
          (uc.uid = K.geteuid w.os ∧ ul = [] ∧ w3 = w)) ∧
        SupsStep K uc.sups w3 sl os4 ∧
        ((uc.gid ≠ K.getegid os4 ∧ gl = [.setegid uc.gid]) ∨
          (uc.gid = K.getegid os4 ∧ gl = []))) ∧
    (K.geteuid w.os = 0 →
      (∀ rc w2, drop_privileges_permanently K uc w = .ret rc w2 →
        w2.log = w.log ++ [.setgroups uc.sups.size uc.sups.list,
          .setresgid uc.gid uc.gid uc.gid, .setresuid uc.uid uc.uid uc.uid]) ∧
      (∀ rc w2, drop_privileges_temporarily K uc w = .ret rc w2 →
        w2.log = w.log ++ [.setgroups uc.sups.size uc.sups.list,
          .setresgid (K.getgid w.os) uc.gid
            (new_saved (K.getgid w.os) (K.getegid w.os) (K.getresgid w.os).2.s uc.gid),
          .setresuid (K.getuid w.os) uc.uid
            (new_saved (K.getuid w.os) (K.geteuid w.os) (K.getresuid w.os).2.s uc.uid)])) := by
  refine ⟨logsAt_drop_privileges_permanently K uc w,
    logsAt_drop_privileges_temporarily K uc w, logsAt_restore_privileges K uc w,
    fun rc w2 => drop_privileges_permanently_calls K uc w w2 rc,
    fun rc w2 => drop_privileges_temporarily_calls K uc w w2 rc,
    fun rc w2 => restore_privileges_calls K uc w w2 rc, fun h0 => ⟨?_, ?_⟩⟩
  · intro rc w2 h
    obtain ⟨sl, os1, hstep, hlog⟩ := drop_privileges_permanently_calls K uc w w2 rc h
    rcases hstep with ⟨hsl, _⟩ | ⟨_, _, hne, _⟩
    · rw [hlog, hsl, List.append_assoc, List.singleton_append]
    · exact absurd h0 hne
  · intro rc w2 h
    obtain ⟨sl, os1, hstep, hlog⟩ := drop_privileges_temporarily_calls K uc w w2 rc h
    rcases hstep with ⟨hsl, _⟩ | ⟨_, _, hne, _⟩
    · rw [hlog, hsl, List.append_assoc, List.singleton_append]
    · exact absurd h0 hne

theorem mutating_steps_order_witness :
    ref_os.geteuid ex_root.os = 0 ∧
      drop_privileges_permanently ref_os ex_user ex_root = .ret 0 ex_dropped ∧
      ex_dropped.log = ex_root.log ++
        [.setgroups 2 [4, 24], .setresgid 100 100 100, .setresuid 1000 1000 1000] ∧
      drop_privileges_temporarily ref_os ex_user ex_root = .ret 0 ex_lowered ∧
      ex_lowered.log = ex_root.log ++
        [.setgroups 2 [4, 24], .setresgid 0 100 0, .setresuid 0 1000 0] ∧
      restore_privileges ref_os ex_orig ex_lowered = .ret 0 ex_restored ∧
      (∃ ul sl gl w3 os4, ex_restored.log = ex_lowered.log ++ ul ++ sl ++ gl ∧
        ((ex_orig.uid ≠ ref_os.geteuid ex_lowered.os ∧ ul = [.seteuid ex_orig.uid] ∧
            w3 = ⟨(ref_os.seteuid ex_orig.uid ex_lowered.os).os, ex_lowered.errno,
              ex_lowered.log ++ [.seteuid ex_orig.uid]⟩) ∨
          (ex_orig.uid = ref_os.geteuid ex_lowered.os ∧ ul = [] ∧ w3 = ex_lowered)) ∧
        SupsStep ref_os ex_orig.sups w3 sl os4 ∧
        ((ex_orig.gid ≠ ref_os.getegid os4 ∧ gl = [.setegid ex_orig.gid]) ∨
          (ex_orig.gid = ref_os.getegid os4 ∧ gl = []))) ∧
      ex_restored.log = ex_lowered.log ++ [.seteuid 0, .setgroups 1 [0], .setegid 0] :=
  ⟨by decide, by decide,
    ((mutating_steps_order ref_os ex_user ex_root).2.2.2.2.2.2 (by decide)).1 0 ex_dropped
      (by decide),
    by decide,
    ((mutating_steps_order ref_os ex_user ex_root).2.2.2.2.2.2 (by decide)).2 0 ex_lowered
      (by decide),
    by decide,
    (mutating_steps_order ref_os ex_orig ex_lowered).2.2.2.2.2.1 0 ex_restored (by decide),
    by decide⟩

/-! ## `priv2`: a temporary change that takes the capability path -/

/-- C12 (code defect): a successful `change_identity_temporarily` that takes the capability
path of `change_identity_linux` does not keep the prior effective uid. A process with uids
`(500, 1000, 1000)` that holds `CAP_SETUID` and `CAP_SETGID` asks for uid 500 and gid 300. The
target `fill_pair` builds without `force_privileged` is `(500, 500, 1000)`, which keeps the
effective uid 1000 as saved uid, but the gid cannot be changed through the graph and
`change_identity_basic` returns `ci_setgid_failed`. `change_identity_linux` then calls
`fill_pair` with `force_privileged` true, `new_pair` replaces the effective uid by 0, and the
target is `(500, 500, 0)`. The call returns 0 after `setegid(300)` and
`setresuid(500, 500, 0)`: the effective uid is the target 500, the uid 1000 is neither the real
nor the saved uid, and the test of `Priv2SanityVisitor::visitVertex` on a successful temporary
change fails. -/
theorem temporary_retry_loses_effective_uid :
    cap_os2.geteuid ex2_caps.os.os = 1000 ∧
      fill_pair cap_os2 ref_tables ex_regroup false false ex2_caps =
        .ret (.ci_setgid_failed, ⟨⟨⟨500, 1000, 1000⟩, ⟨100, 100, 100⟩, ⟨[4, 24], 2⟩⟩,
          ⟨⟨500, 500, 1000⟩, ⟨100, 300, 100⟩, ⟨[4, 24], 2⟩⟩⟩)
          ⟨⟨ex2_caps.os.os, ⟨true, ⟨1, 2, 2⟩, ⟨2, 1, 2⟩, false⟩⟩, 0, []⟩ ∧
      visitVertex_temp_uids 1000 ⟨500, 500, 1000⟩ ex_regroup.uid = true ∧
      change_identity_basic cap_os2 ref_tables ex_regroup false ex2_caps =
        .ret .ci_setgid_failed
          ⟨⟨ex2_caps.os.os, ⟨true, ⟨1, 2, 2⟩, ⟨2, 1, 2⟩, false⟩⟩, 0, []⟩ ∧
      can_set_cap cap_os2 CAP_SETGID
          ⟨⟨ex2_caps.os.os, ⟨true, ⟨1, 2, 2⟩, ⟨2, 1, 2⟩, false⟩⟩, 0, []⟩ =
        .ret true ⟨⟨ex2_caps.os.os, ⟨true, ⟨1, 2, 2⟩, ⟨2, 1, 2⟩, false⟩⟩, 0, []⟩ ∧
      fill_pair cap_os2 ref_tables ex_regroup false true
          ⟨⟨ex2_caps.os.os, ⟨true, ⟨1, 2, 2⟩, ⟨2, 1, 2⟩, false⟩⟩, 0, []⟩ =
        .ret (.ci_success, ⟨⟨⟨500, 0, 1000⟩, ⟨100, 100, 100⟩, ⟨[4, 24], 2⟩⟩,
          ⟨⟨500, 500, 0⟩, ⟨100, 300, 100⟩, ⟨[4, 24], 2⟩⟩⟩)
          ⟨⟨ex2_caps.os.os, ⟨true, ⟨1, 0, 2⟩, ⟨1, 0, 2⟩, true⟩⟩, 0, []⟩ ∧
      change_identity_temporarily cap_os2 ref_tables ex_regroup ex2_caps =
        .ret 0 ⟨⟨⟨⟨500, 500, 0⟩, ⟨100, 300, 100⟩, 500, 300, [4, 24]⟩,
            ⟨true, ⟨1, 0, 2⟩, ⟨1, 0, 2⟩, true⟩⟩, 0,
          [.setegid 300, .setresuid 500 500 0]⟩ ∧
      visitVertex_temp_uids (cap_os2.geteuid ex2_caps.os.os)
          (change_identity_temporarily cap_os2 ref_tables ex_regroup ex2_caps).world.os.os.uids
          ex_regroup.uid = false ∧
      change_identity_permanently cap_os2 ref_tables ex_regroup ex2_caps =
        .ret 0 ⟨⟨⟨⟨500, 500, 500⟩, ⟨300, 300, 300⟩, 500, 300, [4, 24]⟩,
            ⟨true, ⟨1, 0, 2⟩, ⟨1, 0, 2⟩, true⟩⟩, 0,
          [.setgid 300, .setuid 500]⟩ ∧
      visitVertex_perm_uids
          (change_identity_permanently cap_os2 ref_tables ex_regroup ex2_caps).world.os.os.uids
          ex_regroup.uid = true := by
  decide!

end Priv
